import Mathlib

/-!
# Offline-first data access of the family meal planner

A shallow embedding of `family-meal-planner/src/js/supabase.js`.

The module talks to three collaborators that are not part of it:

* the Supabase client (`supabase.from(..)...`), embedded as a state machine
  `Env.respond` that answers one `Request` at a time with a `Response`
  (a `{data, error}` value or a thrown exception);
* the helpers imported from `./indexedDB.js` (`cacheData`, `getCachedData`,
  `addPendingChange`, `getPendingChanges`, `markChangeAsSynced`,
  `removeSyncedChanges`, `isOnline`), which are parameters of the embedding
  (`Env`), each of them a state transformer on the local store that may throw;
* the clock (`Date.now()`, `new Date()`), a stream of readings.

Every call to a collaborator is recorded, in program order, in the ghost
field `World.trace`, so that statements such as "exactly one backend call" or
"no cache write" are statements about the trace.

`LocalStore` and `storeEnv` give the behaviour the specification prescribes for
the helpers of `./indexedDB.js`.
-/

namespace MealPlanner

deriving instance DecidableEq for Except

/-! ## Values -/

/-- An error object (a non-null `error` of a backend result, or a thrown
exception).  As an object it is always truthy. -/
structure Err where
  message : String
  deriving DecidableEq, Repr

/-- A JavaScript value stored in a field of a record.  Objects and arrays nested
in a record are represented by their reference `ref`, which is what strict
equality compares. -/
inductive Val where
  | undefined
  | null
  | bool (b : Bool)
  | num (n : Int)
  | str (s : String)
  | ref (addr : Nat)
  deriving DecidableEq, Repr

/-- JavaScript truthiness of a field value. -/
def Val.truthy : Val → Bool
  | .undefined => false
  | .null => false
  | .bool b => b
  | .num n => n != 0
  | .str s => s != ""
  | .ref _ => true

/-- A record (a plain JavaScript object): its own properties in order. -/
abbrev Obj := List (String × Val)

/-- Property read `o[k]`: the value of the property, `undefined` when absent. -/
def fieldOf : Obj → String → Val
  | [], _ => .undefined
  | (k', v') :: rest, k => if k' = k then v' else fieldOf rest k

/-- Property write as done by an object literal `{...o, k: v}`: an existing
property keeps its position and takes the new value, a new one is added last. -/
def setField : Obj → String → Val → Obj
  | [], k, v => [(k, v)]
  | (k', v') :: rest, k, v =>
    if k' = k then (k, v) :: rest else (k', v') :: setField rest k v

/-- The `data` of a backend result, and the values handed to and returned by
the local cache: a primitive (`null`, `undefined`, ...), one record, or an
array of records. -/
inductive Data where
  | val (v : Val)
  | row (o : Obj)
  | rows (xs : List Obj)
  deriving DecidableEq, Repr

/-- JavaScript truthiness of `data`: objects and arrays (also the empty array)
are truthy. -/
def Data.truthy : Data → Bool
  | .val v => v.truthy
  | .row _ => true
  | .rows _ => true

/-- The expression `data[0]` for a truthy `data`. -/
def Data.first : Data → Data
  | .rows (x :: _) => .row x
  | .rows [] => .val .undefined
  | .row o => .val (fieldOf o "0")
  | .val (.str s) =>
    match s.data with
    | [] => .val .undefined
    | c :: _ => .val (.str (String.mk [c]))
  | .val _ => .val .undefined

/-! ## The backend -/

/-- The queries the module builds with the Supabase client.
`select t cols c v order single` is
`from(t).select(cols).eq(c, v)` followed by `.order(col, {ascending})` when
`order` is given and by `.single()` when `single` is set;
`insert t p` is `from(t).insert(p).select()`;
`update t p id` is `from(t).update(p).eq('id', id).select()`;
`delete t id` is `from(t).delete().eq('id', id)`. -/
inductive Request where
  | select (table columns column : String) (value : Val)
      (order : Option (String × Bool)) (single : Bool)
  | insert (table : String) (payload : Obj)
  | update (table : String) (payload : Obj) (id : Val)
  | delete (table : String) (id : Val)
  deriving DecidableEq, Repr

/-- What awaiting a query gives: a `{data, error}` result, or an exception. -/
inductive Response where
  | returned (data : Data) (error : Option Err)
  | threw (e : Err)
  deriving DecidableEq, Repr

/-- The failure carried by a response, as `syncPendingChanges` reads it: the
thrown exception, or a non-null `error` of the result. -/
def Response.failure : Response → Option Err
  | .threw e => some e
  | .returned _ (some e) => some e
  | .returned _ none => none

/-! ## Pending changes -/

/-- The object `createRecipe` hands to `addPendingChange`. -/
structure ChangeInput where
  type : String
  entity : String
  data : Obj
  deriving DecidableEq, Repr

/-- An entry of the pending change log as `syncPendingChanges` reads it:
`change.id`, `change.type`, `change.entity`, `change.data`, `change.synced`. -/
structure Change where
  id : Val
  type : String
  entity : String
  data : Obj
  synced : Bool
  deriving DecidableEq, Repr

/-! ## Worlds and traces -/

/-- One call to a collaborator.  For the helpers of the local store the last
argument is the exception the call threw, if any. -/
inductive Event where
  | isOnline (answer : Bool)
  | clock (reading : Nat)
  | backend (req : Request) (resp : Response)
  | cacheData (storeName : String) (d : Data) (failed : Option Err)
  | getCachedData (storeName : String) (key : Option Val) (failed : Option Err)
  | addPendingChange (c : ChangeInput) (failed : Option Err)
  | getPendingChanges (failed : Option Err)
  | markChangeAsSynced (id : Val) (failed : Option Err)
  | removeSyncedChanges (failed : Option Err)
  deriving DecidableEq, Repr

/-- The collaborators of the module: the helpers of `./indexedDB.js` acting on
a local store of type `σ`, the backend acting on a state of type `β`, and the
clock. -/
structure Env (σ β : Type) where
  isOnline : σ → Bool
  cacheData : String → Data → σ → Option Err × σ
  getCachedData : String → Option Val → σ → Except Err Data × σ
  addPendingChange : ChangeInput → σ → Option Err × σ
  getPendingChanges : σ → Except Err (List Change) × σ
  markChangeAsSynced : Val → σ → Option Err × σ
  removeSyncedChanges : σ → Option Err × σ
  respond : β → Request → Response × β
  now : Nat → Nat
  toISOString : Nat → String

/-- The state the module runs in. -/
structure World (σ β : Type) where
  store : σ
  backend : β
  clockReads : Nat
  trace : List Event

variable {σ β : Type}

/-- Record an event. -/
def World.emit (w : World σ β) (e : Event) : World σ β :=
  { w with trace := w.trace ++ [e] }

/-- The call `isOnline()`. -/
def isOnline (E : Env σ β) (w : World σ β) : Bool × World σ β :=
  (E.isOnline w.store, w.emit (.isOnline (E.isOnline w.store)))

/-- Awaiting a query of the Supabase client. -/
def callBackend (E : Env σ β) (req : Request) (w : World σ β) : Response × World σ β :=
  ((E.respond w.backend req).1,
    { w with backend := (E.respond w.backend req).2,
             trace := w.trace ++ [.backend req (E.respond w.backend req).1] })

/-- The call `Date.now()` (and the reading taken by `new Date()`). -/
def dateNow (E : Env σ β) (w : World σ β) : Nat × World σ β :=
  (E.now w.clockReads,
    { w with clockReads := w.clockReads + 1,
             trace := w.trace ++ [.clock (E.now w.clockReads)] })

/-- The call `cacheData(storeName, d)`. -/
def cacheData (E : Env σ β) (storeName : String) (d : Data) (w : World σ β) :
    Option Err × World σ β :=
  ((E.cacheData storeName d w.store).1,
    { w with store := (E.cacheData storeName d w.store).2,
             trace := w.trace ++ [.cacheData storeName d (E.cacheData storeName d w.store).1] })

/-- The exception of a fallible answer, if any. -/
def failureOf {α : Type} : Except Err α → Option Err
  | .ok _ => none
  | .error e => some e

/-- The call `getCachedData(storeName)` or `getCachedData(storeName, key)`. -/
def getCachedData (E : Env σ β) (storeName : String) (key : Option Val) (w : World σ β) :
    Except Err Data × World σ β :=
  ((E.getCachedData storeName key w.store).1,
    { w with store := (E.getCachedData storeName key w.store).2,
             trace := w.trace ++
               [.getCachedData storeName key (failureOf (E.getCachedData storeName key w.store).1)] })

/-- The call `addPendingChange(c)`. -/
def addPendingChange (E : Env σ β) (c : ChangeInput) (w : World σ β) :
    Option Err × World σ β :=
  ((E.addPendingChange c w.store).1,
    { w with store := (E.addPendingChange c w.store).2,
             trace := w.trace ++ [.addPendingChange c (E.addPendingChange c w.store).1] })

/-- The call `getPendingChanges()`. -/
def getPendingChanges (E : Env σ β) (w : World σ β) :
    Except Err (List Change) × World σ β :=
  ((E.getPendingChanges w.store).1,
    { w with store := (E.getPendingChanges w.store).2,
             trace := w.trace ++ [.getPendingChanges (failureOf (E.getPendingChanges w.store).1)] })

/-- The call `markChangeAsSynced(id)`. -/
def markChangeAsSynced (E : Env σ β) (id : Val) (w : World σ β) :
    Option Err × World σ β :=
  ((E.markChangeAsSynced id w.store).1,
    { w with store := (E.markChangeAsSynced id w.store).2,
             trace := w.trace ++ [.markChangeAsSynced id (E.markChangeAsSynced id w.store).1] })

/-- The call `removeSyncedChanges()`. -/
def removeSyncedChanges (E : Env σ β) (w : World σ β) : Option Err × World σ β :=
  ((E.removeSyncedChanges w.store).1,
    { w with store := (E.removeSyncedChanges w.store).2,
             trace := w.trace ++ [.removeSyncedChanges (E.removeSyncedChanges w.store).1] })

/-! ## Results -/

/-- The object a data operation resolves to.  `data = none` and
`isOffline = none` say that the object has no such property (`deleteRecipe`
returns `{error}`, the online paths return `{data, error}`). -/
structure Result where
  data : Option Data
  error : Option Err
  isOffline : Option Bool
  deriving DecidableEq, Repr

/-- The `errors` property of the object `syncPendingChanges` resolves to. -/
inductive ErrorsField where
  | absent
  | null
  | list (es : List (Change × Err))
  deriving DecidableEq, Repr

/-- The object `syncPendingChanges` resolves to; `processed = none` says the
object has no such property. -/
structure SyncResult where
  success : Bool
  processed : Option Nat
  errors : ErrorsField
  deriving DecidableEq, Repr

/-- The `TypeError` raised by reading a property of `undefined`. -/
def typeErrorUndefined : Err :=
  ⟨"TypeError: Cannot read properties of undefined"⟩

/-- The `TypeError` raised by calling `.filter` on a value that is no array. -/
def typeErrorNotArray : Err :=
  ⟨"TypeError: allRecipes.filter is not a function"⟩

/-! ## Recipe reads -/

/-- The query of `getRecipes(userId)`:
`from('recipes').select('*').eq('user_id', userId).order('created_at', {ascending: false})`. -/
def recipesQuery (userId : Val) : Request :=
  .select "recipes" "*" "user_id" userId (some ("created_at", false)) false

/-- The columns `getRecipe` selects. -/
def recipeColumns : String :=
  "*, recipe_ingredients(id, quantity, unit, notes, ingredients(id, name, category))"

/-- The query of `getRecipe(recipeId)`:
`from('recipes').select(columns).eq('id', recipeId).single()`. -/
def recipeQuery (recipeId : Val) : Request :=
  .select "recipes" recipeColumns "id" recipeId none true

/-- The two statements shared by the offline branch and the `catch` block of
`getRecipes`: `allRecipes = await getCachedData('recipes')`, then
`allRecipes.filter(recipe => recipe.user_id === userId)`, returned as
`{data: userRecipes, error: null, isOffline: true}`. -/
def recipesFromCache (E : Env σ β) (userId : Val) (w : World σ β) :
    Except Err Result × World σ β :=
  match getCachedData E "recipes" none w with
  | (.error e, w1) => (.error e, w1)
  | (.ok (.rows all), w1) =>
    (.ok ⟨some (.rows (all.filter (fun recipe => fieldOf recipe "user_id" = userId))),
      none, some true⟩, w1)
  | (.ok _, w1) => (.error typeErrorNotArray, w1)

/-- The `try` block of `getRecipes`. -/
def getRecipesTry (E : Env σ β) (userId : Val) (w : World σ β) :
    Except Err Result × World σ β :=
  match isOnline E w with
  | (true, w0) =>
    match callBackend E (recipesQuery userId) w0 with
    | (.threw e, w1) => (.error e, w1)
    | (.returned data error, w1) =>
      if data.truthy then
        match cacheData E "recipes" data w1 with
        | (some e, w2) => (.error e, w2)
        | (none, w2) => (.ok ⟨some data, error, none⟩, w2)
      else (.ok ⟨some data, error, none⟩, w1)
  | (false, w0) => recipesFromCache E userId w0

/-- The function `getRecipes(userId)`: the `try` block, and on an exception
the `catch` block, whose own exceptions propagate. -/
def getRecipes (E : Env σ β) (userId : Val) (w : World σ β) :
    Except Err Result × World σ β :=
  match getRecipesTry E userId w with
  | (.ok r, w1) => (.ok r, w1)
  | (.error _, w1) => recipesFromCache E userId w1

/-- The two statements shared by the offline branch and the `catch` block of
`getRecipe`: `recipe = await getCachedData('recipes', recipeId)`, returned as
`{data: recipe, error: null, isOffline: true}`. -/
def recipeFromCache (E : Env σ β) (recipeId : Val) (w : World σ β) :
    Except Err Result × World σ β :=
  match getCachedData E "recipes" (some recipeId) w with
  | (.error e, w1) => (.error e, w1)
  | (.ok recipe, w1) => (.ok ⟨some recipe, none, some true⟩, w1)

/-- The `try` block of `getRecipe`. -/
def getRecipeTry (E : Env σ β) (recipeId : Val) (w : World σ β) :
    Except Err Result × World σ β :=
  match isOnline E w with
  | (true, w0) =>
    match callBackend E (recipeQuery recipeId) w0 with
    | (.threw e, w1) => (.error e, w1)
    | (.returned data error, w1) =>
      if data.truthy then
        match cacheData E "recipes" data w1 with
        | (some e, w2) => (.error e, w2)
        | (none, w2) => (.ok ⟨some data, error, none⟩, w2)
      else (.ok ⟨some data, error, none⟩, w1)
  | (false, w0) => recipeFromCache E recipeId w0

/-- The function `getRecipe(recipeId)`. -/
def getRecipe (E : Env σ β) (recipeId : Val) (w : World σ β) :
    Except Err Result × World σ β :=
  match getRecipeTry E recipeId w with
  | (.ok r, w1) => (.ok r, w1)
  | (.error _, w1) => recipeFromCache E recipeId w1

/-! ## Recipe writes -/

/-- The temporary identity `'temp_' + Date.now()`. -/
def tempId (t : Nat) : String := "temp_" ++ toString t

/-- The object `{...recipeData, id: tempId, created_at: new Date().toISOString()}`
built from the two clock readings `t` and `t'`. -/
def recipeWithTempId (E : Env σ β) (recipeData : Obj) (t t' : Nat) : Obj :=
  setField (setField recipeData "id" (.str (tempId t))) "created_at" (.str (E.toISOString t'))

/-- The function `createRecipe(recipeData)`.  It has no `try`: an exception of
the backend or of the local store propagates. -/
def createRecipe (E : Env σ β) (recipeData : Obj) (w : World σ β) :
    Except Err Result × World σ β :=
  match isOnline E w with
  | (true, w0) =>
    match callBackend E (.insert "recipes" recipeData) w0 with
    | (.threw e, w1) => (.error e, w1)
    | (.returned data error, w1) =>
      if data.truthy then
        match cacheData E "recipes" data.first w1 with
        | (some e, w2) => (.error e, w2)
        | (none, w2) => (.ok ⟨some data, error, none⟩, w2)
      else (.ok ⟨some data, error, none⟩, w1)
  | (false, w0) =>
    match dateNow E w0 with
    | (t, w1) =>
      match dateNow E w1 with
      | (t', w2) =>
        match cacheData E "recipes" (.row (recipeWithTempId E recipeData t t')) w2 with
        | (some e, w3) => (.error e, w3)
        | (none, w3) =>
          match addPendingChange E ⟨"create", "recipes", recipeData⟩ w3 with
          | (some e, w4) => (.error e, w4)
          | (none, w4) =>
            (.ok ⟨some (.rows [recipeWithTempId E recipeData t t']), none, some true⟩, w4)

/-- The function `updateRecipe(recipeId, recipeData)`. -/
def updateRecipe (E : Env σ β) (recipeId : Val) (recipeData : Obj) (w : World σ β) :
    Except Err Result × World σ β :=
  match callBackend E (.update "recipes" recipeData recipeId) w with
  | (.threw e, w1) => (.error e, w1)
  | (.returned data error, w1) => (.ok ⟨some data, error, none⟩, w1)

/-- The function `deleteRecipe(recipeId)`; it returns `{error}`. -/
def deleteRecipe (E : Env σ β) (recipeId : Val) (w : World σ β) :
    Except Err Result × World σ β :=
  match callBackend E (.delete "recipes" recipeId) w with
  | (.threw e, w1) => (.error e, w1)
  | (.returned _ error, w1) => (.ok ⟨none, error, none⟩, w1)

/-! ## Reconciliation -/

/-- The `switch (change.type)` of `syncPendingChanges`: the query built for an
entry, none when no `case` matches (`result` stays `undefined`). -/
def requestOf (change : Change) : Option Request :=
  if change.type = "create" then some (.insert change.entity change.data)
  else if change.type = "update" then some (.update change.entity change.data change.id)
  else if change.type = "delete" then some (.delete change.entity change.id)
  else none

/-- One iteration of the `for` loop of `syncPendingChanges`, on the loop
variables `processed` and `errors`. -/
def syncChange (E : Env σ β) (change : Change) (w : World σ β) (processed : Nat)
    (errors : List (Change × Err)) : World σ β × Nat × List (Change × Err) :=
  if change.synced then (w, processed, errors)
  else
    match requestOf change with
    | none => (w, processed, errors ++ [(change, typeErrorUndefined)])
    | some req =>
      match callBackend E req w with
      | (.threw e, w1) => (w1, processed, errors ++ [(change, e)])
      | (.returned _ (some e), w1) => (w1, processed, errors ++ [(change, e)])
      | (.returned _ none, w1) =>
        match markChangeAsSynced E change.id w1 with
        | (some e, w2) => (w2, processed, errors ++ [(change, e)])
        | (none, w2) => (w2, processed + 1, errors)

/-- The `for (const change of pendingChanges)` loop of `syncPendingChanges`. -/
def syncLoop (E : Env σ β) : List Change → World σ β → Nat → List (Change × Err) →
    World σ β × Nat × List (Change × Err)
  | [], w, processed, errors => (w, processed, errors)
  | change :: rest, w, processed, errors =>
    syncLoop E rest (syncChange E change w processed errors).1
      (syncChange E change w processed errors).2.1
      (syncChange E change w processed errors).2.2

/-- The function `syncPendingChanges()`. -/
def syncPendingChanges (E : Env σ β) (w : World σ β) :
    Except Err SyncResult × World σ β :=
  match isOnline E w with
  | (false, w0) => (.ok ⟨false, none, .absent⟩, w0)
  | (true, w0) =>
    match getPendingChanges E w0 with
    | (.error e, w1) => (.error e, w1)
    | (.ok pendingChanges, w1) =>
      if pendingChanges.length = 0 then (.ok ⟨true, some 0, .absent⟩, w1)
      else
        match syncLoop E pendingChanges w1 0 [] with
        | (w2, processed, errors) =>
          match removeSyncedChanges E w2 with
          | (some e, w3) => (.error e, w3)
          | (none, w3) =>
            (.ok ⟨errors.length == 0, some processed,
              if errors.length > 0 then .list errors else .null⟩, w3)

/-! ## The local store prescribed by the specification -/

/-- Modelled from the spec: the durable local storage behind `./indexedDB.js`,
which is not among the sources.  It holds the connectivity flag answered by
`isOnline()`, the Local Cache Store (records tagged with their entity type, at
most one per identity), the Pending Change Log in append order, and the next
sequence number of the log. -/
structure LocalStore where
  online : Bool
  cache : List (String × Obj)
  log : List Change
  nextSeq : Nat
  deriving DecidableEq, Repr

/-- Modelled from the spec: whether a cached record of `./indexedDB.js` is the
one of entity type `ty` with identity `id` (identity is the record's `id`). -/
def hasIdentity (ty : String) (id : Val) (p : String × Obj) : Bool :=
  decide (p.1 = ty) && decide (fieldOf p.2 "id" = id)

/-- Modelled from the spec: `put(entityType, record)` of the Local Cache Store
of `./indexedDB.js`: upsert by identity, a record with the same identity is
replaced in place, whole. -/
def putRecord (ty : String) (r : Obj) (cache : List (String × Obj)) : List (String × Obj) :=
  if cache.any (hasIdentity ty (fieldOf r "id")) then
    cache.map (fun p => if hasIdentity ty (fieldOf r "id") p then (ty, r) else p)
  else cache ++ [(ty, r)]

/-- Modelled from the spec: `cacheData(storeName, data)` of `./indexedDB.js`:
`put` of the record, or of each record of an array in order; it never fails,
and a value that is no record leaves the cache as it is. -/
def putData (ty : String) : Data → List (String × Obj) → List (String × Obj)
  | .rows xs, cache => xs.foldl (fun c r => putRecord ty r c) cache
  | .row r, cache => putRecord ty r cache
  | .val _, cache => cache

/-- Modelled from the spec: `getAll(entityType)` of the Local Cache Store of
`./indexedDB.js`: every cached record of the type. -/
def getAll (ty : String) (cache : List (String × Obj)) : List Obj :=
  (cache.filter (fun p => decide (p.1 = ty))).map Prod.snd

/-- Modelled from the spec: `getById(entityType, id)` of the Local Cache Store
of `./indexedDB.js`: the cached record, or the not-found value `undefined`. -/
def getById (ty : String) (id : Val) (cache : List (String × Obj)) : Data :=
  match cache.find? (hasIdentity ty id) with
  | some p => .row p.2
  | none => .val .undefined

/-- Modelled from the spec: `append(change)` of the Pending Change Log of
`./indexedDB.js`: the entry gets the next sequence number as its identity and
`synced = false`. -/
def appendChange (c : ChangeInput) (s : LocalStore) : LocalStore :=
  { s with log := s.log ++ [⟨.num s.nextSeq, c.type, c.entity, c.data, false⟩],
           nextSeq := s.nextSeq + 1 }

/-- Modelled from the spec: `listUnsynced()` of the Pending Change Log of
`./indexedDB.js`: the entries with `synced = false`, in sequence order. -/
def listUnsynced (log : List Change) : List Change :=
  log.filter (fun c => !c.synced)

/-- Modelled from the spec: `markSynced(logEntryId)` of the Pending Change Log
of `./indexedDB.js`: sets `synced = true` on the entry with that identity
(identities of log entries are distinct, so this is one entry). -/
def markSynced (id : Val) (log : List Change) : List Change :=
  log.map (fun c => if c.id = id then { c with synced := true } else c)

/-- Modelled from the spec: `purgeSynced()` of the Pending Change Log of
`./indexedDB.js`: deletes the entries with `synced = true`. -/
def purgeSynced (log : List Change) : List Change :=
  log.filter (fun c => !c.synced)

/-- Modelled from the spec: the helpers of `./indexedDB.js` as the
specification describes them, none of which ever throws, together with a
backend `respond`, a clock `now` and the date formatter `iso`. -/
def storeEnv (respond : β → Request → Response × β) (now : Nat → Nat)
    (iso : Nat → String) : Env LocalStore β where
  isOnline := fun s => s.online
  cacheData := fun ty d s => (none, { s with cache := putData ty d s.cache })
  getCachedData := fun ty key s =>
    match key with
    | none => (.ok (.rows (getAll ty s.cache)), s)
    | some id => (.ok (getById ty id s.cache), s)
  addPendingChange := fun c s => (none, appendChange c s)
  getPendingChanges := fun s => (.ok (listUnsynced s.log), s)
  markChangeAsSynced := fun id s => (none, { s with log := markSynced id s.log })
  removeSyncedChanges := fun s => (none, { s with log := purgeSynced s.log })
  respond := respond
  now := now
  toISOString := iso

/-- Modelled from the spec: a transition of the Connectivity Oracle of
`./indexedDB.js`, driven by a network event of the host platform: the flag
answered by `isOnline()` changes, nothing else does. -/
def setOnline (online : Bool) (w : World LocalStore β) : World LocalStore β :=
  { w with store := { w.store with online := online } }

/-! ## Observations on traces -/

/-- The events a run from `w` to `w'` added to the trace. -/
def eventsSince (w w' : World σ β) : List Event :=
  w'.trace.drop w.trace.length

/-- The queries sent to the backend, in order. -/
def backendRequests : List Event → List Request
  | [] => []
  | .backend req _ :: evs => req :: backendRequests evs
  | _ :: evs => backendRequests evs

/-- The number of failed steps recorded in a trace: backend calls that threw
or returned an error, and calls of `markChangeAsSynced` that threw. -/
def failedCalls : List Event → Nat
  | [] => 0
  | .backend _ resp :: evs => (if resp.failure.isSome then 1 else 0) + failedCalls evs
  | .markChangeAsSynced _ (some _) :: evs => 1 + failedCalls evs
  | _ :: evs => failedCalls evs

/-- The writes to the Local Cache Store (calls of `cacheData`), in order. -/
def cacheWrites : List Event → List (String × Data)
  | [] => []
  | .cacheData storeName d _ :: evs => (storeName, d) :: cacheWrites evs
  | _ :: evs => cacheWrites evs

/-- The reads of the Local Cache Store (calls of `getCachedData`), in order. -/
def cacheReads : List Event → List (String × Option Val)
  | [] => []
  | .getCachedData storeName key _ :: evs => (storeName, key) :: cacheReads evs
  | _ :: evs => cacheReads evs

/-- The entries handed to `addPendingChange`, in order. -/
def pendingAppends : List Event → List ChangeInput
  | [] => []
  | .addPendingChange c _ :: evs => c :: pendingAppends evs
  | _ :: evs => pendingAppends evs

/-- The entries of a loaded list that are not flagged synced. -/
def unsynced (cs : List Change) : List Change :=
  cs.filter (fun c => !c.synced)

/-- The entries for which the `switch` of `syncPendingChanges` builds no query. -/
def undispatchable (cs : List Change) : List Change :=
  cs.filter (fun c => (requestOf c).isNone)

/-- The number of entries that failed in the reconciliation pass run from `w`
over the loaded list `cs`: the failed calls the pass recorded (a backend call
that threw or returned an error, a `markChangeAsSynced` that threw), and the
unsynced entries for which no query could be built. -/
def failedInPass (E : Env σ β) (w : World σ β) (cs : List Change) : Nat :=
  failedCalls (eventsSince w (syncPendingChanges E w).2) +
    (undispatchable (unsynced cs)).length

/-- The entries of `cs` whose dispatch fails when their queries are sent in
order to the backend started in state `b`: an entry fails when the backend
throws or returns an error for its query, or when no query can be built for
it. -/
def failedEntries (respond : β → Request → Response × β) : β → List Change → List Change
  | _, [] => []
  | b, c :: cs =>
    match requestOf c with
    | none => c :: failedEntries respond b cs
    | some req =>
      if (respond b req).1.failure.isSome then c :: failedEntries respond (respond b req).2 cs
      else failedEntries respond (respond b req).2 cs

/-- The identities of the entries of `cs` the backend accepts when their
queries are sent in order to the backend started in state `b`. -/
def acceptedIds (respond : β → Request → Response × β) : β → List Change → List Val
  | _, [] => []
  | b, c :: cs =>
    match requestOf c with
    | none => acceptedIds respond b cs
    | some req =>
      if (respond b req).1.failure.isSome then acceptedIds respond (respond b req).2 cs
      else c.id :: acceptedIds respond (respond b req).2 cs

/-- Marking a list of identities synced, one after the other. -/
def markAll : List Val → List Change → List Change
  | [], log => log
  | id :: ids, log => markAll ids (markSynced id log)

/-- The backend operations the specification prescribes for an entry, by
operation kind: create → insert of the entry's data into the entry's table,
update → update with the entry's data of the row whose id is the entry's id,
delete → delete of that row; nothing for any other kind. -/
def dispatchByKind (c : Change) : List Request :=
  if c.type = "create" then [.insert c.entity c.data]
  else if c.type = "update" then [.update c.entity c.data c.id]
  else if c.type = "delete" then [.delete c.entity c.id]
  else []

/-- The `{change, error}` pairs of the entries of `cs` whose dispatch fails when
their queries are sent in order to the backend started in state `b`: the entry
with the exception the backend threw or the error it returned (and, for an
entry for which no query can be built, with the `TypeError` of reading the
missing result). -/
def failurePairs (respond : β → Request → Response × β) :
    β → List Change → List (Change × Err)
  | _, [] => []
  | b, c :: cs =>
    match requestOf c with
    | none => (c, typeErrorUndefined) :: failurePairs respond b cs
    | some req =>
      match (respond b req).1.failure with
      | some e => (c, e) :: failurePairs respond (respond b req).2 cs
      | none => failurePairs respond (respond b req).2 cs

/-- The identities handed to `markChangeAsSynced`, in order. -/
def markedIds : List Event → List Val
  | [] => []
  | .markChangeAsSynced id _ :: evs => id :: markedIds evs
  | _ :: evs => markedIds evs

/-- The record identity that keys a query (`.eq('id', id)`), if it has one. -/
def requestKey : Request → Option Val
  | .update _ _ id => some id
  | .delete _ id => some id
  | _ => none

/-- The reads of the Pending Change Log (calls of `getPendingChanges`). -/
def logReads : List Event → Nat
  | [] => 0
  | .getPendingChanges _ :: evs => 1 + logReads evs
  | _ :: evs => logReads evs

/-- The purges of the Pending Change Log (calls of `removeSyncedChanges`). -/
def logPurges : List Event → Nat
  | [] => 0
  | .removeSyncedChanges _ :: evs => 1 + logPurges evs
  | _ :: evs => logPurges evs

/-- The local store after a sequence of `addPendingChange` calls, in order. -/
def appendAll (E : Env σ β) (inputs : List ChangeInput) (s : σ) : σ :=
  inputs.foldl (fun s c => (E.addPendingChange c s).2) s

/-- The log entries that a sequence of appends creates, the first of them with
sequence number `n`: unsynced, numbered consecutively, in append order. -/
def appendedEntries : Nat → List ChangeInput → List Change
  | _, [] => []
  | n, c :: cs => ⟨.num n, c.type, c.entity, c.data, false⟩ :: appendedEntries (n + 1) cs

/-- Modelled from the spec, with a fault: the local store of `./indexedDB.js`
as the specification describes it, except that `markChangeAsSynced` throws `e`
and leaves the store as it is for the identities selected by `fails`; for the
other identities it works as specified. -/
def flakyMarkEnv (fails : Val → Bool) (e : Err) (respond : β → Request → Response × β)
    (now : Nat → Nat) (iso : Nat → String) : Env LocalStore β :=
  { storeEnv respond now iso with
    markChangeAsSynced := fun id s =>
      if fails id then (some e, s) else (none, { s with log := markSynced id s.log }) }

/-! ## Authentication -/

/-- The calls to `supabase.auth` the module makes: `signUp` with the options
`{data: {first_name, last_name}}`, `signInWithPassword`, `signOut`. -/
inductive AuthCall where
  | signUp (email password firstName lastName : Val)
  | signInWithPassword (email password : Val)
  | signOut
  deriving DecidableEq, Repr

/-- One call of an authentication function to a collaborator. -/
inductive AuthEvent where
  | isOnline (answer : Bool)
  | auth (call : AuthCall) (resp : Response)
  | removeItem (key : String)
  deriving DecidableEq, Repr

/-- The state the authentication functions run in: the answer of `isOnline()`,
the state of the backend, the `localStorage` of the page and the ghost trace
of calls. -/
structure AuthWorld (β : Type) where
  online : Bool
  backend : β
  localStorage : List (String × String)
  trace : List AuthEvent

/-- Awaiting a call to `supabase.auth`. -/
def callAuth (auth : β → AuthCall → Response × β) (call : AuthCall) (w : AuthWorld β) :
    Response × AuthWorld β :=
  ((auth w.backend call).1,
    { w with backend := (auth w.backend call).2,
             trace := w.trace ++ [.auth call (auth w.backend call).1] })

/-- The function `signUp(email, password, firstName, lastName)`. -/
def signUp (auth : β → AuthCall → Response × β) (email password firstName lastName : Val)
    (w : AuthWorld β) : Except Err Result × AuthWorld β :=
  if w.online = false then
    (.ok ⟨some (.val .null), some ⟨"Cannot sign up while offline"⟩, none⟩,
      { w with trace := w.trace ++ [.isOnline w.online] })
  else
    match callAuth auth (.signUp email password firstName lastName)
        { w with trace := w.trace ++ [.isOnline w.online] } with
    | (.threw e, w1) => (.error e, w1)
    | (.returned data error, w1) => (.ok ⟨some data, error, none⟩, w1)

/-- The function `signIn(email, password)`. -/
def signIn (auth : β → AuthCall → Response × β) (email password : Val)
    (w : AuthWorld β) : Except Err Result × AuthWorld β :=
  if w.online = false then
    (.ok ⟨some (.val .null), some ⟨"Cannot sign in while offline"⟩, none⟩,
      { w with trace := w.trace ++ [.isOnline w.online] })
  else
    match callAuth auth (.signInWithPassword email password)
        { w with trace := w.trace ++ [.isOnline w.online] } with
    | (.threw e, w1) => (.error e, w1)
    | (.returned data error, w1) => (.ok ⟨some data, error, none⟩, w1)

/-- The function `signOut()`; offline it removes `supabase.auth.token` from
`localStorage` and returns `{error: null}`, online it returns the `{error}` of
the backend. -/
def signOut (auth : β → AuthCall → Response × β) (w : AuthWorld β) :
    Except Err Result × AuthWorld β :=
  if w.online = false then
    (.ok ⟨none, none, none⟩,
      { w with
        localStorage := w.localStorage.filter (fun kv => kv.1 ≠ "supabase.auth.token"),
        trace := w.trace ++ [.isOnline w.online, .removeItem "supabase.auth.token"] })
  else
    match callAuth auth .signOut { w with trace := w.trace ++ [.isOnline w.online] } with
    | (.threw e, w1) => (.error e, w1)
    | (.returned _ error, w1) => (.ok ⟨none, error, none⟩, w1)

/-- The calls to `supabase.auth` recorded in a trace, in order. -/
def authCalls : List AuthEvent → List AuthCall
  | [] => []
  | .auth call _ :: evs => call :: authCalls evs
  | _ :: evs => authCalls evs

/-- The number that a list of decimal digit characters denotes. -/
def digitsValue (start : Nat) (cs : List Char) : Nat :=
  cs.foldl (fun a c => a * 10 + (c.toNat - 48)) start

/-! ## Sample collaborators -/

/-- A backend error value. -/
def rejected : Err := ⟨"rejected"⟩

/-- A backend that accepts its 1st, 3rd, ... call (answering with a row of
identity "42") and rejects its 2nd, 4th, ... call with an error result; its
state counts the calls. -/
def flakyBackend : Nat → Request → Response × Nat :=
  fun n _ =>
    (if n % 2 = 0 then .returned (.rows [[("id", .str "42")]]) none
      else .returned (.val .null) (some rejected), n + 1)

/-- A clock reading 1000, 1001, ... -/
def sampleClock : Nat → Nat := fun k => 1000 + k

/-- A stand-in for `toISOString`. -/
def sampleISO : Nat → String := fun t => "T" ++ toString t

/-- The specified local store with the flaky backend. -/
def flakyEnv : Env LocalStore Nat := storeEnv flakyBackend sampleClock sampleISO

/-- A recipe payload. -/
def soup : Obj := [("title", .str "Soup"), ("user_id", .str "u1")]

/-- An online world whose log holds two unsynced creates. -/
def twoPending : World LocalStore Nat :=
  ⟨⟨true, [], [⟨.num 0, "create", "recipes", soup, false⟩,
      ⟨.num 1, "create", "recipes", soup, false⟩], 2⟩, 0, 0, []⟩

/-- An offline world with an empty cache and an empty log. -/
def offlineEmpty : World LocalStore Nat :=
  ⟨⟨false, [], [], 0⟩, 0, 0, []⟩

/-- A backend that is reachable and answers every query with an error result
without data. -/
def rejectingBackend : Unit → Request → Response × Unit :=
  fun _ _ => (.returned (.val .null) (some rejected), ())

/-- A recipe of user u1 as the backend holds it. -/
def stew : Obj := [("id", .str "42"), ("user_id", .str "u1"), ("title", .str "Stew")]

/-- A recipe of user u1 that only the local cache holds. -/
def stale : Obj := [("id", .str "7"), ("user_id", .str "u1"), ("title", .str "Pie")]

/-- A backend that answers every query with the one recipe `stew`. -/
def servingBackend : Unit → Request → Response × Unit :=
  fun _ _ => (.returned (.rows [stew]) none, ())

/-- An online world with an empty cache and an empty log. -/
def onlineEmpty : World LocalStore Unit :=
  ⟨⟨true, [], [], 0⟩, (), 0, []⟩

/-- An online world whose cache holds the recipe `stale`. -/
def onlineCached : World LocalStore Unit :=
  ⟨⟨true, [("recipes", stale)], [], 0⟩, (), 0, []⟩

/-- An online world whose log holds an unsynced create, update and delete. -/
def threeKinds : World LocalStore Nat :=
  ⟨⟨true, [], [⟨.num 0, "create", "recipes", soup, false⟩,
      ⟨.num 1, "update", "recipes", soup, false⟩,
      ⟨.num 2, "delete", "recipes", [], false⟩], 3⟩, 0, 0, []⟩

/-- An online world whose log holds one unsynced update with identity 5. -/
def oneUpdate : World LocalStore Unit :=
  ⟨⟨true, [], [⟨.num 5, "update", "recipes", soup, false⟩], 6⟩, (), 0, []⟩

/-- An exception of the local storage. -/
def storageError : Err := ⟨"QuotaExceededError"⟩

/-- Helpers of the local store that all throw, with the serving backend and
the connectivity flag `online`. -/
def brokenStoreEnv (online : Bool) : Env Unit Unit where
  isOnline := fun _ => online
  cacheData := fun _ _ s => (some storageError, s)
  getCachedData := fun _ _ s => (.error storageError, s)
  addPendingChange := fun _ s => (some storageError, s)
  getPendingChanges := fun s => (.error storageError, s)
  markChangeAsSynced := fun _ s => (some storageError, s)
  removeSyncedChanges := fun s => (some storageError, s)
  respond := servingBackend
  now := sampleClock
  toISOString := sampleISO

/-- A world over the broken store. -/
def blank : World Unit Unit := ⟨(), (), 0, []⟩

/-- The specified local store with the serving backend, except that every
write to the cache throws (the reads work). -/
def cacheFullEnv : Env LocalStore Unit :=
  { storeEnv servingBackend sampleClock sampleISO with
    cacheData := fun _ _ s => (some storageError, s) }

/-- An offline world whose cache holds a recipe of user u1 and one of user u2. -/
def offlineCached : World LocalStore Unit :=
  ⟨⟨false, [("recipes", stale), ("recipes", [("id", .str "8"), ("user_id", .str "u2")]),
      ("recipes", stew)], [], 0⟩, (), 0, []⟩

/-- An online world whose log holds one unsynced create with an unknown type
between two unsynced creates. -/
def oddKind : World LocalStore Nat :=
  ⟨⟨true, [], [⟨.num 0, "create", "recipes", soup, false⟩,
      ⟨.num 1, "upsert", "recipes", soup, false⟩,
      ⟨.num 2, "create", "recipes", stew, false⟩], 3⟩, 0, 0, []⟩

/-- An online world whose log holds one unsynced create with identity 0. -/
def onePending : World LocalStore Unit :=
  ⟨⟨true, [], [⟨.num 0, "create", "recipes", soup, false⟩], 1⟩, (), 0, []⟩

/-- An authentication backend that signs everybody in as user u1. -/
def sampleAuth : Unit → AuthCall → Response × Unit :=
  fun _ _ => (.returned (.row [("user", .str "u1")]) none, ())

/-- An offline page with a stored session token. -/
def offlinePage : AuthWorld Unit :=
  ⟨false, (), [("supabase.auth.token", "secret"), ("theme", "dark")], []⟩

/-- An online page with a stored session token. -/
def onlinePage : AuthWorld Unit :=
  ⟨true, (), [("supabase.auth.token", "secret"), ("theme", "dark")], []⟩

/-- A clock that is read twice within the same millisecond, then moves on:
readings 1000, 1000, 1000, 1000, 1004, 1005, ... -/
def stuckClock : Nat → Nat := fun k => if k < 4 then 1000 else 1000 + k

end MealPlanner

/-!
# The AnalyticsHub dashboard

A shallow embedding of the functions of `eCommerse/dataService.js`,
`eCommerse/script.js` and `eCommerse/App.js` that the claims are about.
`Math.random()` is a parameter `draw`, where `draw i k` is the value of
`Math.floor(Math.random() * k)` at the `i`-th use within the call; the clock
and the formatters of the platform are parameters as well.
-/

namespace AnalyticsHub

/-! ## Strings -/

/-- A JavaScript string: the sequence of its UTF-16 code units. -/
abbrev JsString := List Nat

/-- The JavaScript string of a literal whose characters all lie in the Basic
Multilingual Plane (one code unit per character). -/
def js (s : String) : JsString := s.data.map Char.toNat

/-- The method `s.includes(t)`: `t` occurs in `s` as a contiguous run. -/
def includes (s t : JsString) : Bool := decide (t <:+: s)

/-! ## `DataService.search` -/

/-- A mock recommendation of `DataService`. -/
structure Recommendation where
  id : Nat
  title : JsString
  category : JsString
  impact : JsString
  description : JsString
  deriving DecidableEq, Repr

/-- A mock integration of `DataService`. -/
structure Integration where
  id : Nat
  name : JsString
  status : JsString
  lastSync : JsString
  icon : JsString
  deriving DecidableEq, Repr

/-- An element `{type, id, title, category}` of the search results. -/
structure SearchResult where
  type : JsString
  id : Nat
  title : JsString
  category : JsString
  deriving DecidableEq, Repr

/-- The array `this.mockData.recommendations`. -/
def mockRecommendations : List Recommendation :=
  [⟨1, js "Increase ad budget for campaign XYZ", js "Advertising", js "high",
      js "Based on current ROAS of 320%, we recommend increasing budget by 25%."⟩,
   ⟨2, js "Optimize product pricing", js "Pricing", js "medium",
      js "A/B testing suggests a 5% price increase would not affect conversion rates."⟩,
   ⟨3, js "Schedule social posts during peak hours", js "Social Media", js "low",
      js "Engagement increases by 34% when posting between 7-9 PM."⟩]

/-- The array `this.mockData.integrations`. -/
def mockIntegrations : List Integration :=
  [⟨1, js "Google Analytics", js "active", js "2023-05-15T14:23:10Z", js "chart-pie"⟩,
   ⟨2, js "Shopify", js "active", js "2023-05-15T16:15:22Z", js "shopping-cart"⟩,
   ⟨3, js "Mailchimp", js "inactive", js "2023-05-10T09:45:32Z", js "envelope"⟩]

/-- The body of the first `forEach` of `search`, on the array `results`. -/
def pushRecommendation (toLowerCase : JsString → JsString) (normQuery : JsString)
    (results : List SearchResult) (r : Recommendation) : List SearchResult :=
  if includes (toLowerCase r.title) normQuery ||
      includes (toLowerCase r.description) normQuery ||
      includes (toLowerCase r.category) normQuery then
    results ++ [⟨js "recommendation", r.id, r.title, r.category⟩]
  else results

/-- The body of the second `forEach` of `search`, on the array `results`. -/
def pushIntegration (toLowerCase : JsString → JsString) (normQuery : JsString)
    (results : List SearchResult) (i : Integration) : List SearchResult :=
  if includes (toLowerCase i.name) normQuery then
    results ++ [⟨js "integration", i.id, i.name, js "Integration"⟩]
  else results

/-- The value the promise of `search(query)` resolves to; `query = none` is a
missing argument, `toLowerCase` the method of that name. -/
def search (toLowerCase : JsString → JsString) (query : Option JsString) :
    List SearchResult :=
  match query with
  | none => []
  | some q =>
    if q = [] ∨ q.length < 2 then []
    else
      mockIntegrations.foldl (pushIntegration toLowerCase (toLowerCase q))
        (mockRecommendations.foldl (pushRecommendation toLowerCase (toLowerCase q)) [])

/-! ## `DataService._generateRevenueData` -/

/-- A label of a chart: a name or a number. -/
inductive Label where
  | text (s : String)
  | number (n : Nat)
  deriving DecidableEq, Repr

/-- The dataset pushed to `data.datasets`. -/
structure Dataset where
  label : String
  data : List Nat
  backgroundColor : String
  borderColor : String
  borderWidth : Nat
  tension : ℚ
  pointBackgroundColor : String
  pointBorderColor : String
  pointBorderWidth : Nat
  pointRadius : Nat
  deriving DecidableEq

/-- The object `data` of `_generateRevenueData`. -/
structure ChartData where
  labels : List Label
  datasets : List Dataset
  deriving DecidableEq

/-- The summary of the returned object; `average = none` stands for the value
of a division by zero (`NaN` or `Infinity`), otherwise it is the exact
quotient, which JavaScript rounds to a double. -/
structure Summary where
  total : Nat
  average : Option ℚ
  peak : Nat
  deriving DecidableEq

/-- The object `_generateRevenueData` returns. -/
structure RevenueData where
  chartData : ChartData
  summary : Summary
  deriving DecidableEq

/-- The variables the loops of `_generateRevenueData` update. -/
structure RevenueLoop where
  labels : List Label
  values : List Nat
  totalRevenue : Nat
  peak : Nat
  deriving DecidableEq

/-- The array `months` of `_generateRevenueData` (and of `initializeChart`). -/
def months : List String :=
  ["Jan", "Feb", "Mar", "Apr", "May", "Jun", "Jul", "Aug", "Sep", "Oct", "Nov", "Dec"]

/-- The array `days` of `_generateRevenueData`. -/
def days : List String := ["Mon", "Tue", "Wed", "Thu", "Fri", "Sat", "Sun"]

/-- The body of the loop `for (let i = 0; i < 12; i++)` of the yearly branch. -/
def yearlyStep (draw : Nat → Nat → Nat) (st : RevenueLoop) (i : Nat) : RevenueLoop :=
  { st with values := st.values ++ [draw i 50000 + 25000],
            totalRevenue := st.totalRevenue + (draw i 50000 + 25000),
            peak := max st.peak (draw i 50000 + 25000) }

/-- The body of the loop `for (let i = 0; i < points; i++)` of the other
branch. -/
def dailyStep (draw : Nat → Nat → Nat) (points : Nat) (st : RevenueLoop) (i : Nat) :
    RevenueLoop :=
  { labels := if points = 7 then days.map Label.text else st.labels ++ [.number (i + 1)],
    values := st.values ++ [draw i 5000 + 1000],
    totalRevenue := st.totalRevenue + (draw i 5000 + 1000),
    peak := max st.peak (draw i 5000 + 1000) }

/-- The loop variables after the branch `if (isYearly) ... else ...`. -/
def revenueLoop (draw : Nat → Nat → Nat) (points : Nat) (isYearly : Bool) : RevenueLoop :=
  if isYearly then
    (List.range 12).foldl (yearlyStep draw) ⟨months.map Label.text, [], 0, 0⟩
  else
    (List.range points).foldl (dailyStep draw points) ⟨[], [], 0, 0⟩

/-- The method `_generateRevenueData(points, isYearly)`, for a number of points
that is a natural number. -/
def generateRevenueData (draw : Nat → Nat → Nat) (points : Nat) (isYearly : Bool) :
    RevenueData :=
  { chartData :=
      { labels := (revenueLoop draw points isYearly).labels,
        datasets := [⟨"Revenue", (revenueLoop draw points isYearly).values,
          "rgba(67, 97, 238, 0.2)", "#4361ee", 2, 4 / 10, "#ffffff", "#4361ee", 2, 4⟩] },
    summary :=
      { total := (revenueLoop draw points isYearly).totalRevenue,
        average := if points = 0 then none
          else some ((revenueLoop draw points isYearly).totalRevenue / points),
        peak := (revenueLoop draw points isYearly).peak } }

/-- The lengths of the `data` arrays of the datasets of a result. -/
def dataLengths (r : RevenueData) : List Nat :=
  r.chartData.datasets.map (fun d => d.data.length)

/-! ## The recommendation cards of `script.js` -/

/-- The text `'...'`. -/
def ellipsis : JsString := js "..."

/-- A recommendation card: the `textContent` of its description and whether
the click listener has been added to it. -/
structure Card where
  textContent : JsString
  listening : Bool
  deriving DecidableEq, Repr

/-- The set-up of a card whose description holds `originalText`. -/
def setupCard (originalText : JsString) : Card :=
  if originalText.length > 100 then ⟨originalText.take 100 ++ ellipsis, true⟩
  else ⟨originalText, false⟩

/-- A click on a card set up with `originalText`. -/
def click (originalText : JsString) (card : Card) : Card :=
  if card.listening then
    if includes card.textContent ellipsis then { card with textContent := originalText }
    else { card with textContent := originalText.take 100 ++ ellipsis }
  else card

/-! ## `initializeChart` of `script.js` -/

/-- The method `array.slice(start, end)` for indices that are not negative. -/
def slice {α : Type} (l : List α) (start stop : Nat) : List α :=
  (l.take stop).drop start

/-- The array `labels` of `initializeChart`:
`months.slice(Math.max(0, currentMonth - 5), currentMonth + 1)`. -/
def chartLabels (currentMonth : Nat) : List String :=
  slice months (max (0 : Int) ((currentMonth : Int) - 5)).toNat (currentMonth + 1)

/-- A bar appended to the chart: its height in percent, its label and the text
of its value. -/
structure Bar where
  height : Nat
  label : String
  value : String
  deriving DecidableEq, Repr

/-- The bars `initializeChart` appends to the chart element when that element
exists; `currentMonth` is `new Date().getMonth()` and `toLocaleString` the
number formatter. -/
def initializeChart (draw : Nat → Nat → Nat) (toLocaleString : Nat → String)
    (currentMonth : Nat) : List Bar :=
  (chartLabels currentMonth).enum.map
    (fun im => ⟨draw im.1 80 + 20, im.2, "$" ++ toLocaleString ((draw im.1 80 + 20) * 1000)⟩)

/-! ## `formatDate` of `App.js` -/

/-- The function `formatDate(dateString)`.  `dateString = none` is a missing
argument; `parse` gives the time value of `new Date(dateString)` in
milliseconds, none for an invalid date (`NaN`); `now` is the time value of
`new Date()`.  `Math.floor` of a quotient by a positive number is the integer
division of Lean, which rounds down. -/
def formatDate (parse : String → Option Int) (now : Int) (dateString : Option String) :
    String :=
  match dateString with
  | none => "Never"
  | some s =>
    if s = "" then "Never"
    else
      match parse s with
      | none => "NaN days ago"
      | some date =>
        let diffMs := now - date
        let diffMins := diffMs / 60000
        let diffHours := diffMins / 60
        let diffDays := diffHours / 24
        if diffMins < 60 then
          toString diffMins ++ " minute" ++ (if diffMins ≠ 1 then "s" else "") ++ " ago"
        else if diffHours < 24 then
          toString diffHours ++ " hour" ++ (if diffHours ≠ 1 then "s" else "") ++ " ago"
        else
          toString diffDays ++ " day" ++ (if diffDays ≠ 1 then "s" else "") ++ " ago"

/-- The plural ending of a unit word: none exactly for the count 1. -/
def pluralEnding (n : Nat) : String := if n = 1 then "" else "s"

/-! ## Sample inputs -/

/-- Lower-casing of the letters A to Z, the effect of `toLowerCase` on ASCII
text. -/
def asciiLower (s : JsString) : JsString :=
  s.map (fun u => if 65 ≤ u ∧ u ≤ 90 then u + 32 else u)

/-- A random source that always draws 0. -/
def zeroDraw : Nat → Nat → Nat := fun _ _ => 0

/-- A description of 107 characters that itself contains `'...'`. -/
def dottedText : JsString := js "Wait..." ++ List.replicate 100 120

/-- A description of 104 characters without `'...'`. -/
def plainText : JsString := js "Note" ++ List.replicate 100 120

end AnalyticsHub

namespace MealPlanner

variable {σ β : Type}

/-! ## Lemmas on traces -/

theorem failedCalls_append (xs ys : List Event) :
    failedCalls (xs ++ ys) = failedCalls xs + failedCalls ys := by
  induction xs with
  | nil => simp [failedCalls]
  | cons e xs ih =>
    cases e with
    | markChangeAsSynced id failed =>
      cases failed <;> simp [failedCalls, ih, Nat.add_assoc]
    | _ => simp [failedCalls, ih, Nat.add_assoc]

theorem backendRequests_append (xs ys : List Event) :
    backendRequests (xs ++ ys) = backendRequests xs ++ backendRequests ys := by
  induction xs with
  | nil => simp [backendRequests]
  | cons e xs ih => cases e <;> simp [backendRequests, ih]

theorem cacheWrites_append (xs ys : List Event) :
    cacheWrites (xs ++ ys) = cacheWrites xs ++ cacheWrites ys := by
  induction xs with
  | nil => simp [cacheWrites]
  | cons e xs ih => cases e <;> simp [cacheWrites, ih]

theorem eventsSince_of_trace (w w' : World σ β) (evs : List Event)
    (h : w'.trace = w.trace ++ evs) : eventsSince w w' = evs := by
  simp [eventsSince, h]

/-- What one iteration of the loop does to the trace and to the loop variables. -/
theorem syncChange_account (E : Env σ β) (c : Change) (w : World σ β) (p : Nat)
    (es : List (Change × Err)) :
    ∃ evs, (syncChange E c w p es).1.trace = w.trace ++ evs ∧
      (syncChange E c w p es).2.1 + failedCalls evs + (undispatchable (unsynced [c])).length
        = p + (unsynced [c]).length ∧
      (syncChange E c w p es).2.2.length
        = es.length + failedCalls evs + (undispatchable (unsynced [c])).length ∧
      backendRequests evs = (unsynced [c]).filterMap requestOf ∧
      cacheWrites evs = [] := by
  unfold syncChange
  by_cases hs : c.synced = true
  · exact ⟨[], by simp [hs, unsynced, undispatchable, failedCalls, backendRequests,
    cacheWrites]⟩
  · cases hr : requestOf c with
    | none =>
      exact ⟨[], by simp [hs, hr, unsynced, undispatchable, failedCalls, backendRequests,
    cacheWrites]⟩
    | some req =>
      cases hb : (E.respond w.backend req).1 with
      | threw e =>
        exact ⟨[.backend req (.threw e)], by
          simp [hs, hr, hb, callBackend, unsynced, undispatchable, failedCalls,
            Response.failure, backendRequests, cacheWrites]⟩
      | returned d err =>
        cases err with
        | some e =>
          exact ⟨[.backend req (.returned d (some e))], by
            simp [hs, hr, hb, callBackend, unsynced, undispatchable, failedCalls,
              Response.failure, backendRequests, cacheWrites]⟩
        | none =>
          cases hm : (E.markChangeAsSynced c.id w.store).1 with
          | none =>
            exact ⟨[.backend req (.returned d none), .markChangeAsSynced c.id none], by
              simp [hs, hr, hb, hm, callBackend, markChangeAsSynced, unsynced,
                undispatchable, failedCalls, Response.failure, backendRequests,
                cacheWrites]⟩
          | some e =>
            exact ⟨[.backend req (.returned d none), .markChangeAsSynced c.id (some e)], by
              simp [hs, hr, hb, hm, callBackend, markChangeAsSynced, unsynced,
                undispatchable, failedCalls, Response.failure, backendRequests,
                cacheWrites]⟩

theorem unsynced_cons (c : Change) (cs : List Change) :
    unsynced (c :: cs) = unsynced [c] ++ unsynced cs := by
  by_cases h : c.synced = true <;> simp [unsynced, List.filter_cons, h]

theorem undispatchable_append (xs ys : List Change) :
    undispatchable (xs ++ ys) = undispatchable xs ++ undispatchable ys := by
  simp [undispatchable]

/-- What the whole loop does to the trace and to the loop variables. -/
theorem syncLoop_account (E : Env σ β) (cs : List Change) :
    ∀ (w : World σ β) (p : Nat) (es : List (Change × Err)),
    ∃ evs, (syncLoop E cs w p es).1.trace = w.trace ++ evs ∧
      (syncLoop E cs w p es).2.1 + failedCalls evs + (undispatchable (unsynced cs)).length
        = p + (unsynced cs).length ∧
      (syncLoop E cs w p es).2.2.length
        = es.length + failedCalls evs + (undispatchable (unsynced cs)).length ∧
      backendRequests evs = (unsynced cs).filterMap requestOf ∧
      cacheWrites evs = [] := by
  induction cs with
  | nil =>
    intro w p es
    exact ⟨[], by simp [syncLoop, unsynced, undispatchable, failedCalls, backendRequests,
    cacheWrites]⟩
  | cons c cs ih =>
    intro w p es
    obtain ⟨evs1, ht1, hp1, he1, hr1, hc1⟩ := syncChange_account E c w p es
    obtain ⟨evs2, ht2, hp2, he2, hr2, hc2⟩ := ih (syncChange E c w p es).1
      (syncChange E c w p es).2.1 (syncChange E c w p es).2.2
    refine ⟨evs1 ++ evs2, ?_, ?_, ?_, ?_, ?_⟩
    · simp [syncLoop, ht2, ht1]
    · simp only [syncLoop, unsynced_cons c cs, undispatchable_append, failedCalls_append,
        List.length_append]
      omega
    · simp only [syncLoop, unsynced_cons c cs, undispatchable_append, failedCalls_append,
        List.length_append]
      omega
    · rw [backendRequests_append, hr1, hr2, unsynced_cons c cs, List.filterMap_append]
    · rw [cacheWrites_append, hc1, hc2, List.append_nil]

/-! ## Reconciliation: accounting -/

/-- C1. In an online reconciliation pass that loads the list `cs` (and whose
final purge does not throw), with N the number of entries of `cs` not flagged
synced and M the number of them that fail, `syncPendingChanges` resolves to a
result with `processed = N - M` and `success = true` exactly when `M = 0`; this
includes the empty list and lists with N = 0. -/
theorem syncPendingChanges_processed (E : Env σ β) (w : World σ β) (cs : List Change)
    (honline : E.isOnline w.store = true)
    (hload : (E.getPendingChanges w.store).1 = .ok cs)
    (hpurge : ∀ s, (E.removeSyncedChanges s).1 = none) :
    ∃ res, (syncPendingChanges E w).1 = .ok res ∧
      failedInPass E w cs ≤ (unsynced cs).length ∧
      res.processed = some ((unsynced cs).length - failedInPass E w cs) ∧
      (res.success = true ↔ failedInPass E w cs = 0) := by
  unfold failedInPass
  by_cases hlen : cs.length = 0
  · have hnil : cs = [] := List.length_eq_zero.mp hlen
    subst hnil
    refine ⟨⟨true, some 0, .absent⟩, ?_, ?_, ?_, ?_⟩ <;>
      simp [syncPendingChanges, isOnline, getPendingChanges, World.emit, honline, hload,
        eventsSince, failedCalls, unsynced, undispatchable]
  · obtain ⟨evs, ht, hp, he, _, _⟩ := syncLoop_account E cs
      (getPendingChanges E (isOnline E w).2).2 0 []
    have hp1 := hpurge (syncLoop E cs (getPendingChanges E (isOnline E w).2).2 0 []).1.store
    have hsync : syncPendingChanges E w =
        (.ok ⟨(syncLoop E cs (getPendingChanges E (isOnline E w).2).2 0 []).2.2.length == 0,
          some (syncLoop E cs (getPendingChanges E (isOnline E w).2).2 0 []).2.1,
          if (syncLoop E cs (getPendingChanges E (isOnline E w).2).2 0 []).2.2.length > 0
          then .list (syncLoop E cs (getPendingChanges E (isOnline E w).2).2 0 []).2.2
          else .null⟩,
         (removeSyncedChanges E
           (syncLoop E cs (getPendingChanges E (isOnline E w).2).2 0 []).1).2) := by
      simp [syncPendingChanges, isOnline, getPendingChanges, removeSyncedChanges, World.emit,
        honline, hload, hlen]
      simp [isOnline, getPendingChanges, World.emit, honline, hload] at hp1
      simp [hp1]
    have hev : eventsSince w (syncPendingChanges E w).2 =
        [.isOnline true, .getPendingChanges none] ++ evs ++ [.removeSyncedChanges none] := by
      apply eventsSince_of_trace
      rw [hsync]
      simp [removeSyncedChanges, ht, hp1]
      simp [isOnline, getPendingChanges, World.emit, honline, hload, failureOf]
    have hfc : failedCalls ([.isOnline true, .getPendingChanges none] ++ evs ++
        [.removeSyncedChanges none]) = failedCalls evs := by
      rw [failedCalls_append, failedCalls_append]
      simp [failedCalls]
    rw [hev, hsync, hfc]
    simp only [List.length_nil, Nat.zero_add] at hp he
    refine ⟨_, rfl, ?_, ?_, ?_⟩
    · omega
    · simp only [Option.some.injEq]; omega
    · simp only [beq_iff_eq]; omega

/-- Witness of C1: two unsynced creates against a backend that accepts the
first call and rejects the second. -/
theorem syncPendingChanges_processed_witness :
    flakyEnv.isOnline twoPending.store = true ∧
    (flakyEnv.getPendingChanges twoPending.store).1 = .ok twoPending.store.log ∧
    ∃ res, (syncPendingChanges flakyEnv twoPending).1 = .ok res ∧
      failedInPass flakyEnv twoPending twoPending.store.log
        ≤ (unsynced twoPending.store.log).length ∧
      res.processed = some ((unsynced twoPending.store.log).length -
        failedInPass flakyEnv twoPending twoPending.store.log) ∧
      (res.success = true ↔ failedInPass flakyEnv twoPending twoPending.store.log = 0) :=
  ⟨rfl, rfl, syncPendingChanges_processed flakyEnv twoPending twoPending.store.log rfl rfl
    (fun _ => rfl)⟩

theorem filterMap_eq_of_isSome {α γ : Type} (f : α → Option γ) (l : List α)
    (h : ∀ a ∈ l, (f a).isSome = true) : (l.filterMap f).map some = l.map f := by
  induction l with
  | nil => rfl
  | cons a l ih =>
    have ha := h a (List.mem_cons_self a l)
    have hl := ih (fun b hb => h b (List.mem_cons_of_mem a hb))
    cases hfa : f a with
    | none => simp [hfa] at ha
    | some r => simp [List.filterMap_cons, hfa, hl]

/-- C2. In an online pass that loads the list `cs`, the queries sent to the
backend are exactly the queries of the entries of `cs` not flagged synced, one
per entry and in the order of the list, whatever the backend answers (error
results and exceptions included): no failure stops the dispatch of a later
entry.  When every such entry has one of the types create, update, delete, the
queries correspond one to one to the entries. -/
theorem syncPendingChanges_dispatches_each_once (E : Env σ β) (w : World σ β)
    (cs : List Change)
    (honline : E.isOnline w.store = true)
    (hload : (E.getPendingChanges w.store).1 = .ok cs) :
    backendRequests (eventsSince w (syncPendingChanges E w).2)
        = (unsynced cs).filterMap requestOf ∧
      ((∀ c ∈ unsynced cs, (requestOf c).isSome = true) →
        (backendRequests (eventsSince w (syncPendingChanges E w).2)).map some
          = (unsynced cs).map requestOf) := by
  have key : backendRequests (eventsSince w (syncPendingChanges E w).2)
      = (unsynced cs).filterMap requestOf := by
    by_cases hlen : cs.length = 0
    · have hnil : cs = [] := List.length_eq_zero.mp hlen
      subst hnil
      simp [syncPendingChanges, isOnline, getPendingChanges, World.emit, honline, hload,
        eventsSince, backendRequests, unsynced]
    · obtain ⟨evs, ht, _, _, hr, _⟩ := syncLoop_account E cs
        (getPendingChanges E (isOnline E w).2).2 0 []
      have hev : eventsSince w (syncPendingChanges E w).2 =
          [.isOnline true, .getPendingChanges none] ++ evs ++
            [.removeSyncedChanges (E.removeSyncedChanges
              (syncLoop E cs (getPendingChanges E (isOnline E w).2).2 0 []).1.store).1] := by
        apply eventsSince_of_trace
        simp only [syncPendingChanges, isOnline, honline, getPendingChanges, World.emit, hload,
          hlen, if_false] at ht ⊢
        generalize syncLoop E cs _ 0 [] = L at ht ⊢
        cases hp : (E.removeSyncedChanges L.1.store).1 <;>
          simp [removeSyncedChanges, hp, ht, failureOf]
      rw [hev, backendRequests_append, backendRequests_append, hr]
      simp [backendRequests]
  exact ⟨key, fun hk => by rw [key]; exact filterMap_eq_of_isSome requestOf _ hk⟩

/-- Witness of C2: two unsynced creates against a backend that rejects the
second call; both inserts are sent, in order. -/
theorem syncPendingChanges_dispatches_each_once_witness :
    flakyEnv.isOnline twoPending.store = true ∧
    (flakyEnv.getPendingChanges twoPending.store).1 = .ok twoPending.store.log ∧
    backendRequests (eventsSince twoPending (syncPendingChanges flakyEnv twoPending).2)
      = (unsynced twoPending.store.log).filterMap requestOf ∧
    (backendRequests (eventsSince twoPending (syncPendingChanges flakyEnv twoPending).2)).map
      some = (unsynced twoPending.store.log).map requestOf ∧
    backendRequests (eventsSince twoPending (syncPendingChanges flakyEnv twoPending).2)
      = [.insert "recipes" soup, .insert "recipes" soup] :=
  ⟨rfl, rfl,
    (syncPendingChanges_dispatches_each_once flakyEnv twoPending twoPending.store.log
      rfl rfl).1,
    (syncPendingChanges_dispatches_each_once flakyEnv twoPending twoPending.store.log
      rfl rfl).2 (by decide),
    by decide⟩

/-! ## Reconciliation on the specified local store -/

theorem markAll_eq_map (ids : List Val) :
    ∀ log : List Change, markAll ids log =
      log.map (fun c => if c.id ∈ ids then { c with synced := true } else c) := by
  induction ids with
  | nil => intro log; simp [markAll]
  | cons id ids ih =>
    intro log
    rw [markAll, ih, markSynced, List.map_map]
    apply List.map_congr_left
    intro c _
    by_cases h : c.id = id
    · by_cases h2 : id ∈ ids <;> simp [h, h2]
    · by_cases h2 : c.id ∈ ids <;> simp [h, h2]

theorem purgeSynced_markAll (ids : List Val) (log : List Change) :
    purgeSynced (markAll ids log) = (listUnsynced log).filter (fun c => !decide (c.id ∈ ids)) := by
  rw [markAll_eq_map, purgeSynced, listUnsynced, List.filter_map, List.filter_filter]
  induction log with
  | nil => rfl
  | cons c log ih =>
    by_cases h : c.id ∈ ids <;> by_cases hs : c.synced = true <;>
      simp [List.filter_cons, h, hs, ih]

theorem acceptedIds_subset (respond : β → Request → Response × β) (cs : List Change) :
    ∀ b, ∀ id ∈ acceptedIds respond b cs, id ∈ cs.map Change.id := by
  induction cs with
  | nil => intro b id h; simp [acceptedIds] at h
  | cons c cs ih =>
    intro b id h
    simp only [acceptedIds] at h
    cases hr : requestOf c with
    | none =>
      rw [hr] at h
      exact List.mem_cons_of_mem _ (ih b id h)
    | some req =>
      rw [hr] at h
      by_cases hf : (respond b req).1.failure.isSome = true
      · simp only [hf, if_true] at h
        exact List.mem_cons_of_mem _ (ih _ id h)
      · simp only [hf] at h
        rcases List.mem_cons.mp h with h1 | h1
        · simp [h1]
        · exact List.mem_cons_of_mem _ (ih _ id h1)

theorem filter_not_accepted (respond : β → Request → Response × β) (cs : List Change) :
    ∀ b, (cs.map Change.id).Nodup →
      cs.filter (fun c => !decide (c.id ∈ acceptedIds respond b cs))
        = failedEntries respond b cs := by
  induction cs with
  | nil => intro b _; rfl
  | cons c cs ih =>
    intro b hnd
    rw [List.map_cons, List.nodup_cons] at hnd
    obtain ⟨hc, hnd⟩ := hnd
    have hrest : ∀ ids : List Val,
        cs.filter (fun x => !decide (x.id ∈ c.id :: ids))
          = cs.filter (fun x => !decide (x.id ∈ ids)) := by
      intro ids
      apply List.filter_congr
      intro x hx
      have hne : x.id ≠ c.id := fun h => hc (h ▸ List.mem_map_of_mem Change.id hx)
      simp [hne]
    cases hr : requestOf c with
    | none =>
      have hnot : c.id ∉ acceptedIds respond b cs :=
        fun h => hc (acceptedIds_subset respond cs b _ h)
      simp [acceptedIds, failedEntries, hr, List.filter_cons, hnot, ih b hnd]
    | some req =>
      by_cases hf : (respond b req).1.failure.isSome = true
      · have hnot : c.id ∉ acceptedIds respond (respond b req).2 cs :=
          fun h => hc (acceptedIds_subset respond cs _ _ h)
        simp [acceptedIds, failedEntries, hr, hf, List.filter_cons, hnot, ih _ hnd]
      · have h1 := hrest (acceptedIds respond (respond b req).2 cs)
        simp only [acceptedIds, failedEntries, hr, hf, List.filter_cons]
        simp only [Bool.false_eq_true, if_false, List.mem_cons_self, decide_True, Bool.not_true]
        rw [h1, ih _ hnd]

/-- The loop of `syncPendingChanges` on the specified local store: it marks
synced the entries the backend accepted and touches nothing else of the store. -/
theorem syncLoop_store (respond : β → Request → Response × β) (now : Nat → Nat)
    (iso : Nat → String) (cs : List Change) :
    ∀ (w : World LocalStore β) (p : Nat) (es : List (Change × Err)),
      (∀ c ∈ cs, c.synced = false) →
      (syncLoop (storeEnv respond now iso) cs w p es).1.store =
        { w.store with log := markAll (acceptedIds respond w.backend cs) w.store.log } := by
  induction cs with
  | nil => intro w p es _; simp [syncLoop, acceptedIds, markAll]
  | cons c cs ih =>
    intro w p es hcs
    have hc : c.synced = false := hcs c (List.mem_cons_self c cs)
    have hrest : ∀ x ∈ cs, x.synced = false := fun x hx => hcs x (List.mem_cons_of_mem c hx)
    rw [syncLoop, ih _ _ _ hrest]
    cases hr : requestOf c with
    | none => simp [syncChange, hc, hr, acceptedIds]
    | some req =>
      cases hb : (respond w.backend req).1 with
      | threw e =>
        simp [syncChange, hc, hr, hb, acceptedIds, callBackend, storeEnv, Response.failure]
      | returned d err =>
        cases err with
        | some e =>
          simp [syncChange, hc, hr, hb, acceptedIds, callBackend, storeEnv, Response.failure]
        | none =>
          simp [syncChange, hc, hr, hb, acceptedIds, callBackend, storeEnv, Response.failure,
            markChangeAsSynced, markAll]

/-- C3. On the specified local store, with distinct log-entry identities and at
least one unsynced entry loaded, an online `syncPendingChanges` returns, and
the Pending Change Log then consists of exactly the entries whose dispatch
failed, unchanged (hence still unsynced and retried by the next pass): every
accepted entry has been marked synced and purged, no failed entry has been
marked or removed. -/
theorem syncPendingChanges_leaves_failed (respond : β → Request → Response × β)
    (now : Nat → Nat) (iso : Nat → String) (w : World LocalStore β)
    (honline : w.store.online = true)
    (hids : (w.store.log.map Change.id).Nodup)
    (hne : listUnsynced w.store.log ≠ []) :
    (∃ res, (syncPendingChanges (storeEnv respond now iso) w).1 = .ok res) ∧
      (syncPendingChanges (storeEnv respond now iso) w).2.store.log
        = failedEntries respond w.backend (listUnsynced w.store.log) ∧
      ∀ c ∈ (syncPendingChanges (storeEnv respond now iso) w).2.store.log,
        c.synced = false ∧ c ∈ w.store.log := by
  have hlen : ¬ (listUnsynced w.store.log).length = 0 := fun h => hne (List.length_eq_zero.mp h)
  have hun : ∀ c ∈ listUnsynced w.store.log, c.synced = false := by
    intro c hc
    simpa [listUnsynced] using (List.mem_filter.mp hc).2
  have hnd : ((listUnsynced w.store.log).map Change.id).Nodup :=
    hids.sublist ((List.filter_sublist _).map _)
  have hloop := syncLoop_store respond now iso (listUnsynced w.store.log)
    (getPendingChanges (storeEnv respond now iso)
      (isOnline (storeEnv respond now iso) w).2).2 0 [] hun
  have hrun : (syncPendingChanges (storeEnv respond now iso) w).1 =
        .ok ⟨(syncLoop (storeEnv respond now iso) (listUnsynced w.store.log)
            (getPendingChanges (storeEnv respond now iso)
              (isOnline (storeEnv respond now iso) w).2).2 0 []).2.2.length == 0,
          some (syncLoop (storeEnv respond now iso) (listUnsynced w.store.log)
            (getPendingChanges (storeEnv respond now iso)
              (isOnline (storeEnv respond now iso) w).2).2 0 []).2.1,
          if (syncLoop (storeEnv respond now iso) (listUnsynced w.store.log)
            (getPendingChanges (storeEnv respond now iso)
              (isOnline (storeEnv respond now iso) w).2).2 0 []).2.2.length > 0
          then .list (syncLoop (storeEnv respond now iso) (listUnsynced w.store.log)
            (getPendingChanges (storeEnv respond now iso)
              (isOnline (storeEnv respond now iso) w).2).2 0 []).2.2
          else .null⟩ ∧
      (syncPendingChanges (storeEnv respond now iso) w).2.store.log =
        purgeSynced (syncLoop (storeEnv respond now iso) (listUnsynced w.store.log)
            (getPendingChanges (storeEnv respond now iso)
              (isOnline (storeEnv respond now iso) w).2).2 0 []).1.store.log := by
    simp [syncPendingChanges, isOnline, getPendingChanges, removeSyncedChanges, World.emit,
      storeEnv, honline, hlen]
  have hlog : (syncPendingChanges (storeEnv respond now iso) w).2.store.log
      = failedEntries respond w.backend (listUnsynced w.store.log) := by
    rw [hrun.2, hloop]
    simp only [isOnline, getPendingChanges, World.emit, storeEnv]
    rw [purgeSynced_markAll, ← filter_not_accepted respond _ w.backend hnd]
  refine ⟨⟨_, hrun.1⟩, hlog, ?_⟩
  intro c hc
  rw [hlog, ← filter_not_accepted respond _ w.backend hnd] at hc
  have hc' := (List.mem_filter.mp hc).1
  exact ⟨hun c hc', (List.mem_filter.mp hc').1⟩

/-- Witness of C3: of two unsynced creates the backend accepts the first and
rejects the second. -/
theorem syncPendingChanges_leaves_failed_witness :
    twoPending.store.online = true ∧
    (twoPending.store.log.map Change.id).Nodup ∧
    listUnsynced twoPending.store.log ≠ [] ∧
    ((∃ res, (syncPendingChanges (storeEnv flakyBackend sampleClock sampleISO)
        twoPending).1 = .ok res) ∧
      (syncPendingChanges (storeEnv flakyBackend sampleClock sampleISO) twoPending).2.store.log
        = failedEntries flakyBackend twoPending.backend (listUnsynced twoPending.store.log) ∧
      ∀ c ∈ (syncPendingChanges (storeEnv flakyBackend sampleClock sampleISO)
          twoPending).2.store.log,
        c.synced = false ∧ c ∈ twoPending.store.log) :=
  ⟨rfl, by decide, by decide,
    syncPendingChanges_leaves_failed flakyBackend sampleClock sampleISO twoPending rfl
      (by decide) (by decide)⟩

/-! ## Records -/

theorem fieldOf_setField_same (o : Obj) (k : String) (v : Val) :
    fieldOf (setField o k v) k = v := by
  induction o with
  | nil => simp [setField, fieldOf]
  | cons p o ih =>
    obtain ⟨k', v'⟩ := p
    by_cases h : k' = k <;> simp [setField, fieldOf, h, ih]

theorem fieldOf_setField_other (o : Obj) (k k' : String) (v : Val) (h : k' ≠ k) :
    fieldOf (setField o k v) k' = fieldOf o k' := by
  induction o with
  | nil => simp [setField, fieldOf, Ne.symm h]
  | cons p o ih =>
    obtain ⟨k1, v1⟩ := p
    by_cases h1 : k1 = k
    · subst h1
      simp [setField, fieldOf, Ne.symm h]
    · by_cases h2 : k1 = k'
      · subst h2
        simp [setField, fieldOf, h1]
      · simp [setField, fieldOf, h1, h2, ih]

/-! ## Offline creation -/

/-- The run of `createRecipe` while offline, when the two helper calls do not
throw: its result and the calls it makes. -/
theorem createRecipe_offline_run (E : Env σ β) (payload : Obj) (w : World σ β)
    (hoff : E.isOnline w.store = false)
    (hcache : ∀ d s, (E.cacheData "recipes" d s).1 = none)
    (hadd : ∀ c s, (E.addPendingChange c s).1 = none) :
    createRecipe E payload w =
      (.ok ⟨some (.rows [recipeWithTempId E payload (E.now w.clockReads)
          (E.now (w.clockReads + 1))]), none, some true⟩,
        ⟨(E.addPendingChange ⟨"create", "recipes", payload⟩
            (E.cacheData "recipes" (.row (recipeWithTempId E payload (E.now w.clockReads)
              (E.now (w.clockReads + 1)))) w.store).2).2,
          w.backend, w.clockReads + 2,
          w.trace ++ [.isOnline false, .clock (E.now w.clockReads),
            .clock (E.now (w.clockReads + 1)),
            .cacheData "recipes" (.row (recipeWithTempId E payload (E.now w.clockReads)
              (E.now (w.clockReads + 1)))) none,
            .addPendingChange ⟨"create", "recipes", payload⟩ none]⟩) := by
  simp [createRecipe, isOnline, dateNow, cacheData, addPendingChange, World.emit, hoff,
    hcache, hadd]

/-- C4. `createRecipe(payload)` called while offline (the two helper calls not
throwing) resolves to `{data: [r], error: null, isOffline: true}`, where `r` has
`id` equal to `'temp_'` followed by the first clock reading, `created_at` equal
to the ISO string of the next clock reading and every other field as in the
payload; its only cache write is `cacheData('recipes', r)` with that same `r`;
and the identity of `r` begins with `temp_`. -/
theorem createRecipe_offline_tentative (E : Env σ β) (payload : Obj) (w : World σ β)
    (hoff : E.isOnline w.store = false)
    (hcache : ∀ d s, (E.cacheData "recipes" d s).1 = none)
    (hadd : ∀ c s, (E.addPendingChange c s).1 = none) :
    (createRecipe E payload w).1 =
        .ok ⟨some (.rows [recipeWithTempId E payload (E.now w.clockReads)
          (E.now (w.clockReads + 1))]), none, some true⟩ ∧
      cacheWrites (eventsSince w (createRecipe E payload w).2) =
        [("recipes", .row (recipeWithTempId E payload (E.now w.clockReads)
          (E.now (w.clockReads + 1))))] ∧
      fieldOf (recipeWithTempId E payload (E.now w.clockReads) (E.now (w.clockReads + 1))) "id"
        = .str ("temp_" ++ toString (E.now w.clockReads)) ∧
      fieldOf (recipeWithTempId E payload (E.now w.clockReads) (E.now (w.clockReads + 1)))
          "created_at"
        = .str (E.toISOString (E.now (w.clockReads + 1))) ∧
      (∀ k, k ≠ "id" → k ≠ "created_at" →
        fieldOf (recipeWithTempId E payload (E.now w.clockReads) (E.now (w.clockReads + 1))) k
          = fieldOf payload k) ∧
      "temp_".data <+: (tempId (E.now w.clockReads)).data := by
  have hrun := createRecipe_offline_run E payload w hoff hcache hadd
  refine ⟨by rw [hrun], ?_, ?_, ?_, ?_, ?_⟩
  · rw [hrun]
    simp [eventsSince, cacheWrites]
  · unfold recipeWithTempId
    rw [fieldOf_setField_other _ _ _ _ (by decide), fieldOf_setField_same]
    rfl
  · unfold recipeWithTempId
    rw [fieldOf_setField_same]
  · intro k h1 h2
    unfold recipeWithTempId
    rw [fieldOf_setField_other _ _ _ _ h2, fieldOf_setField_other _ _ _ _ h1]
  · exact ⟨(toString (E.now w.clockReads)).data, rfl⟩

/-- Witness of C4: creating the soup recipe offline, on the specified store;
the tentative record is then found in the cache under its temporary identity. -/
theorem createRecipe_offline_tentative_witness :
    flakyEnv.isOnline offlineEmpty.store = false ∧
    ((createRecipe flakyEnv soup offlineEmpty).1 =
        .ok ⟨some (.rows [recipeWithTempId flakyEnv soup (flakyEnv.now offlineEmpty.clockReads)
          (flakyEnv.now (offlineEmpty.clockReads + 1))]), none, some true⟩ ∧
      cacheWrites (eventsSince offlineEmpty (createRecipe flakyEnv soup offlineEmpty).2) =
        [("recipes", .row (recipeWithTempId flakyEnv soup (flakyEnv.now offlineEmpty.clockReads)
          (flakyEnv.now (offlineEmpty.clockReads + 1))))] ∧
      fieldOf (recipeWithTempId flakyEnv soup (flakyEnv.now offlineEmpty.clockReads)
          (flakyEnv.now (offlineEmpty.clockReads + 1))) "id"
        = .str ("temp_" ++ toString (flakyEnv.now offlineEmpty.clockReads)) ∧
      fieldOf (recipeWithTempId flakyEnv soup (flakyEnv.now offlineEmpty.clockReads)
          (flakyEnv.now (offlineEmpty.clockReads + 1))) "created_at"
        = .str (flakyEnv.toISOString (flakyEnv.now (offlineEmpty.clockReads + 1))) ∧
      (∀ k, k ≠ "id" → k ≠ "created_at" →
        fieldOf (recipeWithTempId flakyEnv soup (flakyEnv.now offlineEmpty.clockReads)
          (flakyEnv.now (offlineEmpty.clockReads + 1))) k = fieldOf soup k) ∧
      "temp_".data <+: (tempId (flakyEnv.now offlineEmpty.clockReads)).data) ∧
    getById "recipes" (.str "temp_1000") (createRecipe flakyEnv soup offlineEmpty).2.store.cache
      = .row [("title", .str "Soup"), ("user_id", .str "u1"), ("id", .str "temp_1000"),
          ("created_at", .str "T1001")] :=
  ⟨rfl,
    createRecipe_offline_tentative flakyEnv soup offlineEmpty rfl (fun _ _ => rfl)
      (fun _ _ => rfl),
    by decide⟩

/-- C5. `createRecipe(payload)` called while offline (the two helper calls not
throwing) calls `addPendingChange` exactly once, with
`{type: 'create', entity: 'recipes', data: payload}`, the payload as given
(without the temporary identity and without `created_at`); the local store is
left as the cache write followed by that one append leave it; and no query is
sent to the backend, whose state is untouched. -/
theorem createRecipe_offline_queues (E : Env σ β) (payload : Obj) (w : World σ β)
    (hoff : E.isOnline w.store = false)
    (hcache : ∀ d s, (E.cacheData "recipes" d s).1 = none)
    (hadd : ∀ c s, (E.addPendingChange c s).1 = none) :
    pendingAppends (eventsSince w (createRecipe E payload w).2) =
        [⟨"create", "recipes", payload⟩] ∧
      (createRecipe E payload w).2.store =
        (E.addPendingChange ⟨"create", "recipes", payload⟩
          (E.cacheData "recipes" (.row (recipeWithTempId E payload (E.now w.clockReads)
            (E.now (w.clockReads + 1)))) w.store).2).2 ∧
      backendRequests (eventsSince w (createRecipe E payload w).2) = [] ∧
      (createRecipe E payload w).2.backend = w.backend := by
  have hrun := createRecipe_offline_run E payload w hoff hcache hadd
  rw [hrun]
  refine ⟨?_, rfl, ?_, rfl⟩
  · simp [eventsSince, pendingAppends]
  · simp [eventsSince, backendRequests]

/-- Witness of C5: creating the soup recipe offline from an empty log, on the
specified store; the log then holds exactly one entry, an unsynced create of
the payload. -/
theorem createRecipe_offline_queues_witness :
    flakyEnv.isOnline offlineEmpty.store = false ∧
    (pendingAppends (eventsSince offlineEmpty (createRecipe flakyEnv soup offlineEmpty).2) =
        [⟨"create", "recipes", soup⟩] ∧
      (createRecipe flakyEnv soup offlineEmpty).2.store =
        (flakyEnv.addPendingChange ⟨"create", "recipes", soup⟩
          (flakyEnv.cacheData "recipes" (.row (recipeWithTempId flakyEnv soup
            (flakyEnv.now offlineEmpty.clockReads)
            (flakyEnv.now (offlineEmpty.clockReads + 1)))) offlineEmpty.store).2).2 ∧
      backendRequests (eventsSince offlineEmpty (createRecipe flakyEnv soup offlineEmpty).2)
        = [] ∧
      (createRecipe flakyEnv soup offlineEmpty).2.backend = offlineEmpty.backend) ∧
    (createRecipe flakyEnv soup offlineEmpty).2.store.log =
      [⟨.num 0, "create", "recipes", soup, false⟩] :=
  ⟨rfl,
    createRecipe_offline_queues flakyEnv soup offlineEmpty rfl (fun _ _ => rfl)
      (fun _ _ => rfl),
    by decide⟩

/-! ## Reads -/

/-- C6, at the failing input: the backend is reachable and answers the read
with an error result without data, `{data: null, error}`, which is how the
backend client reports every failure.  The `catch` block with its comment
"Fallback to cache if there's an error" is not entered: `getRecipes` and
`getRecipe` return that failure as it is, without an `isOffline` tag, and do
not read the cache, which holds a recipe of the user. -/
theorem reads_error_result_not_degraded :
    (storeEnv rejectingBackend sampleClock sampleISO).isOnline onlineCached.store = true ∧
    (rejectingBackend onlineCached.backend (recipesQuery (.str "u1"))).1
      = .returned (.val .null) (some rejected) ∧
    (getRecipes (storeEnv rejectingBackend sampleClock sampleISO) (.str "u1") onlineCached).1
      = .ok ⟨some (.val .null), some rejected, none⟩ ∧
    (getRecipes (storeEnv rejectingBackend sampleClock sampleISO) (.str "u1") onlineCached).1
      ≠ .ok ⟨some (.rows [stale]), none, some true⟩ ∧
    (getRecipe (storeEnv rejectingBackend sampleClock sampleISO) (.str "7") onlineCached).1
      = .ok ⟨some (.val .null), some rejected, none⟩ ∧
    (getRecipe (storeEnv rejectingBackend sampleClock sampleISO) (.str "7") onlineCached).1
      ≠ .ok ⟨some (.row stale), none, some true⟩ ∧
    cacheReads (eventsSince onlineCached
      (getRecipes (storeEnv rejectingBackend sampleClock sampleISO) (.str "u1")
        onlineCached).2) = [] := by
  decide

/-- The same for every backend, user and record: while online, an error result
with falsy data is returned by `getRecipes` and `getRecipe` as it is, with no
`isOffline` property, and the cache is not read. -/
theorem reads_return_error_result (E : Env σ β) (w : World σ β)
    (honline : E.isOnline w.store = true) :
    (∀ userId d e, (E.respond w.backend (recipesQuery userId)).1 = .returned d (some e) →
      d.truthy = false →
      (getRecipes E userId w).1 = .ok ⟨some d, some e, none⟩ ∧
      cacheReads (eventsSince w (getRecipes E userId w).2) = []) ∧
    (∀ recipeId d e, (E.respond w.backend (recipeQuery recipeId)).1 = .returned d (some e) →
      d.truthy = false →
      (getRecipe E recipeId w).1 = .ok ⟨some d, some e, none⟩ ∧
      cacheReads (eventsSince w (getRecipe E recipeId w).2) = []) := by
  refine ⟨?_, ?_⟩
  · intro userId d e hb hd
    simp [getRecipes, getRecipesTry, isOnline, callBackend, World.emit, honline, hb, hd,
      eventsSince, cacheReads]
  · intro recipeId d e hb hd
    simp [getRecipe, getRecipeTry, isOnline, callBackend, World.emit, honline, hb, hd,
      eventsSince, cacheReads]

/-- Counterexample to C7: the backend answers the read with data, and the
result of `getRecipes` (and of `getRecipe`) has no `isOffline` property: it is
not `isOffline = false`. -/
theorem reads_online_untagged :
    (storeEnv servingBackend sampleClock sampleISO).isOnline onlineCached.store = true ∧
    (servingBackend onlineCached.backend (recipesQuery (.str "u1"))).1
      = .returned (.rows [stew]) none ∧
    (getRecipes (storeEnv servingBackend sampleClock sampleISO) (.str "u1") onlineCached).1
      = .ok ⟨some (.rows [stew]), none, none⟩ ∧
    (getRecipes (storeEnv servingBackend sampleClock sampleISO) (.str "u1") onlineCached).1
      ≠ .ok ⟨some (.rows [stew]), none, some false⟩ ∧
    (getRecipe (storeEnv servingBackend sampleClock sampleISO) (.str "42") onlineCached).1
      ≠ .ok ⟨some (.rows [stew]), none, some false⟩ := by
  decide

/-- C7 as amended. While online, when the backend read returns truthy data and
the cache write does not throw, `getRecipes` (and `getRecipe`) makes exactly
one cache write, `cacheData('recipes', data)` with the returned data, leaves
the store as that write leaves it, and returns the `{data, error}` of the
backend; the result has no `isOffline` property (it is `undefined`, not
`false`). -/
theorem reads_online_cache_and_return (E : Env σ β) (w : World σ β) (d : Data)
    (err : Option Err)
    (honline : E.isOnline w.store = true)
    (hd : d.truthy = true)
    (hcache : (E.cacheData "recipes" d w.store).1 = none) :
    (∀ userId, (E.respond w.backend (recipesQuery userId)).1 = .returned d err →
      (getRecipes E userId w).1 = .ok ⟨some d, err, none⟩ ∧
      cacheWrites (eventsSince w (getRecipes E userId w).2) = [("recipes", d)] ∧
      (getRecipes E userId w).2.store = (E.cacheData "recipes" d w.store).2) ∧
    (∀ recipeId, (E.respond w.backend (recipeQuery recipeId)).1 = .returned d err →
      (getRecipe E recipeId w).1 = .ok ⟨some d, err, none⟩ ∧
      cacheWrites (eventsSince w (getRecipe E recipeId w).2) = [("recipes", d)] ∧
      (getRecipe E recipeId w).2.store = (E.cacheData "recipes" d w.store).2) := by
  refine ⟨?_, ?_⟩
  · intro userId hb
    simp [getRecipes, getRecipesTry, isOnline, callBackend, cacheData, World.emit, honline,
      hb, hd, hcache, eventsSince, cacheWrites]
  · intro recipeId hb
    simp [getRecipe, getRecipeTry, isOnline, callBackend, cacheData, World.emit, honline,
      hb, hd, hcache, eventsSince, cacheWrites]

/-- Witness of C7 as amended: the backend serves one recipe. -/
theorem reads_online_cache_and_return_witness :
    (storeEnv servingBackend sampleClock sampleISO).isOnline onlineCached.store = true ∧
    (Data.rows [stew]).truthy = true ∧
    ((getRecipes (storeEnv servingBackend sampleClock sampleISO) (.str "u1") onlineCached).1
        = .ok ⟨some (.rows [stew]), none, none⟩ ∧
      cacheWrites (eventsSince onlineCached
        (getRecipes (storeEnv servingBackend sampleClock sampleISO) (.str "u1")
          onlineCached).2) = [("recipes", .rows [stew])] ∧
      (getRecipes (storeEnv servingBackend sampleClock sampleISO) (.str "u1")
          onlineCached).2.store
        = ((storeEnv servingBackend sampleClock sampleISO).cacheData "recipes" (.rows [stew])
            onlineCached.store).2) :=
  ⟨rfl, rfl,
    (reads_online_cache_and_return (storeEnv servingBackend sampleClock sampleISO) onlineCached
      (.rows [stew]) none rfl rfl rfl).1 (.str "u1") rfl⟩

/-! ## The cache after an online read -/

theorem mem_putRecord (ty : String) (r : Obj) (cache : List (String × Obj))
    (p : String × Obj) :
    p ∈ putRecord ty r cache ↔
      p = (ty, r) ∨ (p ∈ cache ∧ hasIdentity ty (fieldOf r "id") p = false) := by
  unfold putRecord
  by_cases hany : cache.any (hasIdentity ty (fieldOf r "id")) = true
  · rw [if_pos hany, List.mem_map]
    obtain ⟨q0, hq0, hq0id⟩ := List.any_eq_true.mp hany
    constructor
    · rintro ⟨q, hq, hqp⟩
      by_cases hid : hasIdentity ty (fieldOf r "id") q = true
      · left; simpa [hid] using hqp.symm
      · right
        simp only [hid] at hqp
        subst hqp
        exact ⟨hq, by simpa using hid⟩
    · rintro (h | ⟨hp, hid⟩)
      · exact ⟨q0, hq0, by simp [hq0id, h]⟩
      · exact ⟨p, hp, by simp [hid]⟩
  · rw [if_neg hany, List.mem_append, List.mem_singleton]
    have hnone : ∀ q ∈ cache, hasIdentity ty (fieldOf r "id") q = false := by
      intro q hq
      by_contra hc
      exact hany (List.any_eq_true.mpr ⟨q, hq, by simpa using hc⟩)
    constructor
    · rintro (h | h)
      · exact Or.inr ⟨h, hnone p h⟩
      · exact Or.inl h
    · rintro (h | ⟨h, _⟩)
      · exact Or.inr h
      · exact Or.inl h

theorem mem_putAll (ty : String) (rs : List Obj) :
    ∀ (cache : List (String × Obj)) (p : String × Obj),
      (rs.map (fun r => fieldOf r "id")).Nodup →
      (p ∈ rs.foldl (fun c r => putRecord ty r c) cache ↔
        (∃ r ∈ rs, p = (ty, r)) ∨
          (p ∈ cache ∧ ∀ r ∈ rs, hasIdentity ty (fieldOf r "id") p = false)) := by
  induction rs with
  | nil => intro cache p _; simp
  | cons r rs ih =>
    intro cache p hnd
    rw [List.map_cons, List.nodup_cons] at hnd
    obtain ⟨hr, hnd⟩ := hnd
    rw [List.foldl_cons, ih _ _ hnd, mem_putRecord]
    constructor
    · rintro (⟨r', hr', hp⟩ | ⟨hp | ⟨hp, hid⟩, hall⟩)
      · exact Or.inl ⟨r', List.mem_cons_of_mem _ hr', hp⟩
      · exact Or.inl ⟨r, List.mem_cons_self _ _, hp⟩
      · refine Or.inr ⟨hp, ?_⟩
        intro r' hr'
        rcases List.mem_cons.mp hr' with h | h
        · rw [h]; exact hid
        · exact hall r' h
    · rintro (⟨r', hr', hp⟩ | ⟨hp, hall⟩)
      · rcases List.mem_cons.mp hr' with h | h
        · subst h
          refine Or.inr ⟨Or.inl hp, ?_⟩
          intro r2 hr2
          subst hp
          have hne : fieldOf r' "id" ≠ fieldOf r2 "id" :=
            fun he => hr (he ▸ List.mem_map_of_mem (fun r => fieldOf r "id") hr2)
          simp [hasIdentity, hne]
        · exact Or.inl ⟨r', h, hp⟩
      · exact Or.inr ⟨Or.inr ⟨hp, hall r (List.mem_cons_self _ _)⟩,
          fun r' hr' => hall r' (List.mem_cons_of_mem _ hr')⟩

theorem mem_getAll (ty : String) (cache : List (String × Obj)) (r : Obj) :
    r ∈ getAll ty cache ↔ (ty, r) ∈ cache := by
  unfold getAll
  rw [List.mem_map]
  constructor
  · rintro ⟨p, hp, rfl⟩
    have h := List.mem_filter.mp hp
    have h2 : p.1 = ty := by simpa using h.2
    rw [← h2]
    exact h.1
  · intro h
    exact ⟨(ty, r), List.mem_filter.mpr ⟨h, by simp⟩, rfl⟩

/-- The two reads of C8 on the specified local store: an online read answered
with the rows `D`, the platform going offline, an offline read. -/
theorem getRecipes_online_then_offline (respond : β → Request → Response × β)
    (now : Nat → Nat) (iso : Nat → String) (w : World LocalStore β) (u : Val)
    (D : List Obj) (err : Option Err)
    (honline : w.store.online = true)
    (hresp : (respond w.backend (recipesQuery u)).1 = .returned (.rows D) err) :
    (getRecipes (storeEnv respond now iso) u
        (setOnline false (getRecipes (storeEnv respond now iso) u w).2)).1 =
      .ok ⟨some (.rows ((getAll "recipes"
          (D.foldl (fun c r => putRecord "recipes" r c) w.store.cache)).filter
            (fun recipe => fieldOf recipe "user_id" = u))), none, some true⟩ := by
  simp [getRecipes, getRecipesTry, recipesFromCache, isOnline, callBackend, cacheData,
    getCachedData, World.emit, storeEnv, setOnline, honline, hresp, Data.truthy, putData]

/-- Counterexample to C8: the cache already holds a recipe of the user that the
backend does not return; the offline read that follows the online read returns
it together with the backend rows, which is not the set the backend returned. -/
theorem offline_read_keeps_stale :
    onlineCached.store.online = true ∧
    (servingBackend onlineCached.backend (recipesQuery (.str "u1"))).1
      = .returned (.rows [stew]) none ∧
    (∀ r ∈ [stew], fieldOf r "user_id" = .str "u1") ∧
    (getRecipes (storeEnv servingBackend sampleClock sampleISO) (.str "u1")
        (setOnline false
          (getRecipes (storeEnv servingBackend sampleClock sampleISO) (.str "u1")
            onlineCached).2)).1
      = .ok ⟨some (.rows [stale, stew]), none, some true⟩ ∧
    stale ∉ [stew] := by
  decide

/-- C8 as amended. On the specified local store, for every user `u`, every
prior cache and every backend result `D` (records owned by `u`, with distinct
identities): an online `getRecipes(u)` answered with `D` followed by an offline
`getRecipes(u)` returns, with `isOffline = true`, exactly the records of `D`
and the previously cached recipes of `u` whose identity is not in `D`; so the
data is the same set as `D` when the prior cache holds no such recipe. -/
theorem offline_read_after_online_read (respond : β → Request → Response × β)
    (now : Nat → Nat) (iso : Nat → String) (w : World LocalStore β) (u : Val)
    (D : List Obj) (err : Option Err)
    (honline : w.store.online = true)
    (hresp : (respond w.backend (recipesQuery u)).1 = .returned (.rows D) err)
    (howned : ∀ r ∈ D, fieldOf r "user_id" = u)
    (hdist : (D.map (fun r => fieldOf r "id")).Nodup) :
    ∃ xs, (getRecipes (storeEnv respond now iso) u
        (setOnline false (getRecipes (storeEnv respond now iso) u w).2)).1
        = .ok ⟨some (.rows xs), none, some true⟩ ∧
      (∀ r, r ∈ xs ↔ r ∈ D ∨ (r ∈ getAll "recipes" w.store.cache ∧
          fieldOf r "user_id" = u ∧ ∀ r' ∈ D, fieldOf r "id" ≠ fieldOf r' "id")) ∧
      ((∀ r ∈ getAll "recipes" w.store.cache, fieldOf r "user_id" = u →
          ∃ r' ∈ D, fieldOf r "id" = fieldOf r' "id") →
        ∀ r, r ∈ xs ↔ r ∈ D) := by
  have hmem : ∀ r, r ∈ (getAll "recipes"
        (D.foldl (fun c r => putRecord "recipes" r c) w.store.cache)).filter
          (fun recipe => fieldOf recipe "user_id" = u) ↔
      r ∈ D ∨ (r ∈ getAll "recipes" w.store.cache ∧
          fieldOf r "user_id" = u ∧ ∀ r' ∈ D, fieldOf r "id" ≠ fieldOf r' "id") := by
    intro r
    rw [List.mem_filter, mem_getAll, mem_putAll "recipes" D _ _ hdist, mem_getAll]
    constructor
    · rintro ⟨⟨r', hr', hp⟩ | ⟨hc, hall⟩, hu⟩
      · left
        have : r = r' := (Prod.mk.inj hp).2
        rw [this]; exact hr'
      · right
        refine ⟨hc, by simpa using hu, ?_⟩
        intro r' hr' heq
        have h := hall r' hr'
        simp [hasIdentity, heq] at h
    · rintro (hr | ⟨hc, hu, hall⟩)
      · exact ⟨Or.inl ⟨r, hr, rfl⟩, by simpa using howned r hr⟩
      · refine ⟨Or.inr ⟨hc, ?_⟩, by simpa using hu⟩
        intro r' hr'
        simp [hasIdentity, hall r' hr']
  refine ⟨_, getRecipes_online_then_offline respond now iso w u D err honline hresp,
    hmem, ?_⟩
  intro hnone r
  rw [hmem]
  constructor
  · rintro (h | ⟨hc, hu, hall⟩)
    · exact h
    · obtain ⟨r', hr', heq⟩ := hnone r hc hu
      exact absurd heq (hall r' hr')
  · exact Or.inl

/-- Witness of C8 as amended: the backend serves one recipe of the user; with
the stale recipe in the cache the offline read returns both, with an empty
cache it returns the set the backend returned. -/
theorem offline_read_after_online_read_witness :
    onlineCached.store.online = true ∧
    (servingBackend onlineCached.backend (recipesQuery (.str "u1"))).1
      = .returned (.rows [stew]) none ∧
    (∀ r ∈ [stew], fieldOf r "user_id" = .str "u1") ∧
    ([stew].map (fun r => fieldOf r "id")).Nodup ∧
    (∃ xs, (getRecipes (storeEnv servingBackend sampleClock sampleISO) (.str "u1")
        (setOnline false (getRecipes (storeEnv servingBackend sampleClock sampleISO)
          (.str "u1") onlineCached).2)).1
        = .ok ⟨some (.rows xs), none, some true⟩ ∧
      ∀ r, r ∈ xs ↔ r ∈ [stew] ∨ (r ∈ getAll "recipes" onlineCached.store.cache ∧
          fieldOf r "user_id" = .str "u1" ∧
          ∀ r' ∈ [stew], fieldOf r "id" ≠ fieldOf r' "id")) ∧
    (∃ xs, (getRecipes (storeEnv servingBackend sampleClock sampleISO) (.str "u1")
        (setOnline false (getRecipes (storeEnv servingBackend sampleClock sampleISO)
          (.str "u1") onlineEmpty).2)).1
        = .ok ⟨some (.rows xs), none, some true⟩ ∧
      ∀ r, r ∈ xs ↔ r ∈ [stew]) :=
  ⟨rfl, rfl, by decide, by decide,
    (offline_read_after_online_read servingBackend sampleClock sampleISO onlineCached
      (.str "u1") [stew] none rfl rfl (by decide) (by decide)).imp
        (fun _ h => ⟨h.1, h.2.1⟩),
    (offline_read_after_online_read servingBackend sampleClock sampleISO onlineEmpty
      (.str "u1") [stew] none rfl rfl (by decide) (by decide)).imp
        (fun _ h => ⟨h.1, h.2.2 (by intro r hr; simp [getAll, onlineEmpty] at hr)⟩)⟩

/-! ## Offline creation followed by reconciliation -/

/-- A pass of `syncPendingChanges` never calls `cacheData`. -/
theorem syncPendingChanges_no_cacheData (E : Env σ β) (w : World σ β) :
    cacheWrites (eventsSince w (syncPendingChanges E w).2) = [] := by
  cases honline : E.isOnline w.store with
  | false =>
    simp [syncPendingChanges, isOnline, World.emit, honline, eventsSince, cacheWrites]
  | true =>
    cases hload : (E.getPendingChanges w.store).1 with
    | error e =>
      simp [syncPendingChanges, isOnline, getPendingChanges, World.emit, honline, hload,
        eventsSince, cacheWrites]
    | ok cs =>
      by_cases hlen : cs.length = 0
      · simp [syncPendingChanges, isOnline, getPendingChanges, World.emit, honline, hload,
          hlen, eventsSince, cacheWrites]
      · obtain ⟨evs, ht, _, _, _, hc⟩ := syncLoop_account E cs
          (getPendingChanges E (isOnline E w).2).2 0 []
        have hev : eventsSince w (syncPendingChanges E w).2 =
            [.isOnline true, .getPendingChanges none] ++ evs ++
              [.removeSyncedChanges (E.removeSyncedChanges
                (syncLoop E cs (getPendingChanges E (isOnline E w).2).2 0 []).1.store).1] := by
          apply eventsSince_of_trace
          simp only [syncPendingChanges, isOnline, honline, getPendingChanges, World.emit,
            hload, hlen, if_false] at ht ⊢
          generalize syncLoop E cs _ 0 [] = L at ht ⊢
          cases hp : (E.removeSyncedChanges L.1.store).1 <;>
            simp [removeSyncedChanges, hp, ht, failureOf]
        rw [hev, cacheWrites_append, cacheWrites_append, hc]
        simp [cacheWrites]

/-- On the specified local store a pass of `syncPendingChanges` leaves the
cache as it found it. -/
theorem syncPendingChanges_cache_unchanged (respond : β → Request → Response × β)
    (now : Nat → Nat) (iso : Nat → String) (w : World LocalStore β) :
    (syncPendingChanges (storeEnv respond now iso) w).2.store.cache = w.store.cache := by
  cases honline : w.store.online with
  | false => simp [syncPendingChanges, isOnline, World.emit, storeEnv, honline]
  | true =>
    by_cases hlen : (listUnsynced w.store.log).length = 0
    · simp [syncPendingChanges, isOnline, getPendingChanges, World.emit, storeEnv, honline,
        hlen]
    · have hun : ∀ c ∈ listUnsynced w.store.log, c.synced = false := by
        intro c hc
        simpa [listUnsynced] using (List.mem_filter.mp hc).2
      have hloop := syncLoop_store respond now iso (listUnsynced w.store.log)
        (getPendingChanges (storeEnv respond now iso)
          (isOnline (storeEnv respond now iso) w).2).2 0 [] hun
      have hcache : (syncPendingChanges (storeEnv respond now iso) w).2.store.cache =
          (syncLoop (storeEnv respond now iso) (listUnsynced w.store.log)
            (getPendingChanges (storeEnv respond now iso)
              (isOnline (storeEnv respond now iso) w).2).2 0 []).1.store.cache := by
        simp [syncPendingChanges, isOnline, getPendingChanges, removeSyncedChanges, World.emit,
          storeEnv, honline, hlen]
      rw [hcache, hloop]
      simp [isOnline, getPendingChanges, World.emit, storeEnv]

theorem find_hasIdentity_map (ty : String) (r : Obj) (cache : List (String × Obj))
    (hany : cache.any (hasIdentity ty (fieldOf r "id")) = true) :
    (cache.map (fun p => if hasIdentity ty (fieldOf r "id") p then (ty, r) else p)).find?
      (hasIdentity ty (fieldOf r "id")) = some (ty, r) := by
  induction cache with
  | nil => simp at hany
  | cons q cache ih =>
    have hself : hasIdentity ty (fieldOf r "id") (ty, r) = true := by simp [hasIdentity]
    by_cases hq : hasIdentity ty (fieldOf r "id") q = true
    · rw [List.map_cons, if_pos hq, List.find?_cons, hself]
    · have hrest : cache.any (hasIdentity ty (fieldOf r "id")) = true := by
        simpa [List.any_cons, hq] using hany
      have hq' : hasIdentity ty (fieldOf r "id") q = false := by simpa using hq
      rw [List.map_cons, if_neg hq, List.find?_cons, hq']
      exact ih hrest

/-- Write-then-read on the specified cache: the record just put is the one found
under its identity. -/
theorem getById_putRecord (ty : String) (r : Obj) (cache : List (String × Obj)) :
    getById ty (fieldOf r "id") (putRecord ty r cache) = .row r := by
  unfold getById putRecord
  by_cases hany : cache.any (hasIdentity ty (fieldOf r "id")) = true
  · rw [if_pos hany, find_hasIdentity_map ty r cache hany]
  · rw [if_neg hany, List.find?_append]
    have hnone : cache.find? (hasIdentity ty (fieldOf r "id")) = none := by
      rw [List.find?_eq_none]
      intro q hq hc
      exact hany (List.any_eq_true.mpr ⟨q, hq, hc⟩)
    simp [hnone, List.find?_cons, hasIdentity]

theorem recipeWithTempId_id (E : Env σ β) (payload : Obj) (t t' : Nat) :
    fieldOf (recipeWithTempId E payload t t') "id" = .str (tempId t) := by
  unfold recipeWithTempId
  rw [fieldOf_setField_other _ _ _ _ (by decide), fieldOf_setField_same]

/-- C9. On the specified local store, starting from an empty Pending Change
Log: an offline `createRecipe(payload)`, the platform coming online, and a
`syncPendingChanges` in which the backend accepts the insert (whatever data,
hence whatever identity, it answers with) leave the log empty and report
`success = true`, `processed = 1`, `errors = null`; the cache is as
`createRecipe` left it and still holds the tentative record under its `temp_`
identity.  No pass of `syncPendingChanges` ever calls `cacheData` or changes
the cache. -/
theorem offline_create_then_sync (respond : β → Request → Response × β)
    (now : Nat → Nat) (iso : Nat → String) (payload : Obj) (w : World LocalStore β)
    (d : Data)
    (hoff : w.store.online = false)
    (hlog : w.store.log = [])
    (haccept : (respond w.backend (.insert "recipes" payload)).1 = .returned d none) :
    (syncPendingChanges (storeEnv respond now iso)
        (setOnline true (createRecipe (storeEnv respond now iso) payload w).2)).1
      = .ok ⟨true, some 1, .null⟩ ∧
    (syncPendingChanges (storeEnv respond now iso)
        (setOnline true (createRecipe (storeEnv respond now iso) payload w).2)).2.store.log
      = [] ∧
    (syncPendingChanges (storeEnv respond now iso)
        (setOnline true (createRecipe (storeEnv respond now iso) payload w).2)).2.store.cache
      = (createRecipe (storeEnv respond now iso) payload w).2.store.cache ∧
    getById "recipes" (.str (tempId (now w.clockReads)))
        (syncPendingChanges (storeEnv respond now iso)
          (setOnline true (createRecipe (storeEnv respond now iso) payload w).2)).2.store.cache
      = .row (recipeWithTempId (storeEnv respond now iso) payload (now w.clockReads)
          (now (w.clockReads + 1))) ∧
    (∀ w' : World LocalStore β,
      cacheWrites (eventsSince w' (syncPendingChanges (storeEnv respond now iso) w').2) = [] ∧
      (syncPendingChanges (storeEnv respond now iso) w').2.store.cache = w'.store.cache) := by
  have hrun := createRecipe_offline_run (storeEnv respond now iso) payload w hoff
    (fun _ _ => rfl) (fun _ _ => rfl)
  have hcache := syncPendingChanges_cache_unchanged respond now iso
    (setOnline true (createRecipe (storeEnv respond now iso) payload w).2)
  have hreq : requestOf ⟨.num w.store.nextSeq, "create", "recipes", payload, false⟩
      = some (.insert "recipes" payload) := by
    simp [requestOf]
  refine ⟨?_, ?_, ?_, ?_, ?_⟩
  · rw [hrun]
    simp [syncPendingChanges, isOnline, getPendingChanges, removeSyncedChanges, World.emit,
      storeEnv, setOnline, appendChange, listUnsynced, hlog, syncLoop, syncChange, hreq,
      callBackend, haccept, markChangeAsSynced]
  · rw [hrun]
    simp [syncPendingChanges, isOnline, getPendingChanges, removeSyncedChanges, World.emit,
      storeEnv, setOnline, appendChange, listUnsynced, hlog, syncLoop, syncChange, hreq,
      callBackend, haccept, markChangeAsSynced, markSynced, purgeSynced]
  · rw [hcache]; rfl
  · rw [hcache, hrun]
    have hput := getById_putRecord "recipes"
      (recipeWithTempId (storeEnv respond now iso) payload (now w.clockReads)
        (now (w.clockReads + 1))) w.store.cache
    rw [recipeWithTempId_id] at hput
    simpa [setOnline, storeEnv, appendChange, putData] using hput
  · intro w'
    exact ⟨syncPendingChanges_no_cacheData _ w',
      syncPendingChanges_cache_unchanged respond now iso w'⟩

/-- Witness of C9: the soup recipe created offline, then synced against a
backend that accepts the insert and assigns the identity "42". -/
theorem offline_create_then_sync_witness :
    offlineEmpty.store.online = false ∧
    offlineEmpty.store.log = [] ∧
    (flakyBackend offlineEmpty.backend (.insert "recipes" soup)).1
      = .returned (.rows [[("id", .str "42")]]) none ∧
    (syncPendingChanges (storeEnv flakyBackend sampleClock sampleISO)
        (setOnline true
          (createRecipe (storeEnv flakyBackend sampleClock sampleISO) soup offlineEmpty).2)).1
      = .ok ⟨true, some 1, .null⟩ ∧
    (syncPendingChanges (storeEnv flakyBackend sampleClock sampleISO)
        (setOnline true
          (createRecipe (storeEnv flakyBackend sampleClock sampleISO) soup
            offlineEmpty).2)).2.store.log = [] ∧
    getById "recipes" (.str "temp_1000")
        (syncPendingChanges (storeEnv flakyBackend sampleClock sampleISO)
          (setOnline true
            (createRecipe (storeEnv flakyBackend sampleClock sampleISO) soup
              offlineEmpty).2)).2.store.cache
      = .row [("title", .str "Soup"), ("user_id", .str "u1"), ("id", .str "temp_1000"),
          ("created_at", .str "T1001")] ∧
    getById "recipes" (.str "42")
        (syncPendingChanges (storeEnv flakyBackend sampleClock sampleISO)
          (setOnline true
            (createRecipe (storeEnv flakyBackend sampleClock sampleISO) soup
              offlineEmpty).2)).2.store.cache
      = .val .undefined :=
  ⟨rfl, rfl, rfl,
    (offline_create_then_sync flakyBackend sampleClock sampleISO soup offlineEmpty
      (.rows [[("id", .str "42")]]) rfl rfl rfl).1,
    (offline_create_then_sync flakyBackend sampleClock sampleISO soup offlineEmpty
      (.rows [[("id", .str "42")]]) rfl rfl rfl).2.1,
    (offline_create_then_sync flakyBackend sampleClock sampleISO soup offlineEmpty
      (.rows [[("id", .str "42")]]) rfl rfl rfl).2.2.2.1,
    by decide⟩

/-! ## Updates and deletes -/

/-- C10. In every world, online or offline, `updateRecipe` and `deleteRecipe`
make exactly one call to a collaborator, the backend query (so they call
neither `isOnline` nor any helper of the cache or of the Pending Change Log),
leave the local store untouched, and hand the backend's answer on unchanged:
`updateRecipe` returns the backend's `{data, error}`, `deleteRecipe` its
`{error}`, and an exception of the backend propagates. -/
theorem update_delete_direct (E : Env σ β) (w : World σ β) (recipeId : Val)
    (recipeData : Obj) :
    ((updateRecipe E recipeId recipeData w).1 =
        match (E.respond w.backend (.update "recipes" recipeData recipeId)).1 with
        | .returned data error => .ok ⟨some data, error, none⟩
        | .threw e => .error e) ∧
      eventsSince w (updateRecipe E recipeId recipeData w).2 =
        [.backend (.update "recipes" recipeData recipeId)
          (E.respond w.backend (.update "recipes" recipeData recipeId)).1] ∧
      (updateRecipe E recipeId recipeData w).2.store = w.store ∧
    ((deleteRecipe E recipeId w).1 =
        match (E.respond w.backend (.delete "recipes" recipeId)).1 with
        | .returned _ error => .ok ⟨none, error, none⟩
        | .threw e => .error e) ∧
      eventsSince w (deleteRecipe E recipeId w).2 =
        [.backend (.delete "recipes" recipeId)
          (E.respond w.backend (.delete "recipes" recipeId)).1] ∧
      (deleteRecipe E recipeId w).2.store = w.store := by
  refine ⟨?_, ?_, ?_, ?_, ?_, ?_⟩
  · unfold updateRecipe callBackend
    cases (E.respond w.backend (.update "recipes" recipeData recipeId)).1 <;> rfl
  · unfold updateRecipe callBackend
    cases (E.respond w.backend (.update "recipes" recipeData recipeId)).1 <;>
      simp [eventsSince]
  · unfold updateRecipe callBackend
    cases (E.respond w.backend (.update "recipes" recipeData recipeId)).1 <;> rfl
  · unfold deleteRecipe callBackend
    cases (E.respond w.backend (.delete "recipes" recipeId)).1 <;> rfl
  · unfold deleteRecipe callBackend
    cases (E.respond w.backend (.delete "recipes" recipeId)).1 <;> simp [eventsSince]
  · unfold deleteRecipe callBackend
    cases (E.respond w.backend (.delete "recipes" recipeId)).1 <;> rfl

/-! ## Reconciliation: dispatch by kind -/

theorem filterMap_requestOf (cs : List Change) :
    cs.filterMap requestOf = cs.flatMap dispatchByKind := by
  induction cs with
  | nil => rfl
  | cons c cs ih =>
    rw [List.filterMap_cons, List.flatMap_cons, ← ih]
    unfold requestOf dispatchByKind
    by_cases h1 : c.type = "create"
    · simp [h1]
    · by_cases h2 : c.type = "update"
      · simp [h1, h2]
      · by_cases h3 : c.type = "delete" <;> simp [h1, h2, h3]

/-- The events of an online pass that loads the non-empty list `cs`: the two
opening calls, the events of the loop, the purge. -/
theorem pass_events (E : Env σ β) (w : World σ β) (cs : List Change)
    (honline : E.isOnline w.store = true)
    (hload : (E.getPendingChanges w.store).1 = .ok cs)
    (hlen : ¬ cs.length = 0) :
    ∃ evs out, eventsSince w (syncPendingChanges E w).2 =
        [.isOnline true, .getPendingChanges none] ++ evs ++ [.removeSyncedChanges out] ∧
      (syncLoop E cs (getPendingChanges E (isOnline E w).2).2 0 []).1.trace =
        (getPendingChanges E (isOnline E w).2).2.trace ++ evs := by
  obtain ⟨evs, ht, _, _, _, _⟩ := syncLoop_account E cs
    (getPendingChanges E (isOnline E w).2).2 0 []
  refine ⟨evs, (E.removeSyncedChanges
    (syncLoop E cs (getPendingChanges E (isOnline E w).2).2 0 []).1.store).1, ?_, ht⟩
  apply eventsSince_of_trace
  simp only [syncPendingChanges, isOnline, honline, getPendingChanges, World.emit,
    hload, hlen, if_false] at ht ⊢
  generalize syncLoop E cs _ 0 [] = L at ht ⊢
  cases hp : (E.removeSyncedChanges L.1.store).1 <;>
    simp [removeSyncedChanges, hp, ht, failureOf]

/-- The queries of an online pass that loads the list `cs`. -/
theorem pass_requests (E : Env σ β) (w : World σ β) (cs : List Change)
    (honline : E.isOnline w.store = true)
    (hload : (E.getPendingChanges w.store).1 = .ok cs) :
    backendRequests (eventsSince w (syncPendingChanges E w).2)
      = (unsynced cs).filterMap requestOf := by
  by_cases hlen : cs.length = 0
  · have hnil : cs = [] := List.length_eq_zero.mp hlen
    subst hnil
    simp [syncPendingChanges, isOnline, getPendingChanges, World.emit, honline, hload,
      eventsSince, backendRequests, unsynced]
  · obtain ⟨evs, ht, _, _, hr, _⟩ := syncLoop_account E cs
      (getPendingChanges E (isOnline E w).2).2 0 []
    obtain ⟨evs', out, hev, ht'⟩ := pass_events E w cs honline hload hlen
    have heq : evs' = evs := List.append_cancel_left (ht'.symm.trans ht)
    rw [hev, heq, backendRequests_append, backendRequests_append, hr]
    simp [backendRequests]

/-- C11. In an online pass that loads the list `cs`, the backend operations
issued are, entry by entry in list order, exactly those prescribed by the
operation kind of each entry not flagged synced: for a create entry one insert
of `entry.data` into the table `entry.entity`, for an update entry one update
with `entry.data` of the row of `entry.entity` whose id is `entry.id`, for a
delete entry one delete of that row; no other backend operation is issued. -/
theorem syncPendingChanges_dispatch_by_kind (E : Env σ β) (w : World σ β)
    (cs : List Change)
    (honline : E.isOnline w.store = true)
    (hload : (E.getPendingChanges w.store).1 = .ok cs) :
    backendRequests (eventsSince w (syncPendingChanges E w).2)
      = (unsynced cs).flatMap dispatchByKind := by
  rw [pass_requests E w cs honline hload, filterMap_requestOf]

/-- Witness of C11: a create, an update and a delete entry give an insert, an
update keyed by the entry's id and a delete keyed by the entry's id. -/
theorem syncPendingChanges_dispatch_by_kind_witness :
    flakyEnv.isOnline threeKinds.store = true ∧
    (flakyEnv.getPendingChanges threeKinds.store).1 = .ok threeKinds.store.log ∧
    backendRequests (eventsSince threeKinds (syncPendingChanges flakyEnv threeKinds).2)
      = (unsynced threeKinds.store.log).flatMap dispatchByKind ∧
    backendRequests (eventsSince threeKinds (syncPendingChanges flakyEnv threeKinds).2)
      = [.insert "recipes" soup, .update "recipes" soup (.num 1),
          .delete "recipes" (.num 2)] :=
  ⟨rfl, rfl,
    syncPendingChanges_dispatch_by_kind flakyEnv threeKinds threeKinds.store.log rfl rfl,
    by decide⟩

/-! ## Reconciliation: the reported errors -/

/-- The loop of `syncPendingChanges`, when `markChangeAsSynced` does not throw:
it adds to `errors` the failure pairs of the unsynced entries, in order. -/
theorem syncLoop_errors (E : Env σ β) (hmark : ∀ id s, (E.markChangeAsSynced id s).1 = none)
    (cs : List Change) :
    ∀ (w : World σ β) (p : Nat) (es : List (Change × Err)),
      (syncLoop E cs w p es).2.2 = es ++ failurePairs E.respond w.backend (unsynced cs) := by
  induction cs with
  | nil => intro w p es; simp [syncLoop, unsynced, failurePairs]
  | cons c cs ih =>
    intro w p es
    rw [syncLoop, ih]
    by_cases hs : c.synced = true
    · simp [syncChange, hs, unsynced]
    · have hu : unsynced (c :: cs) = c :: unsynced cs := by simp [unsynced, hs]
      rw [hu]
      cases hr : requestOf c with
      | none => simp [syncChange, hs, hr, failurePairs]
      | some req =>
        cases hb : (E.respond w.backend req).1 with
        | threw e =>
          simp [syncChange, hs, hr, hb, failurePairs, callBackend, Response.failure]
        | returned d err =>
          cases err with
          | some e =>
            simp [syncChange, hs, hr, hb, failurePairs, callBackend, Response.failure]
          | none =>
            simp [syncChange, hs, hr, hb, failurePairs, callBackend, Response.failure,
              markChangeAsSynced, hmark]

theorem failurePairs_entries (respond : β → Request → Response × β) (cs : List Change) :
    ∀ b, (failurePairs respond b cs).map Prod.fst = failedEntries respond b cs := by
  induction cs with
  | nil => intro b; rfl
  | cons c cs ih =>
    intro b
    cases hr : requestOf c with
    | none => simp [failurePairs, failedEntries, hr, ih]
    | some req =>
      cases hf : (respond b req).1.failure with
      | none => simp [failurePairs, failedEntries, hr, hf, ih]
      | some e => simp [failurePairs, failedEntries, hr, hf, ih]

/-- The result of an online pass that loads the non-empty list `cs` and whose
purge does not throw, in terms of the loop. -/
theorem pass_result (E : Env σ β) (w : World σ β) (cs : List Change)
    (honline : E.isOnline w.store = true)
    (hload : (E.getPendingChanges w.store).1 = .ok cs)
    (hlen : ¬ cs.length = 0)
    (hpurge : ∀ s, (E.removeSyncedChanges s).1 = none) :
    (syncPendingChanges E w).1 =
      .ok ⟨(syncLoop E cs (getPendingChanges E (isOnline E w).2).2 0 []).2.2.length == 0,
        some (syncLoop E cs (getPendingChanges E (isOnline E w).2).2 0 []).2.1,
        if (syncLoop E cs (getPendingChanges E (isOnline E w).2).2 0 []).2.2.length > 0
        then .list (syncLoop E cs (getPendingChanges E (isOnline E w).2).2 0 []).2.2
        else .null⟩ := by
  have hp1 := hpurge (syncLoop E cs (getPendingChanges E (isOnline E w).2).2 0 []).1.store
  simp only [syncPendingChanges, isOnline, getPendingChanges, removeSyncedChanges, World.emit,
    honline, hload, hlen, if_false] at hp1 ⊢
  generalize syncLoop E cs _ 0 [] = L at hp1 ⊢
  simp [hp1]

/-- Counterexample to C12: an online pass that finds no pending changes returns
`{success: true, processed: 0}`, a result without an `errors` property; its
`errors` is not `null`. -/
theorem empty_pass_has_no_errors_field :
    (storeEnv servingBackend sampleClock sampleISO).isOnline onlineEmpty.store = true ∧
    ((storeEnv servingBackend sampleClock sampleISO).getPendingChanges onlineEmpty.store).1
      = .ok [] ∧
    (syncPendingChanges (storeEnv servingBackend sampleClock sampleISO) onlineEmpty).1
      = .ok ⟨true, some 0, .absent⟩ ∧
    (∀ res, (syncPendingChanges (storeEnv servingBackend sampleClock sampleISO)
        onlineEmpty).1 = .ok res → res.errors ≠ .null) := by
  refine ⟨rfl, rfl, rfl, ?_⟩
  intro res h
  have h2 : res = ⟨true, some 0, .absent⟩ := (Except.ok.inj h).symm
  rw [h2]
  decide

/-- C12 as amended. In an online pass that loads the list `cs` (with
`markChangeAsSynced` and the final purge not throwing): when `cs` is empty the
result has no `errors` property; otherwise `errors` is `null` when no entry
failed and else the list, in dispatch order, of exactly one `{change, error}`
pair per failed entry, pairing the entry with the error the backend returned
or threw for it. -/
theorem syncPendingChanges_errors (E : Env σ β) (w : World σ β) (cs : List Change)
    (honline : E.isOnline w.store = true)
    (hload : (E.getPendingChanges w.store).1 = .ok cs)
    (hmark : ∀ id s, (E.markChangeAsSynced id s).1 = none)
    (hpurge : ∀ s, (E.removeSyncedChanges s).1 = none) :
    ∃ res, (syncPendingChanges E w).1 = .ok res ∧
      res.errors =
        (if cs = [] then .absent
          else if failurePairs E.respond w.backend (unsynced cs) = [] then .null
          else .list (failurePairs E.respond w.backend (unsynced cs))) ∧
      (failurePairs E.respond w.backend (unsynced cs)).map Prod.fst
        = failedEntries E.respond w.backend (unsynced cs) := by
  by_cases hnil : cs = []
  · subst hnil
    refine ⟨⟨true, some 0, .absent⟩, ?_, ?_, failurePairs_entries _ _ _⟩
    · simp [syncPendingChanges, isOnline, getPendingChanges, World.emit, honline, hload]
    · simp
  · have hlen : ¬ cs.length = 0 := fun h => hnil (List.length_eq_zero.mp h)
    have hres := pass_result E w cs honline hload hlen hpurge
    have hes := syncLoop_errors E hmark cs (getPendingChanges E (isOnline E w).2).2 0 []
    have hb : (getPendingChanges E (isOnline E w).2).2.backend = w.backend := rfl
    rw [hb, List.nil_append] at hes
    rw [hes] at hres
    refine ⟨_, hres, ?_, failurePairs_entries _ _ _⟩
    simp only [hnil, if_false]
    cases hfp : failurePairs E.respond w.backend (unsynced cs) with
    | nil => simp
    | cons x xs => simp

/-- Witness of C12 as amended: of two unsynced creates the backend rejects the
second, which is reported with the backend's error. -/
theorem syncPendingChanges_errors_witness :
    flakyEnv.isOnline twoPending.store = true ∧
    (flakyEnv.getPendingChanges twoPending.store).1 = .ok twoPending.store.log ∧
    (∃ res, (syncPendingChanges flakyEnv twoPending).1 = .ok res ∧
      res.errors =
        (if twoPending.store.log = [] then .absent
          else if failurePairs flakyEnv.respond twoPending.backend
              (unsynced twoPending.store.log) = [] then .null
          else .list (failurePairs flakyEnv.respond twoPending.backend
              (unsynced twoPending.store.log))) ∧
      (failurePairs flakyEnv.respond twoPending.backend
          (unsynced twoPending.store.log)).map Prod.fst
        = failedEntries flakyEnv.respond twoPending.backend
            (unsynced twoPending.store.log)) ∧
    (syncPendingChanges flakyEnv twoPending).1 =
      .ok ⟨false, some 1,
        .list [(⟨.num 1, "create", "recipes", soup, false⟩, rejected)]⟩ :=
  ⟨rfl, rfl,
    syncPendingChanges_errors flakyEnv twoPending twoPending.store.log rfl rfl
      (fun _ _ => rfl) (fun _ => rfl),
    by decide⟩

/-! ## Reconciliation while offline -/

/-- C13. When `isOnline()` answers false, `syncPendingChanges` resolves to
`{success: false}` and does nothing else: its only call to a collaborator is
`isOnline()` itself, so it sends no query to the backend, does not read the
Pending Change Log, marks nothing synced and purges nothing, and the local
store and the backend are left as they were. -/
theorem syncPendingChanges_offline_noop (E : Env σ β) (w : World σ β)
    (hoff : E.isOnline w.store = false) :
    (syncPendingChanges E w).1 = .ok ⟨false, none, .absent⟩ ∧
      eventsSince w (syncPendingChanges E w).2 = [.isOnline false] ∧
      backendRequests (eventsSince w (syncPendingChanges E w).2) = [] ∧
      logReads (eventsSince w (syncPendingChanges E w).2) = 0 ∧
      markedIds (eventsSince w (syncPendingChanges E w).2) = [] ∧
      logPurges (eventsSince w (syncPendingChanges E w).2) = 0 ∧
      (syncPendingChanges E w).2.store = w.store ∧
      (syncPendingChanges E w).2.backend = w.backend := by
  have hev : eventsSince w (syncPendingChanges E w).2 = [.isOnline false] := by
    simp [syncPendingChanges, isOnline, World.emit, hoff, eventsSince]
  refine ⟨?_, hev, ?_, ?_, ?_, ?_, ?_, ?_⟩
  · simp [syncPendingChanges, isOnline, World.emit, hoff]
  · rw [hev]; rfl
  · rw [hev]; rfl
  · rw [hev]; rfl
  · rw [hev]; rfl
  · simp [syncPendingChanges, isOnline, World.emit, hoff]
  · simp [syncPendingChanges, isOnline, World.emit, hoff]

/-- Witness of C13: two pending creates, the platform offline. -/
theorem syncPendingChanges_offline_noop_witness :
    flakyEnv.isOnline (setOnline false twoPending).store = false ∧
    ((syncPendingChanges flakyEnv (setOnline false twoPending)).1
        = .ok ⟨false, none, .absent⟩ ∧
      eventsSince (setOnline false twoPending)
        (syncPendingChanges flakyEnv (setOnline false twoPending)).2 = [.isOnline false] ∧
      backendRequests (eventsSince (setOnline false twoPending)
        (syncPendingChanges flakyEnv (setOnline false twoPending)).2) = [] ∧
      logReads (eventsSince (setOnline false twoPending)
        (syncPendingChanges flakyEnv (setOnline false twoPending)).2) = 0 ∧
      markedIds (eventsSince (setOnline false twoPending)
        (syncPendingChanges flakyEnv (setOnline false twoPending)).2) = [] ∧
      logPurges (eventsSince (setOnline false twoPending)
        (syncPendingChanges flakyEnv (setOnline false twoPending)).2) = 0 ∧
      (syncPendingChanges flakyEnv (setOnline false twoPending)).2.store
        = (setOnline false twoPending).store ∧
      (syncPendingChanges flakyEnv (setOnline false twoPending)).2.backend
        = (setOnline false twoPending).backend) :=
  ⟨rfl, syncPendingChanges_offline_noop flakyEnv (setOnline false twoPending) rfl⟩

/-! ## Reconciliation: the identity of an entry -/

/-- Counterexample to C14: for an update entry with `id` 5 that the backend
accepts, the identity handed to `markChangeAsSynced` is 5 and the row the
backend update is keyed by is 5 as well: one and the same `change.id`. -/
theorem mark_uses_the_target_identity :
    (storeEnv servingBackend sampleClock sampleISO).isOnline oneUpdate.store = true ∧
    ((storeEnv servingBackend sampleClock sampleISO).getPendingChanges oneUpdate.store).1
      = .ok [⟨.num 5, "update", "recipes", soup, false⟩] ∧
    backendRequests (eventsSince oneUpdate
      (syncPendingChanges (storeEnv servingBackend sampleClock sampleISO) oneUpdate).2)
      = [.update "recipes" soup (.num 5)] ∧
    (backendRequests (eventsSince oneUpdate
      (syncPendingChanges (storeEnv servingBackend sampleClock sampleISO)
        oneUpdate).2)).filterMap requestKey = [.num 5] ∧
    markedIds (eventsSince oneUpdate
      (syncPendingChanges (storeEnv servingBackend sampleClock sampleISO) oneUpdate).2)
      = [.num 5] := by
  decide

/-- C14 as amended. In the loop of `syncPendingChanges`, for every update or
delete entry not flagged synced that the backend accepts, the calls made are
the backend query and then `markChangeAsSynced`, and the identity passed to
`markChangeAsSynced` is the same value `change.id` that keys the backend
update or delete: the entry has one identity, used for both. -/
theorem mark_and_target_identity (E : Env σ β) (w : World σ β) (c : Change) (p : Nat)
    (es : List (Change × Err)) (req : Request) (d : Data)
    (hs : c.synced = false)
    (hkind : c.type = "update" ∨ c.type = "delete")
    (hreq : requestOf c = some req)
    (haccept : (E.respond w.backend req).1 = .returned d none) :
    requestKey req = some c.id ∧
      eventsSince w (syncChange E c w p es).1 =
        [.backend req (.returned d none),
          .markChangeAsSynced c.id (E.markChangeAsSynced c.id w.store).1] ∧
      markedIds (eventsSince w (syncChange E c w p es).1) = [c.id] ∧
      (backendRequests (eventsSince w (syncChange E c w p es).1)).filterMap requestKey
        = [c.id] := by
  have hkey : requestKey req = some c.id := by
    rcases hkind with h | h
    · have : req = .update c.entity c.data c.id := by
        simpa [requestOf, h] using hreq.symm
      rw [this]; rfl
    · have : req = .delete c.entity c.id := by
        simpa [requestOf, h] using hreq.symm
      rw [this]; rfl
  have hev : eventsSince w (syncChange E c w p es).1 =
      [.backend req (.returned d none),
        .markChangeAsSynced c.id (E.markChangeAsSynced c.id w.store).1] := by
    cases hm : (E.markChangeAsSynced c.id w.store).1 <;>
      simp [syncChange, hs, hreq, callBackend, haccept, markChangeAsSynced, hm, eventsSince]
  refine ⟨hkey, hev, ?_, ?_⟩
  · rw [hev]; rfl
  · rw [hev]; simp [backendRequests, hkey]

/-- Witness of C14 as amended: the update entry with `id` 5. -/
theorem mark_and_target_identity_witness :
    (⟨.num 5, "update", "recipes", soup, false⟩ : Change).synced = false ∧
    requestOf ⟨.num 5, "update", "recipes", soup, false⟩
      = some (.update "recipes" soup (.num 5)) ∧
    (requestKey (.update "recipes" soup (.num 5)) = some (.num 5) ∧
      eventsSince oneUpdate (syncChange (storeEnv servingBackend sampleClock sampleISO)
          ⟨.num 5, "update", "recipes", soup, false⟩ oneUpdate 0 []).1 =
        [.backend (.update "recipes" soup (.num 5)) (.returned (.rows [stew]) none),
          .markChangeAsSynced (.num 5)
            ((storeEnv servingBackend sampleClock sampleISO).markChangeAsSynced (.num 5)
              oneUpdate.store).1] ∧
      markedIds (eventsSince oneUpdate (syncChange
          (storeEnv servingBackend sampleClock sampleISO)
          ⟨.num 5, "update", "recipes", soup, false⟩ oneUpdate 0 []).1) = [.num 5] ∧
      (backendRequests (eventsSince oneUpdate (syncChange
          (storeEnv servingBackend sampleClock sampleISO)
          ⟨.num 5, "update", "recipes", soup, false⟩ oneUpdate 0 []).1)).filterMap requestKey
        = [.num 5]) :=
  ⟨rfl, rfl,
    mark_and_target_identity (storeEnv servingBackend sampleClock sampleISO) oneUpdate
      ⟨.num 5, "update", "recipes", soup, false⟩ 0 [] (.update "recipes" soup (.num 5))
      (.rows [stew]) rfl (Or.inl rfl) rfl rfl⟩

/-! ## Failures of the local storage -/

/-- Counterexample to C15: with local storage that throws, `createRecipe`
(offline and online), `syncPendingChanges`, `getRecipes` and `getRecipe` all
end in the thrown storage exception. -/
theorem storage_failure_reaches_caller :
    (createRecipe (brokenStoreEnv false) soup blank).1 = .error storageError ∧
    (createRecipe (brokenStoreEnv true) soup blank).1 = .error storageError ∧
    (syncPendingChanges (brokenStoreEnv true) blank).1 = .error storageError ∧
    (getRecipes (brokenStoreEnv false) (.str "u1") blank).1 = .error storageError ∧
    (getRecipe (brokenStoreEnv false) (.str "7") blank).1 = .error storageError := by
  decide

/-- C15 as amended. A failure of `cacheData` inside the `try` block of
`getRecipes` or `getRecipe` is swallowed (the function falls back to the cache
read), and a failure of `markChangeAsSynced` inside the loop of
`syncPendingChanges` is captured in `errors`; every other failure of the local
storage propagates to the caller as a thrown exception: `cacheData` or
`addPendingChange` in `createRecipe`, `getPendingChanges` or
`removeSyncedChanges` in `syncPendingChanges`, and `getCachedData` in
`getRecipes` and `getRecipe` when it fails in the `catch` block as well. -/
theorem storage_failures (E : Env σ β) (w : World σ β) :
    (∀ userId d err e all, E.isOnline w.store = true →
      (E.respond w.backend (recipesQuery userId)).1 = .returned d err → d.truthy = true →
      (E.cacheData "recipes" d w.store).1 = some e →
      (E.getCachedData "recipes" none (E.cacheData "recipes" d w.store).2).1
        = .ok (.rows all) →
      (getRecipes E userId w).1 =
        .ok ⟨some (.rows (all.filter (fun recipe => fieldOf recipe "user_id" = userId))),
          none, some true⟩) ∧
    (∀ recipeId d err e cached, E.isOnline w.store = true →
      (E.respond w.backend (recipeQuery recipeId)).1 = .returned d err → d.truthy = true →
      (E.cacheData "recipes" d w.store).1 = some e →
      (E.getCachedData "recipes" (some recipeId) (E.cacheData "recipes" d w.store).2).1
        = .ok cached →
      (getRecipe E recipeId w).1 = .ok ⟨some cached, none, some true⟩) ∧
    (∀ c p es req d e, c.synced = false → requestOf c = some req →
      (E.respond w.backend req).1 = .returned d none →
      (E.markChangeAsSynced c.id w.store).1 = some e →
      (syncChange E c w p es).2 = (p, es ++ [(c, e)])) ∧
    (∀ payload e, E.isOnline w.store = false →
      (E.cacheData "recipes" (.row (recipeWithTempId E payload (E.now w.clockReads)
        (E.now (w.clockReads + 1)))) w.store).1 = some e →
      (createRecipe E payload w).1 = .error e) ∧
    (∀ payload e, E.isOnline w.store = false →
      (E.cacheData "recipes" (.row (recipeWithTempId E payload (E.now w.clockReads)
        (E.now (w.clockReads + 1)))) w.store).1 = none →
      (E.addPendingChange ⟨"create", "recipes", payload⟩
        (E.cacheData "recipes" (.row (recipeWithTempId E payload (E.now w.clockReads)
          (E.now (w.clockReads + 1)))) w.store).2).1 = some e →
      (createRecipe E payload w).1 = .error e) ∧
    (∀ payload d err e, E.isOnline w.store = true →
      (E.respond w.backend (.insert "recipes" payload)).1 = .returned d err →
      d.truthy = true → (E.cacheData "recipes" d.first w.store).1 = some e →
      (createRecipe E payload w).1 = .error e) ∧
    (∀ e, E.isOnline w.store = true → (E.getPendingChanges w.store).1 = .error e →
      (syncPendingChanges E w).1 = .error e) ∧
    (∀ cs e, E.isOnline w.store = true → (E.getPendingChanges w.store).1 = .ok cs →
      cs ≠ [] → (∀ s, (E.removeSyncedChanges s).1 = some e) →
      (syncPendingChanges E w).1 = .error e) ∧
    (∀ userId e, E.isOnline w.store = false →
      (∀ s, (E.getCachedData "recipes" none s).1 = .error e) →
      (getRecipes E userId w).1 = .error e) ∧
    (∀ recipeId e, E.isOnline w.store = false →
      (∀ s, (E.getCachedData "recipes" (some recipeId) s).1 = .error e) →
      (getRecipe E recipeId w).1 = .error e) := by
  refine ⟨?_, ?_, ?_, ?_, ?_, ?_, ?_, ?_, ?_, ?_⟩
  · intro userId d err e all honline hb hd hc hread
    simp [getRecipes, getRecipesTry, recipesFromCache, isOnline, callBackend, cacheData,
      getCachedData, World.emit, honline, hb, hd, hc, hread]
  · intro recipeId d err e cached honline hb hd hc hread
    simp [getRecipe, getRecipeTry, recipeFromCache, isOnline, callBackend, cacheData,
      getCachedData, World.emit, honline, hb, hd, hc, hread]
  · intro c p es req d e hs hreq hb hm
    simp [syncChange, hs, hreq, callBackend, hb, markChangeAsSynced, hm]
  · intro payload e hoff hc
    simp [createRecipe, isOnline, dateNow, cacheData, World.emit, hoff, hc]
  · intro payload e hoff hc ha
    simp [createRecipe, isOnline, dateNow, cacheData, addPendingChange, World.emit, hoff,
      hc, ha]
  · intro payload d err e honline hb hd hc
    simp [createRecipe, isOnline, callBackend, cacheData, World.emit, honline, hb, hd, hc]
  · intro e honline hload
    simp [syncPendingChanges, isOnline, getPendingChanges, World.emit, honline, hload]
  · intro cs e honline hload hne hpurge
    have hlen : ¬ cs.length = 0 := fun h => hne (List.length_eq_zero.mp h)
    have hp1 := hpurge (syncLoop E cs (getPendingChanges E (isOnline E w).2).2 0 []).1.store
    simp only [syncPendingChanges, isOnline, getPendingChanges, removeSyncedChanges,
      World.emit, honline, hload, hlen, if_false] at hp1 ⊢
    generalize syncLoop E cs _ 0 [] = L at hp1 ⊢
    simp [hp1]
  · intro userId e hoff hread
    simp [getRecipes, getRecipesTry, recipesFromCache, isOnline, getCachedData, World.emit,
      hoff, hread]
  · intro recipeId e hoff hread
    simp [getRecipe, getRecipeTry, recipeFromCache, isOnline, getCachedData, World.emit,
      hoff, hread]

/-- Witness of C15 as amended: with a cache that cannot be written, the online
read falls back to the cached recipes; with storage that throws throughout, the
offline create and the pass end in the storage exception. -/
theorem storage_failures_witness :
    (getRecipes cacheFullEnv (.str "u1") onlineCached).1
      = .ok ⟨some (.rows [stale]), none, some true⟩ ∧
    (createRecipe (brokenStoreEnv false) soup blank).1 = .error storageError ∧
    (syncPendingChanges (brokenStoreEnv true) blank).1 = .error storageError ∧
    (getRecipes (brokenStoreEnv false) (.str "u1") blank).1 = .error storageError :=
  ⟨(storage_failures cacheFullEnv onlineCached).1 (.str "u1") (.rows [stew]) none
      storageError [stale] rfl rfl rfl rfl rfl,
    (storage_failures (brokenStoreEnv false) blank).2.2.2.1 soup storageError rfl rfl,
    (storage_failures (brokenStoreEnv true) blank).2.2.2.2.2.2.1 storageError rfl rfl,
    (storage_failures (brokenStoreEnv false) blank).2.2.2.2.2.2.2.2.1 (.str "u1")
      storageError rfl (fun _ => rfl)⟩

/-! ## Online creation -/

/-- C16. `createRecipe(payload)` called while online sends exactly one query,
the insert of the payload into `recipes`.  When the backend returns rows (and
the cache write does not throw) its only cache write is
`cacheData('recipes', row)` with the first returned row, and it returns the
backend's `{data, error}`.  When the backend returns an error without data it
returns that `{data, error}`, writes nothing to the cache and leaves the local
store as it was.  In both cases nothing is appended to the Pending Change
Log. -/
theorem createRecipe_online (E : Env σ β) (payload : Obj) (w : World σ β)
    (honline : E.isOnline w.store = true) :
    (∀ row rest err,
      (E.respond w.backend (.insert "recipes" payload)).1 = .returned (.rows (row :: rest)) err →
      (E.cacheData "recipes" (.row row) w.store).1 = none →
      (createRecipe E payload w).1 = .ok ⟨some (.rows (row :: rest)), err, none⟩ ∧
      backendRequests (eventsSince w (createRecipe E payload w).2)
        = [.insert "recipes" payload] ∧
      cacheWrites (eventsSince w (createRecipe E payload w).2) = [("recipes", .row row)] ∧
      pendingAppends (eventsSince w (createRecipe E payload w).2) = []) ∧
    (∀ d e,
      (E.respond w.backend (.insert "recipes" payload)).1 = .returned d (some e) →
      d.truthy = false →
      (createRecipe E payload w).1 = .ok ⟨some d, some e, none⟩ ∧
      backendRequests (eventsSince w (createRecipe E payload w).2)
        = [.insert "recipes" payload] ∧
      cacheWrites (eventsSince w (createRecipe E payload w).2) = [] ∧
      pendingAppends (eventsSince w (createRecipe E payload w).2) = [] ∧
      (createRecipe E payload w).2.store = w.store) := by
  refine ⟨?_, ?_⟩
  · intro row rest err hb hc
    simp [createRecipe, isOnline, callBackend, cacheData, World.emit, honline, hb, hc,
      Data.truthy, Data.first, eventsSince, backendRequests, cacheWrites, pendingAppends]
  · intro d e hb hd
    simp [createRecipe, isOnline, callBackend, World.emit, honline, hb, hd,
      eventsSince, backendRequests, cacheWrites, pendingAppends]

/-- Witness of C16: the flaky backend accepts its first call (returning a row
with identity "42", which is then found in the cache) and rejects its
second. -/
theorem createRecipe_online_witness :
    flakyEnv.isOnline twoPending.store = true ∧
    ((createRecipe flakyEnv soup twoPending).1
        = .ok ⟨some (.rows [[("id", .str "42")]]), none, none⟩ ∧
      backendRequests (eventsSince twoPending (createRecipe flakyEnv soup twoPending).2)
        = [.insert "recipes" soup] ∧
      cacheWrites (eventsSince twoPending (createRecipe flakyEnv soup twoPending).2)
        = [("recipes", .row [("id", .str "42")])] ∧
      pendingAppends (eventsSince twoPending (createRecipe flakyEnv soup twoPending).2)
        = []) ∧
    getById "recipes" (.str "42") (createRecipe flakyEnv soup twoPending).2.store.cache
      = .row [("id", .str "42")] ∧
    ((createRecipe flakyEnv soup (createRecipe flakyEnv soup twoPending).2).1
        = .ok ⟨some (.val .null), some rejected, none⟩ ∧
      backendRequests (eventsSince (createRecipe flakyEnv soup twoPending).2
          (createRecipe flakyEnv soup (createRecipe flakyEnv soup twoPending).2).2)
        = [.insert "recipes" soup] ∧
      cacheWrites (eventsSince (createRecipe flakyEnv soup twoPending).2
          (createRecipe flakyEnv soup (createRecipe flakyEnv soup twoPending).2).2) = [] ∧
      pendingAppends (eventsSince (createRecipe flakyEnv soup twoPending).2
          (createRecipe flakyEnv soup (createRecipe flakyEnv soup twoPending).2).2) = [] ∧
      (createRecipe flakyEnv soup (createRecipe flakyEnv soup twoPending).2).2.store
        = (createRecipe flakyEnv soup twoPending).2.store) :=
  ⟨rfl,
    (createRecipe_online flakyEnv soup twoPending rfl).1 [("id", .str "42")] [] none rfl rfl,
    by decide,
    (createRecipe_online flakyEnv soup (createRecipe flakyEnv soup twoPending).2 rfl).2
      (.val .null) rejected rfl rfl⟩

/-! ## Offline reads -/

/-- C17. `getRecipes(userId)` called while offline, the cache read answering
the array `all`, resolves to `{data, error: null, isOffline: true}` where
`data` is `all` filtered by `recipe.user_id === userId`, in the order of `all`;
its only calls are `isOnline()` and the one cache read, so it sends no query to
the backend and writes nothing to the cache. -/
theorem getRecipes_offline (E : Env σ β) (userId : Val) (w : World σ β) (all : List Obj)
    (hoff : E.isOnline w.store = false)
    (hread : (E.getCachedData "recipes" none w.store).1 = .ok (.rows all)) :
    (getRecipes E userId w).1 =
        .ok ⟨some (.rows (all.filter (fun recipe => fieldOf recipe "user_id" = userId))),
          none, some true⟩ ∧
      eventsSince w (getRecipes E userId w).2 =
        [.isOnline false, .getCachedData "recipes" none none] ∧
      backendRequests (eventsSince w (getRecipes E userId w).2) = [] ∧
      cacheWrites (eventsSince w (getRecipes E userId w).2) = [] ∧
      (getRecipes E userId w).2.backend = w.backend := by
  have hev : eventsSince w (getRecipes E userId w).2 =
      [.isOnline false, .getCachedData "recipes" none none] := by
    simp [getRecipes, getRecipesTry, recipesFromCache, isOnline, getCachedData, World.emit,
      hoff, hread, eventsSince, failureOf]
  refine ⟨?_, hev, ?_, ?_, ?_⟩
  · simp [getRecipes, getRecipesTry, recipesFromCache, isOnline, getCachedData, World.emit,
      hoff, hread]
  · rw [hev]; rfl
  · rw [hev]; rfl
  · simp [getRecipes, getRecipesTry, recipesFromCache, isOnline, getCachedData, World.emit,
      hoff, hread]

/-- Witness of C17: the cache holds two recipes of user u1 and one of user u2;
the offline read for u1 returns the two, in cache order. -/
theorem getRecipes_offline_witness :
    (storeEnv servingBackend sampleClock sampleISO).isOnline offlineCached.store = false ∧
    ((getRecipes (storeEnv servingBackend sampleClock sampleISO) (.str "u1")
          offlineCached).1 = .ok ⟨some (.rows [stale, stew]), none, some true⟩ ∧
      eventsSince offlineCached (getRecipes (storeEnv servingBackend sampleClock sampleISO)
          (.str "u1") offlineCached).2 =
        [.isOnline false, .getCachedData "recipes" none none] ∧
      backendRequests (eventsSince offlineCached
        (getRecipes (storeEnv servingBackend sampleClock sampleISO) (.str "u1")
          offlineCached).2) = [] ∧
      cacheWrites (eventsSince offlineCached
        (getRecipes (storeEnv servingBackend sampleClock sampleISO) (.str "u1")
          offlineCached).2) = [] ∧
      (getRecipes (storeEnv servingBackend sampleClock sampleISO) (.str "u1")
          offlineCached).2.backend = offlineCached.backend) :=
  ⟨rfl,
    getRecipes_offline (storeEnv servingBackend sampleClock sampleISO) (.str "u1")
      offlineCached
      [stale, [("id", .str "8"), ("user_id", .str "u2")], stew] rfl rfl⟩

/-- C18. `getRecipe(recipeId)` called while offline, the cache read answering
with the value `notFound` it gives for a record that is not cached, does not
throw: it resolves to `{data: notFound, error: null, isOffline: true}`, after
one cache read and no query to the backend. -/
theorem getRecipe_offline_miss (E : Env σ β) (recipeId : Val) (w : World σ β)
    (notFound : Data)
    (hoff : E.isOnline w.store = false)
    (hread : (E.getCachedData "recipes" (some recipeId) w.store).1 = .ok notFound) :
    (getRecipe E recipeId w).1 = .ok ⟨some notFound, none, some true⟩ ∧
      eventsSince w (getRecipe E recipeId w).2 =
        [.isOnline false, .getCachedData "recipes" (some recipeId) none] ∧
      backendRequests (eventsSince w (getRecipe E recipeId w).2) = [] := by
  have hev : eventsSince w (getRecipe E recipeId w).2 =
      [.isOnline false, .getCachedData "recipes" (some recipeId) none] := by
    simp [getRecipe, getRecipeTry, recipeFromCache, isOnline, getCachedData, World.emit,
      hoff, hread, eventsSince, failureOf]
  refine ⟨?_, hev, ?_⟩
  · simp [getRecipe, getRecipeTry, recipeFromCache, isOnline, getCachedData, World.emit,
      hoff, hread]
  · rw [hev]; rfl

/-- Witness of C18: on the specified local store no recipe with identity "99"
is cached, the cache read answers `undefined`, and so does `getRecipe`. -/
theorem getRecipe_offline_miss_witness :
    (storeEnv servingBackend sampleClock sampleISO).isOnline offlineCached.store = false ∧
    (∀ p ∈ offlineCached.store.cache, hasIdentity "recipes" (.str "99") p = false) ∧
    ((storeEnv servingBackend sampleClock sampleISO).getCachedData "recipes"
        (some (.str "99")) offlineCached.store).1 = .ok (.val .undefined) ∧
    ((getRecipe (storeEnv servingBackend sampleClock sampleISO) (.str "99")
          offlineCached).1 = .ok ⟨some (.val .undefined), none, some true⟩ ∧
      eventsSince offlineCached (getRecipe (storeEnv servingBackend sampleClock sampleISO)
          (.str "99") offlineCached).2 =
        [.isOnline false, .getCachedData "recipes" (some (.str "99")) none] ∧
      backendRequests (eventsSince offlineCached
        (getRecipe (storeEnv servingBackend sampleClock sampleISO) (.str "99")
          offlineCached).2) = []) :=
  ⟨rfl, by decide, rfl,
    getRecipe_offline_miss (storeEnv servingBackend sampleClock sampleISO) (.str "99")
      offlineCached (.val .undefined) rfl rfl⟩

/-! ## The specified local store -/

/-- C19. On the Local Cache Store as the specification describes it, for every
entity type and every record `R`: after `cacheData(type, R)`, the read
`getCachedData(type, R.id)` returns `R` unchanged; no other record of that
type with the identity of `R` is left in the cache, and the records with
another identity or type are exactly those that were there before. -/
theorem cache_write_then_read (respond : β → Request → Response × β) (now : Nat → Nat)
    (iso : Nat → String) (ty : String) (R : Obj) (s : LocalStore) :
    ((storeEnv respond now iso).getCachedData ty (some (fieldOf R "id"))
        ((storeEnv respond now iso).cacheData ty (.row R) s).2).1 = .ok (.row R) ∧
      ((storeEnv respond now iso).cacheData ty (.row R) s).1 = none ∧
      (∀ p ∈ ((storeEnv respond now iso).cacheData ty (.row R) s).2.cache,
        hasIdentity ty (fieldOf R "id") p = true → p = (ty, R)) ∧
      (∀ p, hasIdentity ty (fieldOf R "id") p = false →
        (p ∈ ((storeEnv respond now iso).cacheData ty (.row R) s).2.cache ↔ p ∈ s.cache)) := by
  refine ⟨?_, rfl, ?_, ?_⟩
  · simp only [storeEnv, putData]
    rw [getById_putRecord]
  · intro p hp hid
    simp only [storeEnv, putData] at hp
    rcases (mem_putRecord ty R s.cache p).mp hp with h | ⟨_, h⟩
    · exact h
    · rw [h] at hid; cases hid
  · intro p hid
    simp only [storeEnv, putData]
    rw [mem_putRecord]
    constructor
    · rintro (h | ⟨h, _⟩)
      · rw [h] at hid
        simp [hasIdentity] at hid
      · exact h
    · intro h
      exact Or.inr ⟨h, hid⟩

theorem log_appendAll (respond : β → Request → Response × β) (now : Nat → Nat)
    (iso : Nat → String) (inputs : List ChangeInput) :
    ∀ s : LocalStore,
      (appendAll (storeEnv respond now iso) inputs s).log
        = s.log ++ appendedEntries s.nextSeq inputs := by
  induction inputs with
  | nil => intro s; simp [appendAll, appendedEntries]
  | cons c cs ih =>
    intro s
    have h := ih (appendChange c s)
    simp only [appendAll, List.foldl_cons, storeEnv] at h ⊢
    rw [h]
    simp [appendChange, appendedEntries]

theorem listUnsynced_appendedEntries (inputs : List ChangeInput) :
    ∀ n, listUnsynced (appendedEntries n inputs) = appendedEntries n inputs := by
  induction inputs with
  | nil => intro n; rfl
  | cons c cs ih =>
    intro n
    have h := ih (n + 1)
    simp only [listUnsynced] at h
    simp [listUnsynced, appendedEntries, h]

/-- C20. On the Pending Change Log as the specification describes it: after
any sequence of `addPendingChange` calls, `getPendingChanges` returns the
entries that were unsynced before followed by the appended entries in append
order, numbered consecutively; and `removeSyncedChanges` deletes no entry whose
`synced` flag is false: the unsynced entries and their order are the same
before and after the purge. -/
theorem log_order_and_purge (respond : β → Request → Response × β) (now : Nat → Nat)
    (iso : Nat → String) (inputs : List ChangeInput) (s : LocalStore) :
    ((storeEnv respond now iso).getPendingChanges
        (appendAll (storeEnv respond now iso) inputs s)).1
      = .ok (listUnsynced s.log ++ appendedEntries s.nextSeq inputs) ∧
    (∀ c ∈ s.log, c.synced = false →
      c ∈ ((storeEnv respond now iso).removeSyncedChanges s).2.log) ∧
    listUnsynced ((storeEnv respond now iso).removeSyncedChanges s).2.log
      = listUnsynced s.log ∧
    (∀ c ∈ ((storeEnv respond now iso).removeSyncedChanges s).2.log,
      c ∈ s.log ∧ c.synced = false) := by
  refine ⟨?_, ?_, ?_, ?_⟩
  · have h := log_appendAll respond now iso inputs s
    simp only [storeEnv] at h ⊢
    rw [h]
    have h2 := listUnsynced_appendedEntries inputs s.nextSeq
    simp only [listUnsynced] at h2 ⊢
    rw [List.filter_append, h2]
  · intro c hc hs
    simp only [storeEnv, purgeSynced]
    exact List.mem_filter.mpr ⟨hc, by simp [hs]⟩
  · simp [storeEnv, purgeSynced, listUnsynced, List.filter_filter]
  · intro c hc
    simp only [storeEnv, purgeSynced] at hc
    have h := List.mem_filter.mp hc
    exact ⟨h.1, by simpa using h.2⟩

/-! ## Reconciliation: entries of an unknown type -/

/-- C25. For every pending entry not flagged synced whose type is none of
create, update and delete, the iteration of the loop of `syncPendingChanges`
makes no call at all (no backend query, no `markChangeAsSynced`), leaves the
world and `processed` as they are and adds exactly one pair, the entry with
the `TypeError` of reading the missing result, to `errors`; the loop then
goes on with the later entries. -/
theorem syncPendingChanges_unknown_type (E : Env σ β) (w : World σ β) (c : Change)
    (rest : List Change) (p : Nat) (es : List (Change × Err))
    (hs : c.synced = false)
    (h1 : c.type ≠ "create") (h2 : c.type ≠ "update") (h3 : c.type ≠ "delete") :
    syncChange E c w p es = (w, p, es ++ [(c, typeErrorUndefined)]) ∧
      eventsSince w (syncChange E c w p es).1 = [] ∧
      syncLoop E (c :: rest) w p es = syncLoop E rest w p (es ++ [(c, typeErrorUndefined)]) := by
  have hreq : requestOf c = none := by simp [requestOf, h1, h2, h3]
  have hstep : syncChange E c w p es = (w, p, es ++ [(c, typeErrorUndefined)]) := by
    simp [syncChange, hs, hreq]
  refine ⟨hstep, ?_, ?_⟩
  · rw [hstep]; simp [eventsSince]
  · rw [syncLoop, hstep]

/-- Witness of C25: an entry of type upsert between two creates; the two
creates are dispatched, the upsert entry is reported and stays in the log. -/
theorem syncPendingChanges_unknown_type_witness :
    (syncChange flakyEnv ⟨.num 1, "upsert", "recipes", soup, false⟩ oddKind 0 []
        = (oddKind, 0, [] ++ [(⟨.num 1, "upsert", "recipes", soup, false⟩,
            typeErrorUndefined)]) ∧
      eventsSince oddKind
        (syncChange flakyEnv ⟨.num 1, "upsert", "recipes", soup, false⟩ oddKind 0 []).1 = [] ∧
      syncLoop flakyEnv [⟨.num 1, "upsert", "recipes", soup, false⟩,
          ⟨.num 2, "create", "recipes", stew, false⟩] oddKind 0 []
        = syncLoop flakyEnv [⟨.num 2, "create", "recipes", stew, false⟩] oddKind 0
            ([] ++ [(⟨.num 1, "upsert", "recipes", soup, false⟩, typeErrorUndefined)])) ∧
    backendRequests (eventsSince oddKind (syncPendingChanges flakyEnv oddKind).2)
      = [.insert "recipes" soup, .insert "recipes" stew] ∧
    (syncPendingChanges flakyEnv oddKind).1 =
      .ok ⟨false, some 1,
        .list [(⟨.num 1, "upsert", "recipes", soup, false⟩, typeErrorUndefined),
          (⟨.num 2, "create", "recipes", stew, false⟩, rejected)]⟩ :=
  ⟨syncPendingChanges_unknown_type flakyEnv oddKind
      ⟨.num 1, "upsert", "recipes", soup, false⟩
      [⟨.num 2, "create", "recipes", stew, false⟩] 0 [] rfl (by decide) (by decide)
      (by decide),
    by decide, by decide⟩

/-! ## Reconciliation: a failing `markChangeAsSynced` -/

theorem syncChange_errors_mono (E : Env σ β) (c : Change) (w : World σ β) (p : Nat)
    (es : List (Change × Err)) (x : Change × Err) (hx : x ∈ es) :
    x ∈ (syncChange E c w p es).2.2 := by
  unfold syncChange
  by_cases hs : c.synced = true
  · simp [hs, hx]
  · cases hr : requestOf c with
    | none => simp [hs, hx]
    | some req =>
      cases hb : (E.respond w.backend req).1 with
      | threw e => simp [hs, callBackend, hb, hx]
      | returned d err =>
        cases err with
        | some e => simp [hs, callBackend, hb, hx]
        | none =>
          cases hm : (E.markChangeAsSynced c.id w.store).1 <;>
            simp [hs, callBackend, hb, markChangeAsSynced, hm, hx]

theorem syncLoop_errors_mono (E : Env σ β) (cs : List Change) :
    ∀ (w : World σ β) (p : Nat) (es : List (Change × Err)) (x : Change × Err),
      x ∈ es → x ∈ (syncLoop E cs w p es).2.2 := by
  induction cs with
  | nil => intro w p es x hx; simpa [syncLoop] using hx
  | cons c cs ih =>
    intro w p es x hx
    rw [syncLoop]
    exact ih _ _ _ x (syncChange_errors_mono E c w p es x hx)

/-- One iteration of the loop on the store with a failing `markChangeAsSynced`,
for an entry the backend accepts and whose mark throws. -/
theorem syncChange_mark_throws (fails : Val → Bool) (e : Err)
    (respond : β → Request → Response × β) (now : Nat → Nat) (iso : Nat → String)
    (c : Change) (req : Request) (w : World LocalStore β) (p : Nat)
    (es : List (Change × Err))
    (hs : c.synced = false) (hreq : requestOf c = some req)
    (hfails : fails c.id = true)
    (haccept : (respond w.backend req).1.failure = none) :
    (syncChange (flakyMarkEnv fails e respond now iso) c w p es).2 = (p, es ++ [(c, e)]) ∧
      (syncChange (flakyMarkEnv fails e respond now iso) c w p es).1.store = w.store := by
  cases hb : (respond w.backend req).1 with
  | threw e' => rw [hb] at haccept; simp [Response.failure] at haccept
  | returned d err =>
    cases err with
    | some e' => rw [hb] at haccept; simp [Response.failure] at haccept
    | none =>
      simp [syncChange, hs, hreq, callBackend, markChangeAsSynced, flakyMarkEnv, storeEnv,
        hb, hfails]

/-- One iteration of the loop on the store with a failing `markChangeAsSynced`
keeps the connectivity flag and every log entry whose mark would throw. -/
theorem syncChange_keeps_unmarkable (fails : Val → Bool) (e : Err)
    (respond : β → Request → Response × β) (now : Nat → Nat) (iso : Nat → String)
    (c : Change) (w : World LocalStore β) (p : Nat) (es : List (Change × Err)) :
    (syncChange (flakyMarkEnv fails e respond now iso) c w p es).1.store.online
        = w.store.online ∧
      ∀ x ∈ w.store.log, fails x.id = true →
        x ∈ (syncChange (flakyMarkEnv fails e respond now iso) c w p es).1.store.log := by
  unfold syncChange
  by_cases hs : c.synced = true
  · simp only [hs, if_true]
    exact ⟨trivial, fun x hx _ => hx⟩
  · cases hr : requestOf c with
    | none =>
      simp only [hs]
      exact ⟨rfl, fun x hx _ => hx⟩
    | some req =>
      cases hb : (respond w.backend req).1 with
      | threw e' =>
        simp only [hs, callBackend, flakyMarkEnv, storeEnv, hb]
        exact ⟨rfl, fun x hx _ => hx⟩
      | returned d err =>
        cases err with
        | some e' =>
          simp only [hs, callBackend, flakyMarkEnv, storeEnv, hb]
          exact ⟨rfl, fun x hx _ => hx⟩
        | none =>
          by_cases hf : fails c.id = true
          · simp only [hs, callBackend, markChangeAsSynced, flakyMarkEnv, storeEnv, hb, hf]
            exact ⟨rfl, fun x hx _ => hx⟩
          · simp only [hs, callBackend, markChangeAsSynced, flakyMarkEnv, storeEnv, hb, hf]
            refine ⟨by simp, ?_⟩
            intro x hx hfx
            have hne : x.id ≠ c.id := fun h => hf (h ▸ hfx)
            simp only [Bool.false_eq_true, if_false, markSynced]
            exact List.mem_map.mpr ⟨x, hx, by simp [hne]⟩

theorem syncLoop_keeps_unmarkable (fails : Val → Bool) (e : Err)
    (respond : β → Request → Response × β) (now : Nat → Nat) (iso : Nat → String)
    (cs : List Change) :
    ∀ (w : World LocalStore β) (p : Nat) (es : List (Change × Err)),
      (syncLoop (flakyMarkEnv fails e respond now iso) cs w p es).1.store.online
          = w.store.online ∧
        ∀ x ∈ w.store.log, fails x.id = true →
          x ∈ (syncLoop (flakyMarkEnv fails e respond now iso) cs w p es).1.store.log := by
  induction cs with
  | nil => intro w p es; exact ⟨rfl, fun x hx _ => hx⟩
  | cons c cs ih =>
    intro w p es
    obtain ⟨h1, h2⟩ := syncChange_keeps_unmarkable fails e respond now iso c w p es
    obtain ⟨h3, h4⟩ := ih (syncChange (flakyMarkEnv fails e respond now iso) c w p es).1
      (syncChange (flakyMarkEnv fails e respond now iso) c w p es).2.1
      (syncChange (flakyMarkEnv fails e respond now iso) c w p es).2.2
    rw [syncLoop]
    exact ⟨h3.trans h1, fun x hx hfx => h4 x (h2 x hx hfx) hfx⟩

theorem syncLoop_reports_mark_failure (fails : Val → Bool) (e : Err)
    (respond : β → Request → Response × β) (now : Nat → Nat) (iso : Nat → String)
    (c : Change) (req : Request)
    (hreq : requestOf c = some req) (hfails : fails c.id = true)
    (haccept : ∀ b, (respond b req).1.failure = none) (cs : List Change) :
    ∀ (w : World LocalStore β) (p : Nat) (es : List (Change × Err)),
      c ∈ unsynced cs →
      (c, e) ∈ (syncLoop (flakyMarkEnv fails e respond now iso) cs w p es).2.2 := by
  induction cs with
  | nil => intro w p es hc; simp [unsynced] at hc
  | cons x cs ih =>
    intro w p es hc
    rw [syncLoop]
    by_cases hx : x = c
    · subst hx
      have hs : x.synced = false := by
        have := (List.mem_filter.mp hc).2
        simpa using this
      have hstep := (syncChange_mark_throws fails e respond now iso x req w p es hs hreq
        hfails (haccept w.backend)).1
      apply syncLoop_errors_mono
      have h2 : (syncChange (flakyMarkEnv fails e respond now iso) x w p es).2.2
          = es ++ [(x, e)] := by rw [hstep]
      rw [h2]
      simp
    · have hc' : c ∈ unsynced cs := by
        have h := List.mem_filter.mp hc
        rcases List.mem_cons.mp h.1 with h1 | h1
        · exact absurd h1.symm hx
        · exact List.mem_filter.mpr ⟨h1, h.2⟩
      exact ih _ _ _ hc'

/-- The local store after an online pass that loads the non-empty list `cs`:
what the purge leaves of the store the loop ended with. -/
theorem pass_store (E : Env σ β) (w : World σ β) (cs : List Change)
    (honline : E.isOnline w.store = true)
    (hload : (E.getPendingChanges w.store).1 = .ok cs)
    (hlen : ¬ cs.length = 0) :
    (syncPendingChanges E w).2.store =
      (E.removeSyncedChanges
        (syncLoop E cs (getPendingChanges E (isOnline E w).2).2 0 []).1.store).2 := by
  simp only [syncPendingChanges, isOnline, getPendingChanges, removeSyncedChanges, World.emit,
    honline, hload, hlen, if_false]
  generalize syncLoop E cs _ 0 [] = L
  cases hp : (E.removeSyncedChanges L.1.store).1 <;> simp [hp]

/-- C26. On the local store whose `markChangeAsSynced` throws `e` for the entry
`c` (and leaves the log as it is), when the backend accepts the query of `c`:
the iteration for `c` adds the pair of `c` and `e` to `errors` and leaves
`processed` as it is; the pass, which did send the query of `c`, reports
`success = false` with `c` among its errors; `c` is still in the log, unsynced,
after the pass; and the next pass sends the query of `c` to the backend
again. -/
theorem mark_failure_is_retried (fails : Val → Bool) (e : Err)
    (respond : β → Request → Response × β) (now : Nat → Nat) (iso : Nat → String)
    (w : World LocalStore β) (c : Change) (req : Request)
    (honline : w.store.online = true)
    (hc : c ∈ listUnsynced w.store.log)
    (hreq : requestOf c = some req)
    (hfails : fails c.id = true)
    (haccept : ∀ b, (respond b req).1.failure = none) :
    (∀ (w' : World LocalStore β) (p : Nat) (es : List (Change × Err)),
      (syncChange (flakyMarkEnv fails e respond now iso) c w' p es).2
        = (p, es ++ [(c, e)])) ∧
    req ∈ backendRequests (eventsSince w
      (syncPendingChanges (flakyMarkEnv fails e respond now iso) w).2) ∧
    (∃ res es, (syncPendingChanges (flakyMarkEnv fails e respond now iso) w).1 = .ok res ∧
      res.success = false ∧ res.errors = .list es ∧ (c, e) ∈ es) ∧
    c ∈ listUnsynced (syncPendingChanges (flakyMarkEnv fails e respond now iso) w).2.store.log ∧
    req ∈ backendRequests
      (eventsSince (syncPendingChanges (flakyMarkEnv fails e respond now iso) w).2
        (syncPendingChanges (flakyMarkEnv fails e respond now iso)
          (syncPendingChanges (flakyMarkEnv fails e respond now iso) w).2).2) := by
  have hmem := List.mem_filter.mp hc
  have hs : c.synced = false := by simpa using hmem.2
  have hne : ¬ (listUnsynced w.store.log).length = 0 := by
    intro h
    rw [List.length_eq_zero.mp h] at hc
    cases hc
  have hcu : c ∈ unsynced (listUnsynced w.store.log) :=
    List.mem_filter.mpr ⟨hc, by simp [hs]⟩
  have hload : ((flakyMarkEnv fails e respond now iso).getPendingChanges w.store).1
      = .ok (listUnsynced w.store.log) := rfl
  have hloop := syncLoop_keeps_unmarkable fails e respond now iso (listUnsynced w.store.log)
    (getPendingChanges (flakyMarkEnv fails e respond now iso)
      (isOnline (flakyMarkEnv fails e respond now iso) w).2).2 0 []
  have hstore := pass_store (flakyMarkEnv fails e respond now iso) w
    (listUnsynced w.store.log) honline hload hne
  have hin : c ∈ listUnsynced
      (syncPendingChanges (flakyMarkEnv fails e respond now iso) w).2.store.log := by
    rw [hstore]
    have h1 := hloop.2 c hmem.1 hfails
    exact List.mem_filter.mpr ⟨List.mem_filter.mpr ⟨h1, by simp [hs]⟩, by simp [hs]⟩
  have hon : (syncPendingChanges (flakyMarkEnv fails e respond now iso) w).2.store.online
      = true := by
    rw [hstore]
    exact hloop.1.trans honline
  refine ⟨?_, ?_, ?_, hin, ?_⟩
  · intro w' p es
    exact (syncChange_mark_throws fails e respond now iso c req w' p es hs hreq hfails
      (haccept w'.backend)).1
  · rw [pass_requests (flakyMarkEnv fails e respond now iso) w (listUnsynced w.store.log)
      honline hload]
    exact List.mem_filterMap.mpr ⟨c, hcu, hreq⟩
  · have hres := pass_result (flakyMarkEnv fails e respond now iso) w
      (listUnsynced w.store.log) honline hload hne (fun _ => rfl)
    have herr := syncLoop_reports_mark_failure fails e respond now iso c req hreq hfails
      haccept (listUnsynced w.store.log)
      (getPendingChanges (flakyMarkEnv fails e respond now iso)
        (isOnline (flakyMarkEnv fails e respond now iso) w).2).2 0 [] hcu
    have hpos : 0 < (syncLoop (flakyMarkEnv fails e respond now iso)
        (listUnsynced w.store.log)
        (getPendingChanges (flakyMarkEnv fails e respond now iso)
          (isOnline (flakyMarkEnv fails e respond now iso) w).2).2 0 []).2.2.length :=
      List.length_pos_of_mem herr
    refine ⟨_, _, hres, ?_, ?_, herr⟩
    · simp only [beq_eq_false_iff_ne]
      exact Nat.pos_iff_ne_zero.mp hpos
    · simp only [gt_iff_lt, hpos, if_true]
  · rw [pass_requests (flakyMarkEnv fails e respond now iso) _
      (listUnsynced (syncPendingChanges (flakyMarkEnv fails e respond now iso) w).2.store.log)
      hon rfl]
    exact List.mem_filterMap.mpr ⟨c, List.mem_filter.mpr ⟨hin, by simp [hs]⟩, hreq⟩

/-- Witness of C26: one pending create that the backend accepts while every
`markChangeAsSynced` throws; the second pass sends the same insert again. -/
theorem mark_failure_is_retried_witness :
    onePending.store.online = true ∧
    (⟨.num 0, "create", "recipes", soup, false⟩ : Change) ∈ listUnsynced onePending.store.log ∧
    (syncPendingChanges (flakyMarkEnv (fun _ => true) storageError servingBackend
        sampleClock sampleISO) onePending).1
      = .ok ⟨false, some 0,
          .list [(⟨.num 0, "create", "recipes", soup, false⟩, storageError)]⟩ ∧
    backendRequests (eventsSince
      (syncPendingChanges (flakyMarkEnv (fun _ => true) storageError servingBackend
        sampleClock sampleISO) onePending).2
      (syncPendingChanges (flakyMarkEnv (fun _ => true) storageError servingBackend
        sampleClock sampleISO)
        (syncPendingChanges (flakyMarkEnv (fun _ => true) storageError servingBackend
          sampleClock sampleISO) onePending).2).2) = [.insert "recipes" soup] ∧
    (.insert "recipes" soup) ∈ backendRequests (eventsSince
      (syncPendingChanges (flakyMarkEnv (fun _ => true) storageError servingBackend
        sampleClock sampleISO) onePending).2
      (syncPendingChanges (flakyMarkEnv (fun _ => true) storageError servingBackend
        sampleClock sampleISO)
        (syncPendingChanges (flakyMarkEnv (fun _ => true) storageError servingBackend
          sampleClock sampleISO) onePending).2).2) :=
  ⟨rfl, by decide, by decide, by decide,
    (mark_failure_is_retried (fun _ => true) storageError servingBackend sampleClock
      sampleISO onePending ⟨.num 0, "create", "recipes", soup, false⟩
      (.insert "recipes" soup) rfl (by decide) rfl rfl (fun _ => rfl)).2.2.2.2⟩

/-! ## Temporary identities -/

theorem digitChar_value (k : Nat) (hk : k < 10) : (Nat.digitChar k).toNat - 48 = k := by
  interval_cases k <;> rfl

theorem digitsValue_toDigitsCore (fuel : Nat) :
    ∀ (n : Nat) (ds : List Char), n < fuel →
      digitsValue 0 (Nat.toDigitsCore 10 fuel n ds) = digitsValue n ds := by
  induction fuel with
  | zero => intro n ds h; omega
  | succ fuel ih =>
    intro n ds h
    unfold Nat.toDigitsCore
    by_cases h0 : n / 10 = 0
    · have hn : n < 10 := by omega
      simp only [h0, if_true]
      simp only [digitsValue, List.foldl_cons, Nat.zero_mul, Nat.zero_add]
      rw [digitChar_value _ (Nat.mod_lt _ (by decide)), Nat.mod_eq_of_lt hn]
    · simp only [h0, if_false]
      rw [ih (n / 10) _ (by omega)]
      simp only [digitsValue, List.foldl_cons]
      rw [digitChar_value _ (Nat.mod_lt _ (by decide))]
      congr 1
      omega

theorem digitsValue_repr (n : Nat) : digitsValue 0 (toString n).data = n := by
  have h := digitsValue_toDigitsCore (n + 1) n [] (Nat.lt_succ_self n)
  simpa [digitsValue] using h

theorem tempId_injective (t1 t2 : Nat) (h : tempId t1 = tempId t2) : t1 = t2 := by
  have hd : (tempId t1).data = (tempId t2).data := by rw [h]
  simp only [tempId, String.data_append] at hd
  have hd2 := List.append_cancel_left hd
  rw [← digitsValue_repr t1, ← digitsValue_repr t2, hd2]

/-- C27. The temporary identity of an offline `createRecipe` is `'temp_'`
followed by the clock reading, whatever the payload, and different readings
give different identities.  On the local store as the specification describes
it, two offline creates in a row return records whose identities are equal
exactly when their two clock readings are equal; in that case the cache holds
the second record under that identity and no longer the first, while the log
has gained two create entries, one per payload. -/
theorem temp_identity_from_clock (respond : β → Request → Response × β) (now : Nat → Nat)
    (iso : Nat → String) (w : World LocalStore β) (p1 p2 : Obj)
    (hoff : w.store.online = false) :
    (∀ (payload : Obj) (t t' : Nat),
      fieldOf (recipeWithTempId (storeEnv respond now iso) payload t t') "id"
        = .str (tempId t)) ∧
    (∀ t1 t2 : Nat, tempId t1 = tempId t2 ↔ t1 = t2) ∧
    (createRecipe (storeEnv respond now iso) p1 w).1 =
      .ok ⟨some (.rows [recipeWithTempId (storeEnv respond now iso) p1 (now w.clockReads)
        (now (w.clockReads + 1))]), none, some true⟩ ∧
    (createRecipe (storeEnv respond now iso) p2
        (createRecipe (storeEnv respond now iso) p1 w).2).1 =
      .ok ⟨some (.rows [recipeWithTempId (storeEnv respond now iso) p2
        (now (w.clockReads + 2)) (now (w.clockReads + 3))]), none, some true⟩ ∧
    (fieldOf (recipeWithTempId (storeEnv respond now iso) p1 (now w.clockReads)
          (now (w.clockReads + 1))) "id"
        = fieldOf (recipeWithTempId (storeEnv respond now iso) p2 (now (w.clockReads + 2))
          (now (w.clockReads + 3))) "id"
      ↔ now w.clockReads = now (w.clockReads + 2)) ∧
    (now w.clockReads = now (w.clockReads + 2) →
      getById "recipes" (.str (tempId (now w.clockReads)))
          (createRecipe (storeEnv respond now iso) p2
            (createRecipe (storeEnv respond now iso) p1 w).2).2.store.cache
        = .row (recipeWithTempId (storeEnv respond now iso) p2 (now (w.clockReads + 2))
          (now (w.clockReads + 3))) ∧
      (("recipes", recipeWithTempId (storeEnv respond now iso) p1 (now w.clockReads)
          (now (w.clockReads + 1))) ∈
          (createRecipe (storeEnv respond now iso) p2
            (createRecipe (storeEnv respond now iso) p1 w).2).2.store.cache →
        recipeWithTempId (storeEnv respond now iso) p1 (now w.clockReads)
            (now (w.clockReads + 1))
          = recipeWithTempId (storeEnv respond now iso) p2 (now (w.clockReads + 2))
            (now (w.clockReads + 3)))) ∧
    (createRecipe (storeEnv respond now iso) p2
        (createRecipe (storeEnv respond now iso) p1 w).2).2.store.log =
      w.store.log ++ [⟨.num w.store.nextSeq, "create", "recipes", p1, false⟩,
        ⟨.num (w.store.nextSeq + 1), "create", "recipes", p2, false⟩] := by
  have hrun1 := createRecipe_offline_run (storeEnv respond now iso) p1 w hoff
    (fun _ _ => rfl) (fun _ _ => rfl)
  have hoff1 : (storeEnv respond now iso).isOnline
      (createRecipe (storeEnv respond now iso) p1 w).2.store = false := by
    rw [hrun1]; simpa [storeEnv, appendChange] using hoff
  have hrun2 := createRecipe_offline_run (storeEnv respond now iso) p2
    (createRecipe (storeEnv respond now iso) p1 w).2 hoff1 (fun _ _ => rfl) (fun _ _ => rfl)
  have hclock : (createRecipe (storeEnv respond now iso) p1 w).2.clockReads
      = w.clockReads + 2 := by rw [hrun1]
  have hcache : (createRecipe (storeEnv respond now iso) p2
        (createRecipe (storeEnv respond now iso) p1 w).2).2.store.cache =
      putRecord "recipes" (recipeWithTempId (storeEnv respond now iso) p2
          (now (w.clockReads + 2)) (now (w.clockReads + 3)))
        (putRecord "recipes" (recipeWithTempId (storeEnv respond now iso) p1
          (now w.clockReads) (now (w.clockReads + 1))) w.store.cache) := by
    rw [hrun2, hclock, hrun1]
    simp [storeEnv, appendChange, putData]
  have hid : ∀ t1 t2 : Nat, tempId t1 = tempId t2 ↔ t1 = t2 :=
    fun t1 t2 => ⟨tempId_injective t1 t2, fun h => by rw [h]⟩
  refine ⟨fun payload t t' => recipeWithTempId_id _ payload t t', hid, ?_, ?_, ?_, ?_, ?_⟩
  · rw [hrun1]
    rfl
  · rw [hrun2, hclock]
    rfl
  · rw [recipeWithTempId_id, recipeWithTempId_id]
    constructor
    · intro h
      exact tempId_injective _ _ (Val.str.inj h)
    · intro h
      rw [h]
  · intro hsame
    rw [hcache]
    constructor
    · have h := getById_putRecord "recipes"
        (recipeWithTempId (storeEnv respond now iso) p2 (now (w.clockReads + 2))
          (now (w.clockReads + 3)))
        (putRecord "recipes" (recipeWithTempId (storeEnv respond now iso) p1
          (now w.clockReads) (now (w.clockReads + 1))) w.store.cache)
      have hk : Val.str (tempId (now w.clockReads))
          = Val.str (tempId (now (w.clockReads + 2))) := by rw [hsame]
      rw [recipeWithTempId_id] at h
      rw [hk]
      exact h
    · intro hmem
      rcases (mem_putRecord _ _ _ _).mp hmem with h | ⟨_, h⟩
      · exact (Prod.mk.inj h).2
      · simp [hasIdentity, recipeWithTempId_id, hsame] at h
  · rw [hrun2, hrun1]
    simp [storeEnv, appendChange]

/-- Witness of C27: two offline creates with different payloads while the clock
stands at 1000; both records get the identity temp_1000, the cache holds one
record, the second, and the log holds two create entries. -/
theorem temp_identity_from_clock_witness :
    offlineEmpty.store.online = false ∧
    stuckClock offlineEmpty.clockReads = stuckClock (offlineEmpty.clockReads + 2) ∧
    (createRecipe (storeEnv flakyBackend stuckClock sampleISO) stew
        (createRecipe (storeEnv flakyBackend stuckClock sampleISO) soup
          offlineEmpty).2).2.store.log =
      offlineEmpty.store.log ++
        [⟨.num offlineEmpty.store.nextSeq, "create", "recipes", soup, false⟩,
          ⟨.num (offlineEmpty.store.nextSeq + 1), "create", "recipes", stew, false⟩] ∧
    getAll "recipes" (createRecipe (storeEnv flakyBackend stuckClock sampleISO) stew
        (createRecipe (storeEnv flakyBackend stuckClock sampleISO) soup
          offlineEmpty).2).2.store.cache =
      [[("id", .str "temp_1000"), ("user_id", .str "u1"), ("title", .str "Stew"),
        ("created_at", .str "T1000")]] :=
  ⟨rfl, rfl,
    (temp_identity_from_clock flakyBackend stuckClock sampleISO offlineEmpty soup stew
      rfl).2.2.2.2.2.2,
    by decide⟩

/-! ## Authentication: offline and online -/

/-- C28. For all arguments: while offline, `signUp` and `signIn` return
`{data: null, error}` with a non-null error and `signOut` returns
`{error: null}` (after removing the stored session token), none of them calling
the backend; while online each makes exactly one backend call and hands its
result on: `signUp` and `signIn` the backend's `{data, error}`, `signOut` the
backend's `{error}`, an exception of the backend propagating. -/
theorem auth_offline_online (auth : β → AuthCall → Response × β) (w : AuthWorld β)
    (email password firstName lastName : Val) :
    (w.online = false →
      (∃ err, (signUp auth email password firstName lastName w).1
          = .ok ⟨some (.val .null), some err, none⟩) ∧
      authCalls (signUp auth email password firstName lastName w).2.trace
        = authCalls w.trace ∧
      (∃ err, (signIn auth email password w).1 = .ok ⟨some (.val .null), some err, none⟩) ∧
      authCalls (signIn auth email password w).2.trace = authCalls w.trace ∧
      (signOut auth w).1 = .ok ⟨none, none, none⟩ ∧
      authCalls (signOut auth w).2.trace = authCalls w.trace ∧
      (signOut auth w).2.backend = w.backend) ∧
    (w.online = true →
      ((signUp auth email password firstName lastName w).1 =
        match (auth w.backend (.signUp email password firstName lastName)).1 with
        | .returned data error => .ok ⟨some data, error, none⟩
        | .threw e => .error e) ∧
      authCalls (signUp auth email password firstName lastName w).2.trace
        = authCalls w.trace ++ [.signUp email password firstName lastName] ∧
      ((signIn auth email password w).1 =
        match (auth w.backend (.signInWithPassword email password)).1 with
        | .returned data error => .ok ⟨some data, error, none⟩
        | .threw e => .error e) ∧
      authCalls (signIn auth email password w).2.trace
        = authCalls w.trace ++ [.signInWithPassword email password] ∧
      ((signOut auth w).1 =
        match (auth w.backend .signOut).1 with
        | .returned _ error => .ok ⟨none, error, none⟩
        | .threw e => .error e) ∧
      authCalls (signOut auth w).2.trace = authCalls w.trace ++ [.signOut] ∧
      (signOut auth w).2.localStorage = w.localStorage) := by
  have happ : ∀ xs ys : List AuthEvent, authCalls (xs ++ ys) = authCalls xs ++ authCalls ys := by
    intro xs ys
    induction xs with
    | nil => simp [authCalls]
    | cons x xs ih => cases x <;> simp [authCalls, ih]
  constructor
  · intro hoff
    refine ⟨⟨⟨"Cannot sign up while offline"⟩, by simp [signUp, hoff]⟩, ?_,
      ⟨⟨"Cannot sign in while offline"⟩, by simp [signIn, hoff]⟩, ?_, ?_, ?_, ?_⟩
    · simp [signUp, hoff, happ, authCalls]
    · simp [signIn, hoff, happ, authCalls]
    · simp [signOut, hoff]
    · simp [signOut, hoff, happ, authCalls]
    · simp [signOut, hoff]
  · intro hon
    refine ⟨?_, ?_, ?_, ?_, ?_, ?_, ?_⟩
    · unfold signUp callAuth
      cases (auth w.backend (.signUp email password firstName lastName)).1 <;> simp [hon]
    · unfold signUp callAuth
      cases (auth w.backend (.signUp email password firstName lastName)).1 <;>
        simp [hon, happ, authCalls]
    · unfold signIn callAuth
      cases (auth w.backend (.signInWithPassword email password)).1 <;> simp [hon]
    · unfold signIn callAuth
      cases (auth w.backend (.signInWithPassword email password)).1 <;>
        simp [hon, happ, authCalls]
    · unfold signOut callAuth
      cases (auth w.backend .signOut).1 <;> simp [hon]
    · unfold signOut callAuth
      cases (auth w.backend .signOut).1 <;> simp [hon, happ, authCalls]
    · unfold signOut callAuth
      cases (auth w.backend .signOut).1 <;> simp [hon]

/-- Witness of C28: the three functions on an offline page and `signIn` on an
online page. -/
theorem auth_offline_online_witness :
    (signUp sampleAuth (.str "a@b.c") (.str "pw") (.str "Ann") (.str "Lee") offlinePage).1
      = .ok ⟨some (.val .null), some ⟨"Cannot sign up while offline"⟩, none⟩ ∧
    (signOut sampleAuth offlinePage).1 = .ok ⟨none, none, none⟩ ∧
    (signOut sampleAuth offlinePage).2.localStorage = [("theme", "dark")] ∧
    authCalls (signOut sampleAuth offlinePage).2.trace = authCalls offlinePage.trace ∧
    (signIn sampleAuth (.str "a@b.c") (.str "pw") onlinePage).1
      = .ok ⟨some (.row [("user", .str "u1")]), none, none⟩ ∧
    authCalls (signIn sampleAuth (.str "a@b.c") (.str "pw") onlinePage).2.trace
      = authCalls onlinePage.trace ++ [.signInWithPassword (.str "a@b.c") (.str "pw")] :=
  ⟨by decide,
    ((auth_offline_online sampleAuth offlinePage (.str "a@b.c") (.str "pw") (.str "Ann")
      (.str "Lee")).1 rfl).2.2.2.2.1,
    by decide,
    ((auth_offline_online sampleAuth offlinePage (.str "a@b.c") (.str "pw") (.str "Ann")
      (.str "Lee")).1 rfl).2.2.2.2.2.1,
    ((auth_offline_online sampleAuth onlinePage (.str "a@b.c") (.str "pw") (.str "Ann")
      (.str "Lee")).2 rfl).2.2.1,
    ((auth_offline_online sampleAuth onlinePage (.str "a@b.c") (.str "pw") (.str "Ann")
      (.str "Lee")).2 rfl).2.2.2.1⟩

end MealPlanner

namespace AnalyticsHub

/-! ## Search -/

theorem foldl_pushRecommendation (lower : JsString → JsString) (nq : JsString)
    (l : List Recommendation) :
    ∀ init : List SearchResult,
      l.foldl (pushRecommendation lower nq) init =
        init ++ (l.filter (fun r => includes (lower r.title) nq ||
            includes (lower r.description) nq || includes (lower r.category) nq)).map
          (fun r => ⟨js "recommendation", r.id, r.title, r.category⟩) := by
  induction l with
  | nil => intro init; simp
  | cons r l ih =>
    intro init
    rw [List.foldl_cons, ih]
    by_cases h : (includes (lower r.title) nq || includes (lower r.description) nq ||
        includes (lower r.category) nq) = true
    · simp [pushRecommendation, List.filter_cons, h]
    · simp [pushRecommendation, List.filter_cons, h]

theorem foldl_pushIntegration (lower : JsString → JsString) (nq : JsString)
    (l : List Integration) :
    ∀ init : List SearchResult,
      l.foldl (pushIntegration lower nq) init =
        init ++ (l.filter (fun i => includes (lower i.name) nq)).map
          (fun i => ⟨js "integration", i.id, i.name, js "Integration"⟩) := by
  induction l with
  | nil => intro init; simp
  | cons i l ih =>
    intro init
    rw [List.foldl_cons, ih]
    by_cases h : includes (lower i.name) nq = true
    · simp [pushIntegration, List.filter_cons, h]
    · simp [pushIntegration, List.filter_cons, h]

/-- C21. For every query string `q`, `search` resolves to the empty list when
the query is missing or `q` has fewer than 2 code units (the empty string
included); otherwise it resolves to the mock recommendations whose lower-cased
title, description or category includes the lower-cased query, in mock-data
order and each mapped to `{type: 'recommendation', id, title, category}`,
followed by the mock integrations whose lower-cased name includes it, each
mapped to `{type: 'integration', id, title: name, category: 'Integration'}`. -/
theorem search_results (lower : JsString → JsString) (q : JsString) :
    search lower none = [] ∧
    (q.length < 2 → search lower (some q) = []) ∧
    (2 ≤ q.length → search lower (some q) =
      (mockRecommendations.filter (fun r => includes (lower r.title) (lower q) ||
          includes (lower r.description) (lower q) ||
          includes (lower r.category) (lower q))).map
        (fun r => ⟨js "recommendation", r.id, r.title, r.category⟩) ++
      (mockIntegrations.filter (fun i => includes (lower i.name) (lower q))).map
        (fun i => ⟨js "integration", i.id, i.name, js "Integration"⟩)) := by
  refine ⟨rfl, ?_, ?_⟩
  · intro h
    simp [search, h]
  · intro h
    have hne : q ≠ [] := by
      intro h0
      rw [h0] at h
      simp at h
    have hlt : ¬ q.length < 2 := by omega
    simp only [search, hne, hlt, or_self, if_false]
    rw [foldl_pushIntegration, foldl_pushRecommendation, List.nil_append]

set_option maxRecDepth 100000

/-- Witness of C21: a one-letter query gives nothing; the query PRIC finds the
pricing recommendation; the query shop finds the Shopify integration. -/
theorem search_results_witness :
    search asciiLower (some (js "P")) = [] ∧
    search asciiLower (some (js "PRIC")) =
      [⟨js "recommendation", 2, js "Optimize product pricing", js "Pricing"⟩] ∧
    search asciiLower (some (js "shop")) =
      [⟨js "integration", 2, js "Shopify", js "Integration"⟩] ∧
    search asciiLower (some (js "PRIC")) =
      (mockRecommendations.filter (fun r =>
          includes (asciiLower r.title) (asciiLower (js "PRIC")) ||
          includes (asciiLower r.description) (asciiLower (js "PRIC")) ||
          includes (asciiLower r.category) (asciiLower (js "PRIC")))).map
        (fun r => ⟨js "recommendation", r.id, r.title, r.category⟩) ++
      (mockIntegrations.filter (fun i =>
          includes (asciiLower i.name) (asciiLower (js "PRIC")))).map
        (fun i => ⟨js "integration", i.id, i.name, js "Integration"⟩) :=
  ⟨(search_results asciiLower (js "P")).2.1 (by decide), by decide, by decide,
    (search_results asciiLower (js "PRIC")).2.2 (by decide)⟩

/-! ## Revenue data -/

theorem foldl_yearlyStep_length (draw : Nat → Nat → Nat) (l : List Nat) :
    ∀ st : RevenueLoop,
      (l.foldl (yearlyStep draw) st).values.length = st.values.length + l.length := by
  induction l with
  | nil => intro st; rfl
  | cons i l ih =>
    intro st
    rw [List.foldl_cons, ih]
    simp [yearlyStep]
    omega

theorem foldl_dailyStep_length (draw : Nat → Nat → Nat) (points : Nat) (l : List Nat) :
    ∀ st : RevenueLoop,
      (l.foldl (dailyStep draw points) st).values.length = st.values.length + l.length := by
  induction l with
  | nil => intro st; rfl
  | cons i l ih =>
    intro st
    rw [List.foldl_cons, ih]
    simp [dailyStep]
    omega

theorem revenueLoop_values_length (draw : Nat → Nat → Nat) (points : Nat)
    (isYearly : Bool) :
    (revenueLoop draw points isYearly).values.length = if isYearly then 12 else points := by
  cases isYearly
  · simp [revenueLoop, foldl_dailyStep_length]
  · simp [revenueLoop, foldl_yearlyStep_length]

/-- Counterexample to C22: `_generateRevenueData(6, true)` returns a dataset
of 12 values, not of 6, and an average that is the total of the 12 values
divided by 6; with `isYearly` false, 6 points give 6 values. -/
theorem generateRevenueData_yearly_ignores_points :
    dataLengths (generateRevenueData zeroDraw 6 true) = [12] ∧
    dataLengths (generateRevenueData zeroDraw 6 true) ≠ [6] ∧
    (generateRevenueData zeroDraw 6 true).summary.total = 12 * 25000 ∧
    (generateRevenueData zeroDraw 6 true).summary.average = some 50000 ∧
    dataLengths (generateRevenueData zeroDraw 6 false) = [6] := by
  have h12 : dataLengths (generateRevenueData zeroDraw 6 true) = [12] := by
    simp [dataLengths, generateRevenueData, revenueLoop_values_length]
  refine ⟨h12, ?_, ?_, ?_, ?_⟩
  · rw [h12]; decide
  · decide
  · simp [generateRevenueData, revenueLoop, yearlyStep, zeroDraw, List.range, List.range.loop]
    norm_num
  · simp [dataLengths, generateRevenueData, revenueLoop_values_length]

/-- C22 as amended. For every `points` and every random source, the dataset
`_generateRevenueData(points, isYearly)` returns holds `points` values when
`isYearly` is false and the 12 monthly values of a year when `isYearly` is
true, whatever `points` is; so at each of the calls the module makes, with
`(7)`, `(30)`, `(90)` and `(12, true)`, it holds exactly `points` values. -/
theorem generateRevenueData_lengths (draw : Nat → Nat → Nat) (points : Nat)
    (isYearly : Bool) :
    dataLengths (generateRevenueData draw points isYearly)
        = [if isYearly then 12 else points] ∧
      dataLengths (generateRevenueData draw 7 false) = [7] ∧
      dataLengths (generateRevenueData draw 30 false) = [30] ∧
      dataLengths (generateRevenueData draw 90 false) = [90] ∧
      dataLengths (generateRevenueData draw 12 true) = [12] := by
  refine ⟨?_, ?_, ?_, ?_, ?_⟩ <;>
    simp [dataLengths, generateRevenueData, revenueLoop_values_length]

/-! ## Recommendation cards -/

theorem includes_append_self (s t : JsString) : includes (s ++ t) t = true := by
  unfold includes
  exact decide_eq_true (List.suffix_append s t).isInfix

/-- What the card code does when the full text does not itself contain
`'...'`: a description longer than 100 code units is cut to its first 100
followed by `'...'`, a click shows the full text and the next click the cut
text again; a shorter description is left as it is and clicks change
nothing. -/
theorem click_toggles (t : JsString) :
    (100 < t.length → includes t ellipsis = false →
      setupCard t = ⟨t.take 100 ++ ellipsis, true⟩ ∧
      click t (setupCard t) = ⟨t, true⟩ ∧
      click t (click t (setupCard t)) = setupCard t) ∧
    (t.length ≤ 100 → setupCard t = ⟨t, false⟩ ∧ click t (setupCard t) = setupCard t) := by
  constructor
  · intro hlen hno
    have hsetup : setupCard t = ⟨t.take 100 ++ ellipsis, true⟩ := by
      simp [setupCard, hlen]
    have h1 : click t (setupCard t) = ⟨t, true⟩ := by
      rw [hsetup]
      simp [click, includes_append_self]
    refine ⟨hsetup, h1, ?_⟩
    rw [h1, hsetup]
    simp [click, hno]
  · intro hlen
    have hsetup : setupCard t = ⟨t, false⟩ := by
      have : ¬ 100 < t.length := by omega
      simp [setupCard, this]
    refine ⟨hsetup, ?_⟩
    rw [hsetup]
    simp [click]

/-- C23, at a failing input: a description of 107 characters that contains
`'...'`.  The card first shows the first 100 characters and `'...'`; the first
click shows the full text; the second click shows the full text again, not
the text shown before the two clicks. -/
theorem click_gets_stuck :
    100 < dottedText.length ∧
    (setupCard dottedText).textContent = dottedText.take 100 ++ ellipsis ∧
    (click dottedText (setupCard dottedText)).textContent = dottedText ∧
    (click dottedText (click dottedText (setupCard dottedText))).textContent
      = dottedText ∧
    click dottedText (click dottedText (setupCard dottedText)) ≠ setupCard dottedText := by
  decide

/-! ## The bars of the chart -/

/-- The bars `initializeChart` builds: as many as the current month's number
within the year, at most 6, labelled with the months from the later of January
and five months back up to the current month. -/
theorem initializeChart_bars (draw : Nat → Nat → Nat) (fmt : Nat → String) (m : Nat)
    (hm : m < 12) :
    (initializeChart draw fmt m).length = min (m + 1) 6 ∧
      (initializeChart draw fmt m).map Bar.label = (months.take (m + 1)).drop (m - 5) := by
  have hlen : (initializeChart draw fmt m).length = (chartLabels m).length := by
    simp [initializeChart]
  have hlab : (initializeChart draw fmt m).map Bar.label = chartLabels m := by
    simp only [initializeChart, List.map_map]
    have : (Bar.label ∘ fun im : Nat × String =>
        (⟨draw im.1 80 + 20, im.2, "$" ++ fmt ((draw im.1 80 + 20) * 1000)⟩ : Bar))
        = Prod.snd := rfl
    rw [this, List.enum_map_snd]
  rw [hlen, hlab]
  interval_cases m <;> decide

/-- C24, at a failing input: in January (`getMonth()` is 0) `initializeChart`
builds one bar, labelled Jan, not six bars for August to January. -/
theorem initializeChart_in_january :
    (initializeChart zeroDraw toString 0).map Bar.label = ["Jan"] ∧
    (initializeChart zeroDraw toString 0).length = 1 ∧
    (initializeChart zeroDraw toString 0).length ≠ 6 ∧
    (initializeChart zeroDraw toString 4).map Bar.label
      = ["Jan", "Feb", "Mar", "Apr", "May"] ∧
    (initializeChart zeroDraw toString 5).map Bar.label
      = ["Jan", "Feb", "Mar", "Apr", "May", "Jun"] ∧
    (initializeChart zeroDraw toString 11).map Bar.label
      = ["Jul", "Aug", "Sep", "Oct", "Nov", "Dec"] := by
  decide

/-! ## Dates -/

/-- C29. For every date string that denotes a time `d ≥ 0` milliseconds before
now, `formatDate` returns the count and unit of the first applicable case:
`n` minutes with `n = ⌊d / 60000⌋` when `n < 60`, else `h` hours with
`h = ⌊d / 3600000⌋` when `h < 24`, else `k` days with `k = ⌊d / 86400000⌋`,
followed by `ago`; the unit word has no plural ending exactly when the count
is 1.  A missing or empty date string gives `Never`. -/
theorem formatDate_elapsed (parse : String → Option Int) (now date : Int) (s : String)
    (d : Nat)
    (hs : s ≠ "")
    (hp : parse s = some date)
    (hd : now - date = (d : Int)) :
    formatDate parse now (some s) =
        (if d / 60000 < 60 then
          toString (d / 60000) ++ " minute" ++ pluralEnding (d / 60000) ++ " ago"
        else if d / 3600000 < 24 then
          toString (d / 3600000) ++ " hour" ++ pluralEnding (d / 3600000) ++ " ago"
        else
          toString (d / 86400000) ++ " day" ++ pluralEnding (d / 86400000) ++ " ago") ∧
      formatDate parse now none = "Never" ∧
      formatDate parse now (some "") = "Never" := by
  refine ⟨?_, rfl, rfl⟩
  have hmin : ((d : Int) / 60000) = ((d / 60000 : Nat) : Int) := by norm_cast
  have hhour : ((d : Int) / 60000 / 60) = ((d / 3600000 : Nat) : Int) := by
    rw [hmin]
    norm_cast
    rw [Nat.div_div_eq_div_mul]
  have hday : ((d : Int) / 60000 / 60 / 24) = ((d / 86400000 : Nat) : Int) := by
    rw [hhour]
    norm_cast
    rw [Nat.div_div_eq_div_mul]
  have hstr : ∀ n : Nat, toString ((n : Nat) : Int) = toString n := fun _ => rfl
  have hlt : ∀ n k : Nat, (((n : Nat) : Int) < ((k : Nat) : Int)) ↔ n < k := by
    intro n k; exact Int.ofNat_lt
  have hne : ∀ n : Nat, (((n : Nat) : Int) ≠ 1) ↔ n ≠ 1 := by
    intro n; constructor <;> intro h <;> omega
  simp only [formatDate, hs, if_false, hp, hd]
  rw [hday, hhour, hmin]
  simp only [hstr]
  have h60 : ((d / 60000 : Nat) : Int) < 60 ↔ d / 60000 < 60 := by omega
  have h24 : ((d / 3600000 : Nat) : Int) < 24 ↔ d / 3600000 < 24 := by omega
  simp only [h60, h24, hne, pluralEnding]
  by_cases c1 : d / 60000 < 60
  · by_cases e1 : d / 60000 = 1 <;> simp [c1, e1]
  · by_cases c2 : d / 3600000 < 24
    · by_cases e2 : d / 3600000 = 1 <;> simp [c1, c2, e2]
    · by_cases e3 : d / 86400000 = 1 <;> simp [c1, c2, e3]

/-- Witness of C29: one minute, two hours and three days before now. -/
theorem formatDate_elapsed_witness :
    formatDate (fun _ => some 0) 60000 (some "2023-05-15T14:23:10Z") = "1 minute ago" ∧
    formatDate (fun _ => some 0) 7200000 (some "2023-05-15T14:23:10Z") = "2 hours ago" ∧
    formatDate (fun _ => some 0) 259200000 (some "2023-05-15T14:23:10Z") = "3 days ago" ∧
    formatDate (fun _ => some 0) 7200000 (some "2023-05-15T14:23:10Z") =
      (if 7200000 / 60000 < 60 then
        toString (7200000 / 60000) ++ " minute" ++ pluralEnding (7200000 / 60000) ++ " ago"
      else if 7200000 / 3600000 < 24 then
        toString (7200000 / 3600000) ++ " hour" ++ pluralEnding (7200000 / 3600000) ++ " ago"
      else
        toString (7200000 / 86400000) ++ " day" ++ pluralEnding (7200000 / 86400000)
          ++ " ago") :=
  ⟨by decide, by decide, by decide,
    (formatDate_elapsed (fun _ => some 0) 7200000 0 "2023-05-15T14:23:10Z" 7200000
      (by decide) rfl rfl).1⟩

end AnalyticsHub
